import Mathlib

/-!
# Shading and light-sampling core of the path tracer (`src/interactions.h`)

A shallow embedding of the functions of `interactions.h`.

* `float` values are modelled by an arbitrary linearly ordered field `R`; every
  arithmetic operation and comparison is the exact one.  The library functions
  `sqrtf`, `cos`, `sin` and the constants `PI`, `TWO_PI`, `SQRT_OF_ONE_THIRD`
  (macros of a header that is not part of `interactions.h`) are parameters of
  the definitions that use them.  Instantiating `R` with `ℚ` gives executable
  definitions; instantiating it with `ℝ` and `Real.sqrt` gives the ideal
  real-number semantics.
* `glm::vec3` is `Vec3 R`; the `glm` functions are written out from their
  library definitions.
* Rounding, infinities and NaN are not represented: a quotient with a zero
  divisor is the field value `x / 0 = 0`, where the hardware gives an infinity
  or a NaN.  Where a property would hold only through that value, the theorem
  excludes the zero divisor by hypothesis.
* `int` values are modelled by `Int`; array reads `a[i]` return an `Option`,
  which is `none` outside the array.
* The random engine is an explicit stream of uniform draws with a cursor.
* By-reference output parameters become components of the returned value;
  locals that the code reads before writing them are parameters.
-/

set_option autoImplicit false

namespace Interactions

/-! ## Vectors (`glm::vec3`, `glm::vec4`, `glm::mat4`) -/

/-- Model of `glm::vec3`. -/
structure Vec3 (R : Type) where
  x : R
  y : R
  z : R
deriving DecidableEq

/-- Model of `glm::vec4`. -/
structure Vec4 (R : Type) where
  x : R
  y : R
  z : R
  w : R
deriving DecidableEq

/-- Model of `glm::mat4`, stored by columns as in glm. -/
structure Mat4 (R : Type) where
  c0 : Vec4 R
  c1 : Vec4 R
  c2 : Vec4 R
  c3 : Vec4 R
deriving DecidableEq

namespace Vec3

variable {R : Type} [LinearOrderedField R]

/-- The vector `glm::vec3(s)` with all three components equal to `s`. -/
def splat (s : R) : Vec3 R := ⟨s, s, s⟩

/-- Component-wise sum `a + b`. -/
def add (a b : Vec3 R) : Vec3 R := ⟨a.x + b.x, a.y + b.y, a.z + b.z⟩

/-- Component-wise difference `a - b`. -/
def sub (a b : Vec3 R) : Vec3 R := ⟨a.x - b.x, a.y - b.y, a.z - b.z⟩

/-- Unary minus `-a`. -/
def neg (a : Vec3 R) : Vec3 R := ⟨-a.x, -a.y, -a.z⟩

/-- Scalar multiple `s * a` (also `a * s`). -/
def smul (s : R) (a : Vec3 R) : Vec3 R := ⟨s * a.x, s * a.y, s * a.z⟩

/-- Component-wise product `a * b` of two vectors. -/
def mul (a b : Vec3 R) : Vec3 R := ⟨a.x * b.x, a.y * b.y, a.z * b.z⟩

/-- Division of a vector by a scalar, `a / s`. -/
def divs (a : Vec3 R) (s : R) : Vec3 R := ⟨a.x / s, a.y / s, a.z / s⟩

/-- The inner product `glm::dot(a, b)`. -/
def dot (a b : Vec3 R) : R := a.x * b.x + a.y * b.y + a.z * b.z

/-- The vector product `glm::cross(a, b)`. -/
def cross (a b : Vec3 R) : Vec3 R :=
  ⟨a.y * b.z - b.y * a.z, a.z * b.x - b.z * a.x, a.x * b.y - b.x * a.y⟩

/-- The Euclidean norm `glm::length(a) = sqrt(dot(a, a))`. -/
def length (sqrt : R → R) (a : Vec3 R) : R := sqrt (dot a a)

/-- The function `glm::normalize(a) = a * inversesqrt(dot(a, a))`. -/
def normalize (sqrt : R → R) (a : Vec3 R) : Vec3 R := smul (1 / sqrt (dot a a)) a

/-- The function `glm::reflect(I, N) = I - N * dot(N, I) * 2`. -/
def reflect (I N : Vec3 R) : Vec3 R := sub I (smul (dot N I * 2) N)

/-- The function `glm::refract(I, N, eta)`: the zero vector when
`k = 1 - eta² (1 - dot(N, I)²)` is negative, and
`eta * I - (eta * dot(N, I) + sqrt(k)) * N` otherwise. -/
def refract (sqrt : R → R) (I N : Vec3 R) (eta : R) : Vec3 R :=
  let dotValue := dot N I
  let k := 1 - eta * eta * (1 - dotValue * dotValue)
  if k < 0 then splat 0 else sub (smul eta I) (smul (eta * dotValue + sqrt k) N)

end Vec3

/-! ## Scene data (declared in headers outside `interactions.h`) -/

/-- Modelled from the spec: the shape tag of a primitive (its declaration is
in a header that is not part of the sources).  The data model names the two
shapes, sphere and box; `OTHER` stands for every tag value that is neither. -/
inductive GeomType where
  | SPHERE
  | CUBE
  | OTHER
deriving DecidableEq

/-- Modelled from the spec: a geometry primitive, with the fields that
`interactions.h` reads: shape tag, material reference, scene-unique
identifier, scale, object-to-world transform and its inverse transpose. -/
structure Geom (R : Type) where
  type : GeomType
  materialid : Int
  geomId : Int
  scale : Vec3 R
  transform : Mat4 R
  invTranspose : Mat4 R

/-- Modelled from the spec: a ray, an origin and a direction. -/
structure Ray (R : Type) where
  origin : Vec3 R
  direction : Vec3 R

/-- Modelled from the spec: the intersection record with the fields that
`computeRayIntersection` writes. -/
structure ShadeableIntersection (R : Type) where
  t : R
  surfaceNormal : Vec3 R
  surfaceTangent : Vec3 R
  materialId : Int
  geomId : Int

section Intersection

variable {R : Type} [LinearOrderedField R]

/-- The constant `FLT_MAX` of `<cfloat>`, `(2 - 2⁻²³) * 2¹²⁷`. -/
def FLT_MAX : R := 2 ^ 128 - 2 ^ 104

/-- The temporaries that `computeRayIntersection` hands to the shape tests by
reference: `tmp_intersect`, `tmp_normal`, `tmp_tangent` and `outside`. -/
structure Scratch (R : Type) where
  tmp_intersect : Vec3 R
  tmp_normal : Vec3 R
  tmp_tangent : Vec3 R
  outside : Bool

/-- A shape test (`boxIntersectionTest`, `sphereIntersectionTest`): from the
primitive, the ray and the current contents of the by-reference temporaries it
returns the hit parameter and the new contents of the temporaries. -/
abbrev ShapeTest (R : Type) := Geom R → Ray R → Scratch R → R × Scratch R

/-- The local variables of `computeRayIntersection` during the scan. -/
structure ScanState (R : Type) where
  t : R
  scratch : Scratch R
  t_min : R
  hit_geom_index : Int
  intersect_point : Vec3 R
  normal : Vec3 R
  tangent : Vec3 R

/-- The indeterminate initial contents of the locals that
`computeRayIntersection` declares without an initialiser. -/
structure Uninit (R : Type) where
  t : R
  intersect_point : Vec3 R
  normal : Vec3 R
  tangent : Vec3 R
  tmp_intersect : Vec3 R
  tmp_normal : Vec3 R
  tmp_tangent : Vec3 R

/-- The locals of `computeRayIntersection` on entry to the loop:
`t_min = FLT_MAX`, `hit_geom_index = -1`, `outside = true`, everything else
indeterminate. -/
def scanInit (u : Uninit R) : ScanState R :=
  { t := u.t
    scratch := ⟨u.tmp_intersect, u.tmp_normal, u.tmp_tangent, true⟩
    t_min := FLT_MAX
    hit_geom_index := -1
    intersect_point := u.intersect_point
    normal := u.normal
    tangent := u.tangent }

/-- The shape dispatch of one loop iteration: the box test for `CUBE`, the
sphere test for `SPHERE`; for any other tag nothing is assigned, so `t` and
the temporaries keep their previous contents. -/
def dispatch (box sphere : ShapeTest R) (ray : Ray R) (geom : Geom R)
    (s : ScanState R) : R × Scratch R :=
  if geom.type = GeomType.CUBE then box geom ray s.scratch
  else if geom.type = GeomType.SPHERE then sphere geom ray s.scratch
  else (s.t, s.scratch)

/-- One iteration of the loop of `computeRayIntersection`, for index `i`. -/
def scanStep (box sphere : ShapeTest R) (ray : Ray R) (i : Nat) (geom : Geom R)
    (s : ScanState R) : ScanState R :=
  let r := dispatch box sphere ray geom s
  if r.1 > 0 ∧ s.t_min > r.1 then
    { t := r.1
      scratch := r.2
      t_min := r.1
      hit_geom_index := i
      intersect_point := r.2.tmp_intersect
      normal := r.2.tmp_normal
      tangent := r.2.tmp_tangent }
  else
    { s with t := r.1, scratch := r.2 }

/-- The loop `for (int i = 0; i < geoms_size; i++)`, entered at index `i` with
the primitives from `i` on still to visit. -/
def scanLoop (box sphere : ShapeTest R) (ray : Ray R) :
    Nat → List (Geom R) → ScanState R → ScanState R
  | _, [], s => s
  | i, geom :: rest, s => scanLoop box sphere ray (i + 1) rest (scanStep box sphere ray i geom s)

/-- The function `computeRayIntersection`: the primitive array is the list
`geoms` (`geoms_size` is its length), `intersection` is the record passed by
reference, of which a miss overwrites only `t`. -/
def computeRayIntersection (box sphere : ShapeTest R) (u : Uninit R)
    (geoms : List (Geom R)) (ray : Ray R) (intersection : ShadeableIntersection R) :
    ShadeableIntersection R :=
  let s := scanLoop box sphere ray 0 geoms (scanInit u)
  if s.hit_geom_index = -1 then
    { intersection with t := -1 }
  else
    { t := s.t_min
      materialId :=
        match geoms[s.hit_geom_index.toNat]? with
        | some g => g.materialid
        | none => intersection.materialId
      geomId := s.hit_geom_index
      surfaceNormal := s.normal
      surfaceTangent := s.tangent }

/-- The results of the shape tests in the order the scan runs them: for each
primitive the returned hit parameter and the temporaries as the test left
them.  `sc` holds the temporaries before the first test. -/
def testOutputs (box sphere : ShapeTest R) (ray : Ray R) :
    List (Geom R) → Scratch R → List (R × Scratch R)
  | [], _ => []
  | geom :: rest, sc =>
    let r := if geom.type = GeomType.CUBE then box geom ray sc else sphere geom ray sc
    r :: testOutputs box sphere ray rest r.2

/-- The hit parameters returned by the shape tests during the scan of
`computeRayIntersection`, in scan order. -/
def shapeValues (box sphere : ShapeTest R) (u : Uninit R) (geoms : List (Geom R))
    (ray : Ray R) : List R :=
  (testOutputs box sphere ray geoms (scanInit u).scratch).map Prod.fst

end Intersection

/-! ## Materials, random draws and the BSDF samplers -/

/-- Modelled from the spec: the specular part of a material (exponent and
specular color), as `interactions.h` reads it through `m.specular.color`. -/
structure Specular (R : Type) where
  exponent : R
  color : Vec3 R

/-- Modelled from the spec: a material: base color, specular color,
reflectivity weight, transmissivity weight, index of refraction, emittance. -/
structure Material (R : Type) where
  color : Vec3 R
  specular : Specular R
  hasReflective : R
  hasRefractive : R
  indexOfRefraction : R
  emittance : R

/-- The random engine as `interactions.h` uses it: a stream of uniform draws
and the number of draws consumed so far. -/
structure Rng (R : Type) where
  draws : Nat → R
  pos : Nat

/-- One call `u01(rng)`: the next draw, and the engine advanced by one. -/
def u01 {R : Type} (rng : Rng R) : R × Rng R :=
  (rng.draws rng.pos, { rng with pos := rng.pos + 1 })

/-- The library functions and macro constants that `interactions.h` uses and
does not define: `sqrt`/`sqrtf`, `cos`, `sin`, `PI`, `TWO_PI` and
`SQRT_OF_ONE_THIRD`. -/
structure MathEnv (R : Type) where
  sqrt : R → R
  cos : R → R
  sin : R → R
  PI : R
  TWO_PI : R
  SQRT_OF_ONE_THIRD : R

section Bsdf

variable {R : Type} [LinearOrderedField R]

/-- The function `calculateRandomDirectionInHemisphere`: the returned
direction, the value written to `pdf`, and the engine after its two draws. -/
def calculateRandomDirectionInHemisphere (E : MathEnv R) (normal : Vec3 R) (rng : Rng R) :
    Vec3 R × R × Rng R :=
  let d1 := u01 rng
  let up := E.sqrt d1.1
  let over := E.sqrt (1 - up * up)
  let d2 := u01 d1.2
  let around := d2.1 * E.TWO_PI
  let pdf := up / E.PI
  let directionNotNormal : Vec3 R :=
    if |normal.x| < E.SQRT_OF_ONE_THIRD then ⟨1, 0, 0⟩
    else if |normal.y| < E.SQRT_OF_ONE_THIRD then ⟨0, 1, 0⟩
    else ⟨0, 0, 1⟩
  let perpendicularDirection1 := Vec3.normalize E.sqrt (Vec3.cross normal directionNotNormal)
  let perpendicularDirection2 :=
    Vec3.normalize E.sqrt (Vec3.cross normal perpendicularDirection1)
  (Vec3.add
      (Vec3.add (Vec3.smul up normal) (Vec3.smul (E.cos around * over) perpendicularDirection1))
      (Vec3.smul (E.sin around * over) perpendicularDirection2),
    pdf, d2.2)

/-- The function `fresnelDielectricEval`. -/
def fresnelDielectricEval (sqrt : R → R) (cosi etai etat : R) : R :=
  let etai1 := if cosi > 0 then etat else etai
  let etat1 := if cosi > 0 then etai else etat
  let cosi1 := |cosi|
  let sint := (etai1 / etat1) * sqrt (max 0 (1 - cosi1 * cosi1))
  if sint ≥ 1 then
    1
  else
    let cost := sqrt (max 0 (1 - sint * sint))
    let Rparl := ((etat1 * cosi1) - (etai1 * cost)) / ((etat1 * cosi1) + (etai1 * cost))
    let Rperp := ((etai1 * cosi1) - (etat1 * cost)) / ((etai1 * cosi1) + (etat1 * cost))
    (Rparl * Rparl + Rperp * Rperp) / 2

/-- The function `sampleSpecularReflectMaterial`: the returned value and the
direction written to `wi`. -/
def sampleSpecularReflectMaterial (sqrt : R → R) (m : Material R) (normal wo : Vec3 R) :
    Vec3 R × Vec3 R :=
  let wi := Vec3.normalize sqrt (Vec3.reflect wo normal)
  (Vec3.divs m.specular.color |Vec3.dot (Vec3.normalize sqrt wi) normal|, wi)

/-- The function `sampleSpecularTransmissionMaterial`: the returned value and
the direction written to `wi`. -/
def sampleSpecularTransmissionMaterial (sqrt : R → R) (m : Material R) (normal wo : Vec3 R) :
    Vec3 R × Vec3 R :=
  let etaA : R := 1
  let etaB := m.indexOfRefraction
  let ni := Vec3.dot wo normal
  let entering : Bool := decide (ni < 0)
  let etaI := if entering then etaA else etaB
  let etaT := if entering then etaB else etaA
  let nor := if entering then normal else Vec3.neg normal
  let wi :=
    if etaI / etaT * sqrt (max 0 (1 - ni * ni)) > 1 then
      Vec3.normalize sqrt (Vec3.reflect wo nor)
    else
      Vec3.normalize sqrt (Vec3.refract sqrt wo nor (etaI / etaT))
  (Vec3.divs m.specular.color |Vec3.dot wi nor|, wi)

/-- The reflectance `F` that `sampleFresnelSpecularMaterial` compares with its
uniform draw: `fresnelDielectricEval(-cosThetaI, 1.0f, m.indexOfRefraction)`
with `cosThetaI = abs(dot(wo, normal))`. -/
def fresnelF (sqrt : R → R) (m : Material R) (normal wo : Vec3 R) : R :=
  let cosThetaI := |Vec3.dot wo normal|
  fresnelDielectricEval sqrt (-cosThetaI) 1 m.indexOfRefraction

/-- The function `sampleFresnelSpecularMaterial`: the returned value, the
direction written to `wi`, and the engine after its single draw. -/
def sampleFresnelSpecularMaterial (sqrt : R → R) (m : Material R) (normal wo : Vec3 R)
    (rng : Rng R) : Vec3 R × Vec3 R × Rng R :=
  let F := fresnelF sqrt m normal wo
  let d := u01 rng
  let u := d.1
  if u < F then
    let r := sampleSpecularReflectMaterial sqrt m normal wo
    (r.1, r.2, d.2)
  else
    let r := sampleSpecularTransmissionMaterial sqrt m normal wo
    (r.1, r.2, d.2)

/-- What `sampleMaterial` hands back: its return value `f` and the contents of
the by-reference parameters `wi`, `pdf`, `specular` and `rng` on return. -/
structure BsdfSample (R : Type) where
  f : Vec3 R
  wi : Vec3 R
  pdf : R
  specular : Bool
  rng : Rng R

/-- The function `sampleMaterial`. -/
def sampleMaterial (E : MathEnv R) (intersect normal tangent : Vec3 R) (m : Material R)
    (wo : Vec3 R) (rng : Rng R) : BsdfSample R :=
  if m.hasReflective > 0 ∧ m.hasRefractive > 0 then
    let r := sampleFresnelSpecularMaterial E.sqrt m normal wo rng
    { f := r.1, wi := r.2.1, pdf := 1, specular := true, rng := r.2.2 }
  else if m.hasReflective > 0 then
    let r := sampleSpecularReflectMaterial E.sqrt m normal wo
    { f := r.1, wi := r.2, pdf := 1, specular := true, rng := rng }
  else if m.hasRefractive > 0 then
    let r := sampleSpecularTransmissionMaterial E.sqrt m normal wo
    { f := r.1, wi := r.2, pdf := 1, specular := true, rng := rng }
  else
    let r := calculateRandomDirectionInHemisphere E normal rng
    { f := Vec3.divs m.color E.PI
      wi := Vec3.normalize E.sqrt r.1
      pdf := r.2.1
      specular := false
      rng := r.2.2 }

end Bsdf

/-! ## Path integrator update, power heuristic and light sampling -/

/-- Modelled from the spec: a path segment: its ray, the accumulated
throughput color, the pixel index and the remaining-bounce counter (an `int`,
modelled by an integer). -/
structure PathSegment (R : Type) where
  ray : Ray R
  color : Vec3 R
  pixelIndex : Int
  remainingBounces : Int

/-- Modelled from the spec: the light-type tag.  Only `AREA` is implemented;
`OTHER` stands for every other tag value. -/
inductive LightType where
  | AREA
  | OTHER
deriving DecidableEq

/-- Modelled from the spec: a light, the emitting geometry primitive and a
light-type tag. -/
structure Light (R : Type) where
  geom : Geom R
  lightType : LightType

/-- An array read `xs[i]` with an `int` index: `none` when the index lies
outside the array. -/
def readAt {α : Type} (xs : List α) (i : Int) : Option α :=
  if 0 ≤ i then xs[i.toNat]? else none

/-- What `sampleAreaLight` hands back: its return value (`none` when the read
of `materials` leaves the array) and the contents of the by-reference
parameters `wiW`, `pdf` and `rng` on return. -/
structure LightSample (R : Type) where
  radiance : Option (Vec3 R)
  wiW : Vec3 R
  pdf : R
  rng : Rng R

/-- What `sampleLight` hands back: its return value and the contents of the
by-reference parameters `wi`, `chosenLight`, `lightPDF` and `rng` on return. -/
structure LightPick (R : Type) where
  radiance : Option (Vec3 R)
  wi : Vec3 R
  chosenLight : Light R
  lightPDF : R
  rng : Rng R

section Integrator

variable {R : Type} [LinearOrderedField R]

/-- The function `powerHeuristic`. -/
def powerHeuristic (nf : Int) (fPdf : R) (ng : Int) (gPdf : R) : R :=
  let f := (nf : R) * fPdf
  let g := (ng : R) * gPdf
  (f * f) / (g * g + f * f)

/-- The function `scatterRay`: the path segment and the engine after the
call.  The literal `0.001f` is taken as `1/1000`. -/
def scatterRay (E : MathEnv R) (pathSegment : PathSegment R) (intersect normal tangent : Vec3 R)
    (m : Material R) (rng : Rng R) : PathSegment R × Rng R :=
  let dir := pathSegment.ray.direction
  let s := sampleMaterial E intersect normal tangent m dir rng
  let color1 := Vec3.mul pathSegment.color s.f
  let direction := s.wi
  let pdf := s.pdf
  let color2 :=
    Vec3.smul (|Vec3.dot (Vec3.normalize E.sqrt direction) normal| / pdf) color1
  ({ ray := { origin := Vec3.add intersect (Vec3.smul (1 / 1000) direction)
              direction := direction }
     color := color2
     pixelIndex := pathSegment.pixelIndex
     remainingBounces := pathSegment.remainingBounces - 1 }, s.rng)

/-- The product `m * v` of a `glm::mat4` and a `glm::vec4`. -/
def Mat4.mulVec (m : Mat4 R) (v : Vec4 R) : Vec4 R :=
  ⟨m.c0.x * v.x + m.c1.x * v.y + m.c2.x * v.z + m.c3.x * v.w,
    m.c0.y * v.x + m.c1.y * v.y + m.c2.y * v.z + m.c3.y * v.w,
    m.c0.z * v.x + m.c1.z * v.y + m.c2.z * v.z + m.c3.z * v.w,
    m.c0.w * v.x + m.c1.w * v.y + m.c2.w * v.z + m.c3.w * v.w⟩

/-- Modelled from the spec: the helper `multiplyMV` (defined outside
`interactions.h`), which transforms a `vec4` by a `mat4` and keeps the first
three components. -/
def multiplyMV (m : Mat4 R) (v : Vec4 R) : Vec3 R :=
  ⟨(Mat4.mulVec m v).x, (Mat4.mulVec m v).y, (Mat4.mulVec m v).z⟩

/-- The function `sampleAreaLight`.  The shape tests, the indeterminate locals
of the scan and the indeterminate local record `intersection` are those of the
shadow-ray call of `computeRayIntersection`; `wiW0` and `pdf0` are the
contents of `wiW` and `pdf` on entry.  The two draws stand in one constructor
call `glm::vec4(u01(rng) - 0.5f, 0.0f, u01(rng) - 0.5f, 1.0f)`, whose argument
evaluation order the language leaves open: `leftToRight` says whether the
first draw becomes the `x` coordinate.  The literal `0.01f` is taken as
`1/100`. -/
def sampleAreaLight (E : MathEnv R) (box sphere : ShapeTest R) (u : Uninit R)
    (intersection0 : ShadeableIntersection R) (leftToRight : Bool) (light : Light R)
    (view_point view_nor : Vec3 R) (num_lights : Int) (wiW0 : Vec3 R) (pdf0 : R)
    (geoms : List (Geom R)) (materials : List (Material R)) (rng : Rng R) : LightSample R :=
  if light.geom.type = GeomType.CUBE then
    let t := light.geom.transform
    let d1 := u01 rng
    let d2 := u01 d1.2
    let sample : Vec4 R :=
      if leftToRight then ⟨d1.1 - 1 / 2, 0, d2.1 - 1 / 2, 1⟩
      else ⟨d2.1 - 1 / 2, 0, d1.1 - 1 / 2, 1⟩
    let light_point_W := Mat4.mulVec t sample
    let light_nor_W :=
      Vec3.normalize E.sqrt (multiplyMV light.geom.invTranspose ⟨0, 1, 0, 0⟩)
    let dis := Vec3.sub ⟨light_point_W.x, light_point_W.y, light_point_W.z⟩ view_point
    let r := Vec3.length E.sqrt dis
    let costheta := |Vec3.dot (Vec3.neg (Vec3.normalize E.sqrt dis)) light_nor_W|
    let pdf :=
      r * r / (costheta * light.geom.scale.x * light.geom.scale.z * (num_lights : R))
    let wiW := Vec3.normalize E.sqrt dis
    let shadowRay : Ray R :=
      { origin := Vec3.add view_point (Vec3.smul (1 / 100) wiW), direction := wiW }
    let intersection := computeRayIntersection box sphere u geoms shadowRay intersection0
    if intersection.t ≥ 0 ∧ intersection.geomId = light.geom.geomId then
      { radiance :=
          (readAt materials intersection.materialId).map
            (fun mat => Vec3.smul mat.emittance mat.color)
        wiW := wiW, pdf := pdf, rng := d2.2 }
    else
      { radiance := some (Vec3.splat 0), wiW := wiW, pdf := pdf, rng := d2.2 }
  else
    { radiance := some (Vec3.splat 0), wiW := wiW0, pdf := pdf0, rng := rng }

/-- The local-space sample point of `sampleAreaLight`,
`glm::vec4(u01(rng) - 0.5f, 0.0f, u01(rng) - 0.5f, 1.0f)`, named for use in
statements: the draws at `rng.pos` and `rng.pos + 1`, the first of them in the
`x` coordinate when `leftToRight` holds. -/
def areaLightSample (leftToRight : Bool) (rng : Rng R) : Vec4 R :=
  if leftToRight then ⟨rng.draws rng.pos - 1 / 2, 0, rng.draws (rng.pos + 1) - 1 / 2, 1⟩
  else ⟨rng.draws (rng.pos + 1) - 1 / 2, 0, rng.draws rng.pos - 1 / 2, 1⟩

/-- The vector `dis` of `sampleAreaLight`, from the shading point to the
world-space light point `light.geom.transform * sample`, named for use in
statements. -/
def areaLightDis (light : Light R) (view_point : Vec3 R) (sample : Vec4 R) : Vec3 R :=
  Vec3.sub
    ⟨(Mat4.mulVec light.geom.transform sample).x, (Mat4.mulVec light.geom.transform sample).y,
      (Mat4.mulVec light.geom.transform sample).z⟩ view_point

/-- The shadow ray of `sampleAreaLight` for the direction `wiW`: origin
`view_point + 0.01f * wiW`, direction `wiW`, named for use in statements. -/
def shadowRayOf (view_point wiW : Vec3 R) : Ray R :=
  { origin := Vec3.add view_point (Vec3.smul (1 / 100) wiW), direction := wiW }

variable [FloorRing R]

/-- The conversion `(int)x` of a `float`: truncation toward zero. -/
def truncToInt (x : R) : Int := if 0 ≤ x then ⌊x⌋ else ⌈x⌉

/-- The index `chosenLightIndex = (int)(u01(rng) * num_lights)` of
`sampleLight`, for the draw `u`. -/
def chosenLightIndex (u : R) (num_lights : Int) : Int := truncToInt (u * (num_lights : R))

/-- The function `sampleLight`: `none` when the read `lights[chosenLightIndex]`
leaves the array `lights`.  `wi0` and `lightPDF0` are the contents of `wi` and
`lightPDF` on entry; the leading parameters are those of `sampleAreaLight`. -/
def sampleLight (E : MathEnv R) (box sphere : ShapeTest R) (u : Uninit R)
    (intersection0 : ShadeableIntersection R) (leftToRight : Bool)
    (intersect normal wi0 : Vec3 R) (rng : Rng R) (lightPDF0 : R)
    (geoms : List (Geom R)) (materials : List (Material R)) (lights : List (Light R))
    (num_lights : Int) : Option (LightPick R) :=
  let d := u01 rng
  match readAt lights (chosenLightIndex d.1 num_lights) with
  | none => none
  | some chosenLight =>
    if chosenLight.lightType = LightType.AREA then
      let s := sampleAreaLight E box sphere u intersection0 leftToRight chosenLight intersect
        normal num_lights wi0 lightPDF0 geoms materials d.2
      some { radiance := s.radiance, wi := s.wiW, chosenLight := chosenLight,
             lightPDF := s.pdf, rng := s.rng }
    else
      some { radiance := some (Vec3.splat 0), wi := wi0, chosenLight := chosenLight,
             lightPDF := lightPDF0, rng := d.2 }

end Integrator

/-! ## Exactness of the library functions, and example inputs -/

section Examples

variable {R : Type} [LinearOrderedField R]

/-- The function `sqrt` is an exact square root on the non-negative elements. -/
def IsSqrt (sqrt : R → R) : Prop := ∀ x, 0 ≤ x → 0 ≤ sqrt x ∧ sqrt x * sqrt x = x

/-- A diffuse material: base color `(1/2, 1/4, 1)`, no reflective and no
refractive weight. -/
def diffuseMaterial : Material R :=
  { color := ⟨1 / 2, 1 / 4, 1⟩, specular := ⟨0, ⟨1, 1, 1⟩⟩, hasReflective := 0,
    hasRefractive := 0, indexOfRefraction := 1, emittance := 0 }

/-- A mirror material: specular color `(1, 1/2, 1/4)`, reflective only. -/
def mirrorMaterial : Material R :=
  { color := ⟨1, 1, 1⟩, specular := ⟨0, ⟨1, 1 / 2, 1 / 4⟩⟩, hasReflective := 1,
    hasRefractive := 0, indexOfRefraction := 1, emittance := 0 }

/-- A dielectric with both weights positive and index of refraction `39/25`. -/
def glassMaterial : Material R :=
  { color := ⟨1, 1, 1⟩, specular := ⟨0, ⟨1, 1, 1⟩⟩, hasReflective := 1,
    hasRefractive := 1, indexOfRefraction := 39 / 25, emittance := 0 }

/-- The identity matrix. -/
def unitMat : Mat4 R := ⟨⟨1, 0, 0, 0⟩, ⟨0, 1, 0, 0⟩, ⟨0, 0, 1, 0⟩, ⟨0, 0, 0, 1⟩⟩

/-- A box light of scale `(2, 1, 2)` with untransformed geometry, geometry id
0 and material 0. -/
def boxLight : Light R :=
  { geom := { type := GeomType.CUBE, materialid := 0, geomId := 0, scale := ⟨2, 1, 2⟩,
              transform := unitMat, invTranspose := unitMat }
    lightType := LightType.AREA }

/-- An emitting material: color `(1, 1, 1/2)`, emittance 5. -/
def emissiveMaterial : Material R :=
  { color := ⟨1, 1, 1 / 2⟩, specular := ⟨0, ⟨0, 0, 0⟩⟩, hasReflective := 0,
    hasRefractive := 0, indexOfRefraction := 1, emittance := 5 }

/-- A shape test that reports the hit parameter `t` for every primitive. -/
def constTest (t : R) : ShapeTest R := fun _ _ sc => (t, sc)

/-- Indeterminate locals that happen to hold zeros. -/
def zeroUninit : Uninit R :=
  ⟨0, ⟨0, 0, 0⟩, ⟨0, 0, 0⟩, ⟨0, 0, 0⟩, ⟨0, 0, 0⟩, ⟨0, 0, 0⟩, ⟨0, 0, 0⟩⟩

/-- An indeterminate intersection record that happens to hold zeros. -/
def zeroRecord : ShadeableIntersection R := ⟨0, ⟨0, 0, 0⟩, ⟨0, 0, 0⟩, 0, 0⟩

/-- A shape test that reports the hit parameter `geom.scale.y`. -/
def scaleYTest : ShapeTest R := fun geom _ sc => (geom.scale.y, sc)

/-- A sphere with geometry id 1 and `scale.y = 1/2`, which `scaleYTest` hits
nearer than the box light. -/
def occluder : Geom R :=
  { type := GeomType.SPHERE, materialid := 0, geomId := 1, scale := ⟨1, 1 / 2, 1⟩,
    transform := unitMat, invTranspose := unitMat }

end Examples

/-! ## Concrete scenes over `ℚ` -/

section Fixtures

/-- The zero vector over `ℚ`. -/
def zeroVec : Vec3 ℚ := ⟨0, 0, 0⟩

/-- The identity matrix over `ℚ`. -/
def identityMat : Mat4 ℚ := ⟨⟨1, 0, 0, 0⟩, ⟨0, 1, 0, 0⟩, ⟨0, 0, 1, 0⟩, ⟨0, 0, 0, 1⟩⟩

/-- A primitive of the given type and material with unit transform. -/
def mkGeom (ty : GeomType) (materialid : Int) (sx : ℚ) : Geom ℚ :=
  { type := ty, materialid := materialid, geomId := 0, scale := ⟨sx, 1, 1⟩,
    transform := identityMat, invTranspose := identityMat }

/-- A ray from the origin along the z axis. -/
def rayZ : Ray ℚ := ⟨zeroVec, ⟨0, 0, 1⟩⟩

/-- Indeterminate locals that happen to hold `t0` and zero vectors. -/
def uninitWith (t0 : ℚ) : Uninit ℚ := ⟨t0, zeroVec, zeroVec, zeroVec, zeroVec, zeroVec, zeroVec⟩

/-- An intersection record as a caller might pass it in: `t = 0`, ids `7`. -/
def staleRecord : ShadeableIntersection ℚ := ⟨0, zeroVec, zeroVec, 7, 7⟩

/-- A shape test that reports the hit parameter `geom.scale.x` and writes the
primitive's scale as normal and tangent. -/
def scaleTest : ShapeTest ℚ := fun geom _ sc =>
  (geom.scale.x, { sc with tmp_normal := geom.scale, tmp_tangent := geom.scale })

/-- A shape test that reports the hit parameter `FLT_MAX`. -/
def farTest : ShapeTest ℚ := fun _ _ sc => (FLT_MAX, sc)

/-- A box at distance 5 followed by two spheres at distance 3. -/
def sceneTie : List (Geom ℚ) :=
  [mkGeom GeomType.CUBE 10 5, mkGeom GeomType.SPHERE 11 3, mkGeom GeomType.SPHERE 12 3]

end Fixtures

/-! # Lemmas -/

/-! ## Vector algebra and square roots -/

section VectorLemmas

variable {R : Type} [LinearOrderedField R]

theorem IsSqrt.one {sqrt : R → R} (h : IsSqrt sqrt) : sqrt 1 = 1 := by
  obtain ⟨h0, h1⟩ := h 1 (by norm_num)
  nlinarith

theorem IsSqrt.zero {sqrt : R → R} (h : IsSqrt sqrt) : sqrt 0 = 0 := by
  obtain ⟨_, h1⟩ := h 0 le_rfl
  exact mul_self_eq_zero.1 h1

theorem Vec3.normalize_of_unit (sqrt : R → R) (v : Vec3 R) (hsqrt : sqrt 1 = 1)
    (hv : Vec3.dot v v = 1) : Vec3.normalize sqrt v = v := by
  cases v
  simp [Vec3.normalize, Vec3.smul, hv, hsqrt]

theorem Vec3.dot_reflect_reflect (wo n : Vec3 R) (hn : Vec3.dot n n = 1) :
    Vec3.dot (Vec3.reflect wo n) (Vec3.reflect wo n) = Vec3.dot wo wo := by
  cases wo with | mk a b c =>
  cases n with | mk p q r =>
  simp only [Vec3.dot, Vec3.reflect, Vec3.sub, Vec3.smul] at *
  linear_combination (4 * (p * a + q * b + r * c) ^ 2) * hn

theorem Vec3.dot_reflect_normal (wo n : Vec3 R) (hn : Vec3.dot n n = 1) :
    Vec3.dot (Vec3.reflect wo n) n = -Vec3.dot wo n := by
  cases wo with | mk a b c =>
  cases n with | mk p q r =>
  simp only [Vec3.dot, Vec3.reflect, Vec3.sub, Vec3.smul] at *
  linear_combination (-2 * (p * a + q * b + r * c)) * hn

theorem Vec3.smul_divs_cancel (v : Vec3 R) (a : R) (ha : a ≠ 0) :
    Vec3.smul a (Vec3.divs v a) = v := by
  cases v
  simp only [Vec3.smul, Vec3.divs, Vec3.mk.injEq]
  refine ⟨?_, ?_, ?_⟩ <;> field_simp

theorem Vec3.dot_comm (a b : Vec3 R) : Vec3.dot a b = Vec3.dot b a := by
  simp only [Vec3.dot]; ring

theorem Vec3.dot_neg_right (a b : Vec3 R) : Vec3.dot a (Vec3.neg b) = -Vec3.dot a b := by
  simp only [Vec3.dot, Vec3.neg]; ring

theorem Vec3.dot_neg_neg (a : Vec3 R) : Vec3.dot (Vec3.neg a) (Vec3.neg a) = Vec3.dot a a := by
  simp only [Vec3.dot, Vec3.neg]; ring

theorem Vec3.reflect_neg (wo n : Vec3 R) : Vec3.reflect wo (Vec3.neg n) = Vec3.reflect wo n := by
  simp only [Vec3.reflect, Vec3.dot, Vec3.neg, Vec3.sub, Vec3.smul, Vec3.mk.injEq]
  refine ⟨?_, ?_, ?_⟩ <;> ring

/-- The Lagrange identity `|a × b|² = |a|² |b|² - (a . b)²`. -/
theorem Vec3.dot_cross_cross (a b : Vec3 R) :
    Vec3.dot (Vec3.cross a b) (Vec3.cross a b) =
      Vec3.dot a a * Vec3.dot b b - Vec3.dot a b * Vec3.dot a b := by
  simp only [Vec3.dot, Vec3.cross]; ring

/-- The Cauchy-Schwarz inequality for unit vectors. -/
theorem Vec3.dot_sq_le_one (a b : Vec3 R) (ha : Vec3.dot a a = 1) (hb : Vec3.dot b b = 1) :
    Vec3.dot a b * Vec3.dot a b ≤ 1 := by
  have h := Vec3.dot_cross_cross a b
  have hnn : 0 ≤ Vec3.dot (Vec3.cross a b) (Vec3.cross a b) := by
    simp only [Vec3.dot]
    exact add_nonneg (add_nonneg (mul_self_nonneg _) (mul_self_nonneg _)) (mul_self_nonneg _)
  rw [ha, hb] at h
  linarith

/-- The refracted vector of `glm::refract` for unit arguments when the
radicand `k` is not negative: it is a unit vector, its component along `N` is
`-sqrt k`, and its component perpendicular to `N` is `eta` times that of `I`. -/
theorem Vec3.refract_spec (sqrt : R → R) (I N : Vec3 R) (eta : R) (hsqrt : IsSqrt sqrt)
    (hI : Vec3.dot I I = 1) (hN : Vec3.dot N N = 1)
    (hk : 0 ≤ 1 - eta * eta * (1 - Vec3.dot N I * Vec3.dot N I)) :
    Vec3.dot (Vec3.refract sqrt I N eta) (Vec3.refract sqrt I N eta) = 1 ∧
    Vec3.dot (Vec3.refract sqrt I N eta) N =
      -sqrt (1 - eta * eta * (1 - Vec3.dot N I * Vec3.dot N I)) ∧
    Vec3.sub (Vec3.refract sqrt I N eta)
        (Vec3.smul (Vec3.dot (Vec3.refract sqrt I N eta) N) N) =
      Vec3.smul eta (Vec3.sub I (Vec3.smul (Vec3.dot I N) N)) := by
  obtain ⟨_, hs⟩ := hsqrt _ hk
  have hr : Vec3.refract sqrt I N eta =
      Vec3.sub (Vec3.smul eta I)
        (Vec3.smul (eta * Vec3.dot N I +
          sqrt (1 - eta * eta * (1 - Vec3.dot N I * Vec3.dot N I))) N) := by
    simp only [Vec3.refract]
    rw [if_neg (not_lt_of_le hk)]
  rw [hr]
  generalize sqrt (1 - eta * eta * (1 - Vec3.dot N I * Vec3.dot N I)) = sk at hs
  cases I with | mk a b c =>
  cases N with | mk p q r =>
  simp only [Vec3.dot, Vec3.sub, Vec3.smul, Vec3.mk.injEq] at *
  refine ⟨?_, ?_, ?_, ?_, ?_⟩
  · linear_combination (eta ^ 2) * hI + ((eta * (p * a + q * b + r * c) + sk) ^ 2) * hN + hs
  · linear_combination (-(eta * (p * a + q * b + r * c) + sk)) * hN
  · linear_combination (p * (eta * (p * a + q * b + r * c) + sk)) * hN
  · linear_combination (q * (eta * (p * a + q * b + r * c) + sk)) * hN
  · linear_combination (r * (eta * (p * a + q * b + r * c) + sk)) * hN

theorem Vec3.dot_cross_left (a b : Vec3 R) : Vec3.dot (Vec3.cross a b) a = 0 := by
  simp only [Vec3.dot, Vec3.cross]; ring

theorem Vec3.dot_cross_right (a b : Vec3 R) : Vec3.dot (Vec3.cross a b) b = 0 := by
  simp only [Vec3.dot, Vec3.cross]; ring

theorem Vec3.dot_smul_left (s : R) (a b : Vec3 R) :
    Vec3.dot (Vec3.smul s a) b = s * Vec3.dot a b := by
  simp only [Vec3.dot, Vec3.smul]; ring

theorem Vec3.dot_smul_smul (s : R) (a : Vec3 R) :
    Vec3.dot (Vec3.smul s a) (Vec3.smul s a) = s * s * Vec3.dot a a := by
  simp only [Vec3.dot, Vec3.smul]; ring

/-- Normalising a vector of positive squared length gives a unit vector. -/
theorem Vec3.dot_normalize_normalize (sqrt : R → R) (v : Vec3 R) (hsqrt : IsSqrt sqrt)
    (hv : 0 < Vec3.dot v v) :
    Vec3.dot (Vec3.normalize sqrt v) (Vec3.normalize sqrt v) = 1 := by
  obtain ⟨_, h1⟩ := hsqrt _ (le_of_lt hv)
  have hne : sqrt (Vec3.dot v v) ≠ 0 := by
    intro h0
    rw [h0] at h1
    linarith
  simp only [Vec3.normalize]
  rw [Vec3.dot_smul_smul]
  nth_rewrite 3 [← h1]
  field_simp

/-- The frame sum `up n + A p1 + B p2` over an orthonormal frame. -/
theorem Vec3.frame_sum (n p1 p2 : Vec3 R) (up A B : R)
    (hn : Vec3.dot n n = 1) (h1 : Vec3.dot p1 p1 = 1) (h2 : Vec3.dot p2 p2 = 1)
    (h1n : Vec3.dot p1 n = 0) (h2n : Vec3.dot p2 n = 0) (h21 : Vec3.dot p2 p1 = 0) :
    Vec3.dot (Vec3.add (Vec3.add (Vec3.smul up n) (Vec3.smul A p1)) (Vec3.smul B p2))
        (Vec3.add (Vec3.add (Vec3.smul up n) (Vec3.smul A p1)) (Vec3.smul B p2)) =
      up * up + A * A + B * B ∧
    Vec3.dot (Vec3.add (Vec3.add (Vec3.smul up n) (Vec3.smul A p1)) (Vec3.smul B p2)) n =
      up := by
  cases n; cases p1; cases p2
  simp only [Vec3.dot, Vec3.add, Vec3.smul] at *
  constructor
  · linear_combination (up * up) * hn + (A * A) * h1 + (B * B) * h2 + (2 * up * A) * h1n +
      (2 * up * B) * h2n + (2 * A * B) * h21
  · linear_combination up * hn + A * h1n + B * h2n

theorem isSqrt_real : IsSqrt Real.sqrt :=
  fun x hx => ⟨Real.sqrt_nonneg x, Real.mul_self_sqrt hx⟩

theorem real_sqrt_four : Real.sqrt 4 = 2 := by
  rw [show (4 : ℝ) = 2 * 2 by norm_num]
  exact Real.sqrt_mul_self (by norm_num)

theorem real_sqrt_9 : Real.sqrt 9 = 3 := by
  rw [show (9 : ℝ) = 3 * 3 by norm_num]
  exact Real.sqrt_mul_self (by norm_num)

theorem real_sqrt_16 : Real.sqrt 16 = 4 := by
  rw [show (16 : ℝ) = 4 * 4 by norm_num]
  exact Real.sqrt_mul_self (by norm_num)

theorem real_sqrt_25 : Real.sqrt 25 = 5 := by
  rw [show (25 : ℝ) = 5 * 5 by norm_num]
  exact Real.sqrt_mul_self (by norm_num)

theorem real_sqrt_144 : Real.sqrt 144 = 12 := by
  rw [show (144 : ℝ) = 12 * 12 by norm_num]
  exact Real.sqrt_mul_self (by norm_num)

theorem real_sqrt_169 : Real.sqrt 169 = 13 := by
  rw [show (169 : ℝ) = 13 * 13 by norm_num]
  exact Real.sqrt_mul_self (by norm_num)

theorem real_sqrt_1936 : Real.sqrt 1936 = 44 := by
  rw [show (1936 : ℝ) = 44 * 44 by norm_num]
  exact Real.sqrt_mul_self (by norm_num)

theorem real_sqrt_15625 : Real.sqrt 15625 = 125 := by
  rw [show (15625 : ℝ) = 125 * 125 by norm_num]
  exact Real.sqrt_mul_self (by norm_num)

end VectorLemmas

/-! ## Properties of `computeRayIntersection` -/

section ScanShape

variable {R : Type}

/-- For a sphere or a box the dispatch runs the matching shape test. -/
theorem dispatch_matched (box sphere : ShapeTest R) (ray : Ray R) (geom : Geom R)
    (s : ScanState R) (h : geom.type ≠ GeomType.OTHER) :
    dispatch box sphere ray geom s =
      if geom.type = GeomType.CUBE then box geom ray s.scratch else sphere geom ray s.scratch := by
  unfold dispatch
  cases hty : geom.type <;> simp_all

/-- One test output per primitive. -/
theorem testOutputs_length (box sphere : ShapeTest R) (ray : Ray R) :
    ∀ (gs : List (Geom R)) (sc : Scratch R),
      (testOutputs box sphere ray gs sc).length = gs.length := by
  intro gs
  induction gs with
  | nil => intro sc; rfl
  | cons g rest ih => intro sc; simp [testOutputs, ih]

end ScanShape

section IntersectionProofs

variable {R : Type} [LinearOrderedField R]

theorem scanStep_scratch (box sphere : ShapeTest R) (ray : Ray R) (i : Nat) (geom : Geom R)
    (s : ScanState R) :
    (scanStep box sphere ray i geom s).scratch = (dispatch box sphere ray geom s).2 := by
  simp only [scanStep]
  split <;> rfl

/-- The scan invariant, from any entry state: either no iteration took its
update branch, and then every positive test value is at least the entry
`t_min`; or the state records the test output of some position `k`, whose
value is positive, below the entry `t_min`, minimal among the positive test
values and different from every earlier test value. -/
theorem scanLoop_spec (box sphere : ShapeTest R) (ray : Ray R) :
    ∀ (gs : List (Geom R)) (i : Nat) (s : ScanState R),
      (∀ g ∈ gs, g.type ≠ GeomType.OTHER) →
      ((scanLoop box sphere ray i gs s).t_min = s.t_min ∧
        (scanLoop box sphere ray i gs s).hit_geom_index = s.hit_geom_index ∧
        (scanLoop box sphere ray i gs s).normal = s.normal ∧
        (scanLoop box sphere ray i gs s).tangent = s.tangent ∧
        ∀ o ∈ testOutputs box sphere ray gs s.scratch, 0 < o.1 → s.t_min ≤ o.1) ∨
      (∃ k o, (testOutputs box sphere ray gs s.scratch)[k]? = some o ∧
        (scanLoop box sphere ray i gs s).hit_geom_index = ((i + k : Nat) : Int) ∧
        (scanLoop box sphere ray i gs s).t_min = o.1 ∧
        0 < o.1 ∧ o.1 < s.t_min ∧
        (scanLoop box sphere ray i gs s).normal = o.2.tmp_normal ∧
        (scanLoop box sphere ray i gs s).tangent = o.2.tmp_tangent ∧
        (∀ p ∈ testOutputs box sphere ray gs s.scratch, 0 < p.1 → o.1 ≤ p.1) ∧
        ∀ j p, j < k → (testOutputs box sphere ray gs s.scratch)[j]? = some p → p.1 ≠ o.1) := by
  intro gs
  induction gs with
  | nil =>
    intro i s _
    left
    simp [scanLoop, testOutputs]
  | cons g rest ih =>
    intro i s hty
    have hg : g.type ≠ GeomType.OTHER := hty g (List.mem_cons_self _ _)
    have hrest : ∀ g ∈ rest, g.type ≠ GeomType.OTHER :=
      fun g hm => hty g (List.mem_cons_of_mem _ hm)
    have hd := dispatch_matched box sphere ray g s hg
    have hsc := scanStep_scratch box sphere ray i g s
    have houts : testOutputs box sphere ray (g :: rest) s.scratch =
        dispatch box sphere ray g s ::
          testOutputs box sphere ray rest (scanStep box sphere ray i g s).scratch := by
      rw [hsc, hd]; rfl
    have hloop : scanLoop box sphere ray i (g :: rest) s =
        scanLoop box sphere ray (i + 1) rest (scanStep box sphere ray i g s) := rfl
    rw [houts, hloop]
    have IH := ih (i + 1) (scanStep box sphere ray i g s) hrest
    generalize hr : dispatch box sphere ray g s = r at *
    by_cases hupd : r.1 > 0 ∧ s.t_min > r.1
    · -- the iteration for `g` takes the update branch
      have hs1 : (scanStep box sphere ray i g s).t_min = r.1 := by
        simp [scanStep, hr, hupd]
      have hs2 : (scanStep box sphere ray i g s).hit_geom_index = (i : Int) := by
        simp [scanStep, hr, hupd]
      have hs3 : (scanStep box sphere ray i g s).normal = r.2.tmp_normal := by
        simp [scanStep, hr, hupd]
      have hs4 : (scanStep box sphere ray i g s).tangent = r.2.tmp_tangent := by
        simp [scanStep, hr, hupd]
      right
      rcases IH with ⟨e1, e2, e3, e4, e5⟩ | ⟨k, o, ho, e1, e2, e3, e4, e5, e6, e7, e8⟩
      · refine ⟨0, r, by simp, ?_, ?_, hupd.1, hupd.2, ?_, ?_, ?_, ?_⟩
        · rw [e2, hs2]; simp
        · rw [e1, hs1]
        · rw [e3, hs3]
        · rw [e4, hs4]
        · intro p hp hpos
          rcases List.mem_cons.1 hp with rfl | hp
          · exact le_rfl
          · have := e5 p hp hpos
            rwa [hs1] at this
        · intro j p hj
          exact absurd hj (Nat.not_lt_zero j)
      · rw [hs1] at e4
        refine ⟨k + 1, o, by simpa using ho, ?_, e2, e3, lt_trans e4 hupd.2, e5, e6, ?_, ?_⟩
        · rw [e1]; push_cast; ring
        · intro p hp hpos
          rcases List.mem_cons.1 hp with rfl | hp
          · exact le_of_lt e4
          · exact e7 p hp hpos
        · intro j p hj hjp
          cases j with
          | zero =>
            have hjp2 : r = p := by simpa using hjp
            rw [← hjp2]
            exact ne_of_gt e4
          | succ j =>
            simp at hjp
            exact e8 j p (Nat.lt_of_succ_lt_succ hj) hjp
    · -- the iteration for `g` leaves the best hit alone
      have hs1 : (scanStep box sphere ray i g s).t_min = s.t_min := by
        simp [scanStep, hr, hupd]
      have hs2 : (scanStep box sphere ray i g s).hit_geom_index = s.hit_geom_index := by
        simp [scanStep, hr, hupd]
      have hs3 : (scanStep box sphere ray i g s).normal = s.normal := by
        simp [scanStep, hr, hupd]
      have hs4 : (scanStep box sphere ray i g s).tangent = s.tangent := by
        simp [scanStep, hr, hupd]
      have hhead : 0 < r.1 → s.t_min ≤ r.1 := by
        intro hpos
        by_contra hlt
        exact hupd ⟨hpos, lt_of_not_le hlt⟩
      rcases IH with ⟨e1, e2, e3, e4, e5⟩ | ⟨k, o, ho, e1, e2, e3, e4, e5, e6, e7, e8⟩
      · left
        refine ⟨by rw [e1, hs1], by rw [e2, hs2], by rw [e3, hs3], by rw [e4, hs4], ?_⟩
        intro p hp hpos
        rcases List.mem_cons.1 hp with rfl | hp
        · exact hhead hpos
        · have := e5 p hp hpos
          rwa [hs1] at this
      · right
        rw [hs1] at e4
        refine ⟨k + 1, o, by simpa using ho, ?_, e2, e3, e4, e5, e6, ?_, ?_⟩
        · rw [e1]; push_cast; ring
        · intro p hp hpos
          rcases List.mem_cons.1 hp with rfl | hp
          · exact le_trans (le_of_lt e4) (hhead hpos)
          · exact e7 p hp hpos
        · intro j p hj hjp
          cases j with
          | zero =>
            have hjp2 : r = p := by simpa using hjp
            rw [← hjp2]
            intro heq
            have h1 : 0 < r.1 := by rw [heq]; exact e3
            have h2 := hhead h1
            rw [heq] at h2
            exact absurd e4 (not_lt_of_le h2)
          | succ j =>
            simp at hjp
            exact e8 j p (Nat.lt_of_succ_lt_succ hj) hjp

/-- On a miss only `t` of the passed record is overwritten. -/
theorem computeRayIntersection_miss (box sphere : ShapeTest R) (u : Uninit R)
    (geoms : List (Geom R)) (ray : Ray R) (intersection : ShadeableIntersection R)
    (h : (scanLoop box sphere ray 0 geoms (scanInit u)).hit_geom_index = -1) :
    computeRayIntersection box sphere u geoms ray intersection =
      { intersection with t := -1 } := by
  simp only [computeRayIntersection]
  rw [if_pos h]

/-- On a hit the record is filled from the scan state. -/
theorem computeRayIntersection_hit (box sphere : ShapeTest R) (u : Uninit R)
    (geoms : List (Geom R)) (ray : Ray R) (intersection : ShadeableIntersection R)
    (h : (scanLoop box sphere ray 0 geoms (scanInit u)).hit_geom_index ≠ -1) :
    computeRayIntersection box sphere u geoms ray intersection =
      { t := (scanLoop box sphere ray 0 geoms (scanInit u)).t_min
        materialId :=
          match geoms[(scanLoop box sphere ray 0 geoms (scanInit u)).hit_geom_index.toNat]? with
          | some g => g.materialid
          | none => intersection.materialId
        geomId := (scanLoop box sphere ray 0 geoms (scanInit u)).hit_geom_index
        surfaceNormal := (scanLoop box sphere ray 0 geoms (scanInit u)).normal
        surfaceTangent := (scanLoop box sphere ray 0 geoms (scanInit u)).tangent } := by
  simp only [computeRayIntersection]
  rw [if_neg h]

/-- After any iteration the stale `t` can no longer pass the update test. -/
theorem scanStep_stale (box sphere : ShapeTest R) (ray : Ray R) (i : Nat) (geom : Geom R)
    (s : ScanState R) :
    ¬ ((scanStep box sphere ray i geom s).t > 0 ∧
        (scanStep box sphere ray i geom s).t_min > (scanStep box sphere ray i geom s).t) := by
  by_cases hupd : (dispatch box sphere ray geom s).1 > 0 ∧
      s.t_min > (dispatch box sphere ray geom s).1
  · simp [scanStep, hupd]
  · simp [scanStep, hupd]

/-- A primitive of unmatched type leaves the scan state unchanged whenever the
stale `t` does not pass the update test. -/
theorem scanStep_unmatched (box sphere : ShapeTest R) (ray : Ray R) (i : Nat) (geom : Geom R)
    (s : ScanState R) (hty : geom.type = GeomType.OTHER) (hst : ¬ (s.t > 0 ∧ s.t_min > s.t)) :
    scanStep box sphere ray i geom s = s := by
  have hd : dispatch box sphere ray geom s = (s.t, s.scratch) := by
    simp [dispatch, hty]
  simp only [scanStep, hd]
  rw [if_neg hst]

/-- A primitive of unmatched type that is visited after any other primitive is
skipped: its iteration changes nothing. -/
theorem scanStep_unmatched_after_step (box sphere : ShapeTest R) (ray : Ray R) (i j : Nat)
    (g0 geom : Geom R) (s : ScanState R) (hty : geom.type = GeomType.OTHER) :
    scanStep box sphere ray j geom (scanStep box sphere ray i g0 s) =
      scanStep box sphere ray i g0 s :=
  scanStep_unmatched box sphere ray j geom _ hty (scanStep_stale box sphere ray i g0 s)

end IntersectionProofs

/-- The scan evaluated on `sceneTie`: the box returns 5 and both spheres
return 3; the first sphere (index 1, material 11) is reported with `t = 3`
and the normal its test wrote. -/
theorem computeRayIntersection_sceneTie :
    computeRayIntersection scaleTest scaleTest (uninitWith 0) sceneTie rayZ staleRecord =
      { t := 3, surfaceNormal := ⟨3, 1, 1⟩, surfaceTangent := ⟨3, 1, 1⟩, materialId := 11,
        geomId := 1 } := by
  simp [computeRayIntersection, scanLoop, scanStep, dispatch, scanInit, scaleTest, sceneTie,
    mkGeom, uninitWith, FLT_MAX]
  norm_num

/-! ## Properties of the BSDF samplers -/

section BsdfProofs

variable {R : Type} [LinearOrderedField R]

/-- The reflectance compared by `sampleFresnelSpecularMaterial` does not see
the side the ray is on: reversing `wo` gives the same `F`. -/
theorem fresnelF_neg (sqrt : R → R) (m : Material R) (normal wo : Vec3 R) :
    fresnelF sqrt m normal (Vec3.neg wo) = fresnelF sqrt m normal wo := by
  have h : Vec3.dot (Vec3.neg wo) normal = -Vec3.dot wo normal := by
    simp only [Vec3.dot, Vec3.neg]; ring
  simp only [fresnelF, h, abs_neg]

/-- For a ray entering the surface (`dot(wo, normal) < 0`) the compared
reflectance is `fresnelDielectricEval` at that cosine with incident index 1
and transmitted index `m.indexOfRefraction`. -/
theorem fresnelF_entering (sqrt : R → R) (m : Material R) (normal wo : Vec3 R)
    (h : Vec3.dot wo normal < 0) :
    fresnelF sqrt m normal wo =
      fresnelDielectricEval sqrt (Vec3.dot wo normal) 1 m.indexOfRefraction := by
  simp only [fresnelF, abs_of_neg h, neg_neg]

/-- The direction computed by `sampleSpecularTransmissionMaterial`, with the
index ratio `eta` and the facing normal `nor` named. -/
theorem sampleSpecularTransmissionMaterial_wi (sqrt : R → R) (m : Material R)
    (normal wo nor : Vec3 R) (eta : R)
    (heta : eta = if Vec3.dot wo normal < 0 then 1 / m.indexOfRefraction
      else m.indexOfRefraction / 1)
    (hnor : nor = if Vec3.dot wo normal < 0 then normal else Vec3.neg normal) :
    (sampleSpecularTransmissionMaterial sqrt m normal wo).2 =
      if eta * sqrt (max 0 (1 - Vec3.dot wo normal * Vec3.dot wo normal)) > 1 then
        Vec3.normalize sqrt (Vec3.reflect wo nor)
      else Vec3.normalize sqrt (Vec3.refract sqrt wo nor eta) := by
  subst heta hnor
  by_cases h : Vec3.dot wo normal < 0 <;>
    simp [sampleSpecularTransmissionMaterial, h]

/-- The helper direction chosen by `calculateRandomDirectionInHemisphere` is
never parallel to a unit normal: the cross product has positive length. -/
theorem directionNotNormal_cross_pos (c : R) (normal : Vec3 R) (hc0 : 0 < c) (hc1 : c ≤ 1)
    (hn : Vec3.dot normal normal = 1) :
    0 < Vec3.dot
      (Vec3.cross normal
        (if |normal.x| < c then (⟨1, 0, 0⟩ : Vec3 R)
          else if |normal.y| < c then ⟨0, 1, 0⟩ else ⟨0, 0, 1⟩))
      (Vec3.cross normal
        (if |normal.x| < c then (⟨1, 0, 0⟩ : Vec3 R)
          else if |normal.y| < c then ⟨0, 1, 0⟩ else ⟨0, 0, 1⟩)) := by
  cases normal with | mk a b d =>
  simp only [Vec3.dot] at hn
  simp only
  by_cases hx : |a| < c
  · rw [if_pos hx, Vec3.dot_cross_cross]
    simp only [Vec3.dot]
    have h1 : |a| < 1 := lt_of_lt_of_le hx hc1
    have h2 : a * a < 1 := by
      have := abs_lt.1 h1
      nlinarith
    nlinarith
  · rw [if_neg hx]
    by_cases hy : |b| < c
    · rw [if_pos hy, Vec3.dot_cross_cross]
      simp only [Vec3.dot]
      have h1 : |b| < 1 := lt_of_lt_of_le hy hc1
      have h2 : b * b < 1 := by
        have := abs_lt.1 h1
        nlinarith
      nlinarith
    · rw [if_neg hy, Vec3.dot_cross_cross]
      simp only [Vec3.dot]
      have h1 : 0 < |a| := lt_of_lt_of_le hc0 (not_lt.1 hx)
      have h2 : 0 < a * a := mul_self_pos.2 (abs_pos.1 h1)
      nlinarith [mul_self_nonneg b]

/-- The direction and pdf of `calculateRandomDirectionInHemisphere` for a unit
normal and a first draw in `[0, 1]`. -/
theorem calculateRandomDirectionInHemisphere_spec (E : MathEnv R) (normal : Vec3 R)
    (rng : Rng R) (hsqrt : IsSqrt E.sqrt)
    (htrig : ∀ x, E.cos x * E.cos x + E.sin x * E.sin x = 1)
    (hc0 : 0 < E.SQRT_OF_ONE_THIRD) (hc1 : E.SQRT_OF_ONE_THIRD ≤ 1)
    (hn : Vec3.dot normal normal = 1)
    (hu0 : 0 ≤ rng.draws rng.pos) (hu1 : rng.draws rng.pos ≤ 1) :
    Vec3.dot (calculateRandomDirectionInHemisphere E normal rng).1
        (calculateRandomDirectionInHemisphere E normal rng).1 = 1 ∧
    Vec3.dot (calculateRandomDirectionInHemisphere E normal rng).1 normal =
      E.sqrt (rng.draws rng.pos) ∧
    (calculateRandomDirectionInHemisphere E normal rng).2.1 =
      E.sqrt (rng.draws rng.pos) / E.PI := by
  obtain ⟨_, hup⟩ := hsqrt _ hu0
  obtain ⟨_, hover⟩ := hsqrt (1 - E.sqrt (rng.draws rng.pos) * E.sqrt (rng.draws rng.pos))
    (by rw [hup]; linarith)
  have hpos := directionNotNormal_cross_pos E.SQRT_OF_ONE_THIRD normal hc0 hc1 hn
  simp only [calculateRandomDirectionInHemisphere, u01]
  generalize (if |normal.x| < E.SQRT_OF_ONE_THIRD then (⟨1, 0, 0⟩ : Vec3 R)
    else if |normal.y| < E.SQRT_OF_ONE_THIRD then ⟨0, 1, 0⟩ else ⟨0, 0, 1⟩) = dnn at hpos ⊢
  have hp1 := Vec3.dot_normalize_normalize E.sqrt _ hsqrt hpos
  have hp1n : Vec3.dot (Vec3.normalize E.sqrt (Vec3.cross normal dnn)) normal = 0 := by
    simp only [Vec3.normalize]
    rw [Vec3.dot_smul_left, Vec3.dot_cross_left, mul_zero]
  have hn1 : Vec3.dot normal (Vec3.normalize E.sqrt (Vec3.cross normal dnn)) = 0 := by
    rw [Vec3.dot_comm]; exact hp1n
  have hc2 : Vec3.dot (Vec3.cross normal (Vec3.normalize E.sqrt (Vec3.cross normal dnn)))
      (Vec3.cross normal (Vec3.normalize E.sqrt (Vec3.cross normal dnn))) = 1 := by
    rw [Vec3.dot_cross_cross, hn, hp1, hn1]; ring
  rw [Vec3.normalize_of_unit E.sqrt _ hsqrt.one hc2]
  have hframe := Vec3.frame_sum normal (Vec3.normalize E.sqrt (Vec3.cross normal dnn))
    (Vec3.cross normal (Vec3.normalize E.sqrt (Vec3.cross normal dnn)))
    (E.sqrt (rng.draws rng.pos))
    (E.cos (rng.draws (rng.pos + 1) * E.TWO_PI) *
      E.sqrt (1 - E.sqrt (rng.draws rng.pos) * E.sqrt (rng.draws rng.pos)))
    (E.sin (rng.draws (rng.pos + 1) * E.TWO_PI) *
      E.sqrt (1 - E.sqrt (rng.draws rng.pos) * E.sqrt (rng.draws rng.pos)))
    hn hp1 hc2 hp1n (Vec3.dot_cross_left _ _) (Vec3.dot_cross_right _ _)
  refine ⟨?_, hframe.2, trivial⟩
  rw [hframe.1]
  have ht := htrig (rng.draws (rng.pos + 1) * E.TWO_PI)
  generalize E.cos (rng.draws (rng.pos + 1) * E.TWO_PI) = cs at ht ⊢
  generalize E.sin (rng.draws (rng.pos + 1) * E.TWO_PI) = sn at ht ⊢
  generalize E.sqrt (1 - E.sqrt (rng.draws rng.pos) * E.sqrt (rng.draws rng.pos)) = ov
    at hover ⊢
  linear_combination (ov * ov) * ht + hover

/-- The diffuse branch of `sampleMaterial`. -/
theorem sampleMaterial_diffuse_eq (E : MathEnv R) (intersect normal tangent : Vec3 R)
    (m : Material R) (wo : Vec3 R) (rng : Rng R)
    (hrefl : ¬ m.hasReflective > 0) (hrefr : ¬ m.hasRefractive > 0) :
    sampleMaterial E intersect normal tangent m wo rng =
      { f := Vec3.divs m.color E.PI
        wi := Vec3.normalize E.sqrt (calculateRandomDirectionInHemisphere E normal rng).1
        pdf := (calculateRandomDirectionInHemisphere E normal rng).2.1
        specular := false
        rng := (calculateRandomDirectionInHemisphere E normal rng).2.2 } := by
  simp only [sampleMaterial]
  rw [if_neg (fun h => hrefl h.1), if_neg hrefl, if_neg hrefr]

end BsdfProofs

/-! ## Properties of the integrator update -/

section IntegratorProofs

variable {R : Type} [LinearOrderedField R]

/-- A vector with squared length zero has a zero inner product with anything. -/
theorem Vec3.dot_eq_zero_of_dot_self (v n : Vec3 R) (h : Vec3.dot v v = 0) :
    Vec3.dot v n = 0 := by
  cases v with | mk a b c =>
  simp only [Vec3.dot] at *
  have ha : a = 0 := by nlinarith [mul_self_nonneg a, mul_self_nonneg b, mul_self_nonneg c]
  have hb : b = 0 := by nlinarith [mul_self_nonneg a, mul_self_nonneg b, mul_self_nonneg c]
  have hc : c = 0 := by nlinarith [mul_self_nonneg a, mul_self_nonneg b, mul_self_nonneg c]
  rw [ha, hb, hc]
  ring

/-- Normalising twice is normalising once, as soon as the normalised vector
is not perpendicular to some vector. -/
theorem Vec3.normalize_normalize (sqrt : R → R) (v n : Vec3 R) (hsqrt : IsSqrt sqrt)
    (hne : Vec3.dot (Vec3.normalize sqrt v) n ≠ 0) :
    Vec3.normalize sqrt (Vec3.normalize sqrt v) = Vec3.normalize sqrt v := by
  have hnn : 0 ≤ Vec3.dot v v := by
    simp only [Vec3.dot]
    exact add_nonneg (add_nonneg (mul_self_nonneg _) (mul_self_nonneg _)) (mul_self_nonneg _)
  have hpos : 0 < Vec3.dot v v := by
    rcases lt_or_eq_of_le hnn with h | h
    · exact h
    · exfalso
      apply hne
      simp only [Vec3.normalize]
      rw [Vec3.dot_smul_left, Vec3.dot_eq_zero_of_dot_self v n h.symm, mul_zero]
  exact Vec3.normalize_of_unit sqrt _ hsqrt.one (Vec3.dot_normalize_normalize sqrt v hsqrt hpos)

/-- The shape of what `sampleSpecularTransmissionMaterial` returns: the
direction is a normalised vector and the value is the specular color divided
by `|dot(wi, normal)|`. -/
theorem sampleSpecularTransmissionMaterial_form (sqrt : R → R) (m : Material R)
    (normal wo : Vec3 R) :
    (∃ v, (sampleSpecularTransmissionMaterial sqrt m normal wo).2 = Vec3.normalize sqrt v) ∧
    (sampleSpecularTransmissionMaterial sqrt m normal wo).1 =
      Vec3.divs m.specular.color
        |Vec3.dot (sampleSpecularTransmissionMaterial sqrt m normal wo).2 normal| := by
  by_cases h : Vec3.dot wo normal < 0
  · simp only [sampleSpecularTransmissionMaterial, h, decide_True, if_true]
    constructor
    · split
      · exact ⟨_, rfl⟩
      · exact ⟨_, rfl⟩
    · trivial
  · simp only [sampleSpecularTransmissionMaterial, h, decide_False, Bool.false_eq_true,
      if_false, Vec3.dot_neg_right, abs_neg]
    constructor
    · split
      · exact ⟨_, rfl⟩
      · exact ⟨_, rfl⟩
    · trivial

/-- The shape of a specular sample of `sampleMaterial`: `pdf = 1`, the
direction is a normalised vector, and the value is the specular color divided
by `|dot(normalize(wi), normal)|` (reflection) or by `|dot(wi, normal)|`
(transmission). -/
theorem sampleMaterial_specular_form (E : MathEnv R) (intersect normal tangent : Vec3 R)
    (m : Material R) (wo : Vec3 R) (rng : Rng R)
    (hspec : m.hasReflective > 0 ∨ m.hasRefractive > 0) :
    (sampleMaterial E intersect normal tangent m wo rng).pdf = 1 ∧
    (∃ v, (sampleMaterial E intersect normal tangent m wo rng).wi = Vec3.normalize E.sqrt v) ∧
    ((sampleMaterial E intersect normal tangent m wo rng).f =
        Vec3.divs m.specular.color
          |Vec3.dot (Vec3.normalize E.sqrt
            (sampleMaterial E intersect normal tangent m wo rng).wi) normal| ∨
      (sampleMaterial E intersect normal tangent m wo rng).f =
        Vec3.divs m.specular.color
          |Vec3.dot (sampleMaterial E intersect normal tangent m wo rng).wi normal|) := by
  have ht := sampleSpecularTransmissionMaterial_form E.sqrt m normal wo
  by_cases h1 : m.hasReflective > 0
  · by_cases h2 : m.hasRefractive > 0
    · simp only [sampleMaterial, h1, h2, and_self, if_true, sampleFresnelSpecularMaterial]
      split
      · exact ⟨trivial, ⟨_, rfl⟩, Or.inl rfl⟩
      · exact ⟨trivial, ht.1, Or.inr ht.2⟩
    · simp only [sampleMaterial, h1, h2, and_false, if_false, if_true]
      exact ⟨trivial, ⟨_, rfl⟩, Or.inl rfl⟩
  · have h2 : m.hasRefractive > 0 := by
      rcases hspec with h | h
      · exact absurd h h1
      · exact h
    simp only [sampleMaterial, h1, h2, false_and, if_false, if_true]
    exact ⟨trivial, ht.1, Or.inr ht.2⟩

/-- The square of `(a - b) / (a + b)` is at most 1 for `a ≥ 0` and `b > 0`. -/
theorem ratio_sq_le_one (a b : R) (ha : 0 ≤ a) (hb : 0 < b) :
    (a - b) / (a + b) * ((a - b) / (a + b)) ≤ 1 := by
  have hpos : 0 < (a + b) * (a + b) := mul_pos (add_pos_of_nonneg_of_pos ha hb)
    (add_pos_of_nonneg_of_pos ha hb)
  rw [div_mul_div_comm, div_le_one hpos]
  nlinarith [mul_nonneg ha (le_of_lt hb)]

/-- For a cosine that is not positive `fresnelDielectricEval` does not swap
the indices, and its result lies in `[0, 1]`. -/
theorem fresnelDielectricEval_bounds_nonpos (sqrt : R → R) (cosi etai etat : R)
    (hsqrt : IsSqrt sqrt) (hc : ¬ cosi > 0) (hi : 0 < etai) (ht : 0 < etat) :
    0 ≤ fresnelDielectricEval sqrt cosi etai etat ∧
      fresnelDielectricEval sqrt cosi etai etat ≤ 1 := by
  simp only [fresnelDielectricEval, if_neg hc]
  have hs0 : 0 ≤ sqrt (max 0 (1 - |cosi| * |cosi|)) := (hsqrt _ (le_max_left _ _)).1
  have hsint : 0 ≤ etai / etat * sqrt (max 0 (1 - |cosi| * |cosi|)) :=
    mul_nonneg (le_of_lt (div_pos hi ht)) hs0
  generalize etai / etat * sqrt (max 0 (1 - |cosi| * |cosi|)) = sint at hsint ⊢
  by_cases hge : sint ≥ 1
  · rw [if_pos hge]
    exact ⟨zero_le_one, le_rfl⟩
  · rw [if_neg hge]
    have hlt : sint < 1 := not_le.1 hge
    have hX : 0 < 1 - sint * sint := by nlinarith
    have hmax : max 0 (1 - sint * sint) = 1 - sint * sint := max_eq_right (le_of_lt hX)
    rw [hmax]
    obtain ⟨k0, k1⟩ := hsqrt _ (le_of_lt hX)
    have hcost : 0 < sqrt (1 - sint * sint) := by
      rcases lt_or_eq_of_le k0 with h | h
      · exact h
      · rw [← h] at k1
        linarith
    generalize sqrt (1 - sint * sint) = cost at hcost ⊢
    have hc0 : 0 ≤ |cosi| := abs_nonneg _
    have h1 := ratio_sq_le_one (etat * |cosi|) (etai * cost)
      (mul_nonneg (le_of_lt ht) hc0) (mul_pos hi hcost)
    have h2 := ratio_sq_le_one (etai * |cosi|) (etat * cost)
      (mul_nonneg (le_of_lt hi) hc0) (mul_pos ht hcost)
    constructor
    · exact div_nonneg (add_nonneg (mul_self_nonneg _) (mul_self_nonneg _)) (by norm_num)
    · rw [div_le_one (by norm_num : (0 : R) < 2)]
      linarith

/-- For a positive cosine `fresnelDielectricEval` is the evaluation at the
negated cosine with the two indices exchanged. -/
theorem fresnelDielectricEval_swap (sqrt : R → R) (cosi etai etat : R) (hc : cosi > 0) :
    fresnelDielectricEval sqrt cosi etai etat = fresnelDielectricEval sqrt (-cosi) etat etai := by
  have hn : ¬ -cosi > 0 := by
    intro h
    linarith
  simp only [fresnelDielectricEval, if_pos hc, if_neg hn, abs_neg]

end IntegratorProofs

/-! ## Properties of light sampling -/

section LightProofs

variable {R : Type} [LinearOrderedField R]

/-- The index recorded by the scan is the entry index or the index of one of
the primitives visited. -/
theorem scanLoop_hit_range (box sphere : ShapeTest R) (ray : Ray R) :
    ∀ (gs : List (Geom R)) (i : Nat) (s : ScanState R),
      (scanLoop box sphere ray i gs s).hit_geom_index = s.hit_geom_index ∨
      ((i : Int) ≤ (scanLoop box sphere ray i gs s).hit_geom_index ∧
        (scanLoop box sphere ray i gs s).hit_geom_index < ((i + gs.length : Nat) : Int)) := by
  intro gs
  induction gs with
  | nil =>
    intro i s
    left
    rfl
  | cons g rest ih =>
    intro i s
    have hloop : scanLoop box sphere ray i (g :: rest) s =
        scanLoop box sphere ray (i + 1) rest (scanStep box sphere ray i g s) := rfl
    rw [hloop]
    have hstep : (scanStep box sphere ray i g s).hit_geom_index = s.hit_geom_index ∨
        (scanStep box sphere ray i g s).hit_geom_index = (i : Int) := by
      simp only [scanStep]
      split
      · right
        rfl
      · left
        rfl
    rcases ih (i + 1) (scanStep box sphere ray i g s) with h | ⟨h1, h2⟩
    · rcases hstep with h3 | h3
      · left
        rw [h, h3]
      · right
        rw [h, h3]
        simp only [List.length_cons]
        constructor
        · exact le_rfl
        · push_cast
          omega
    · right
      simp only [List.length_cons]
      push_cast at h1 h2 ⊢
      constructor <;> omega

/-- When `computeRayIntersection` reports `t ≥ 0` it has recorded a hit: the
reported `geomId` is the index of a primitive of the list and the reported
`materialId` is that primitive's material. -/
theorem computeRayIntersection_hit_material (box sphere : ShapeTest R) (u : Uninit R)
    (geoms : List (Geom R)) (ray : Ray R) (intersection : ShadeableIntersection R)
    (ht : (computeRayIntersection box sphere u geoms ray intersection).t ≥ 0) :
    ∃ g, readAt geoms (computeRayIntersection box sphere u geoms ray intersection).geomId =
        some g ∧
      (computeRayIntersection box sphere u geoms ray intersection).materialId = g.materialid := by
  by_cases hmiss : (scanLoop box sphere ray 0 geoms (scanInit u)).hit_geom_index = -1
  · exfalso
    rw [computeRayIntersection_miss box sphere u geoms ray intersection hmiss] at ht
    have : (-1 : R) ≥ 0 := ht
    linarith
  · rw [computeRayIntersection_hit box sphere u geoms ray intersection hmiss]
    have hr := scanLoop_hit_range box sphere ray geoms 0 (scanInit u)
    rcases hr with h | ⟨h1, h2⟩
    · exact absurd h hmiss
    · generalize (scanLoop box sphere ray 0 geoms (scanInit u)).hit_geom_index = k at *
      have hk0 : 0 ≤ k := by simpa using h1
      have hk : k.toNat < geoms.length := by
        have : k < (geoms.length : Int) := by simpa using h2
        omega
      refine ⟨geoms.get ⟨k.toNat, hk⟩, ?_, ?_⟩
      · simp only [readAt, if_pos hk0]
        exact List.getElem?_eq_getElem hk
      · simp only [List.getElem?_eq_getElem hk]
        rfl

/-- A conditional between two samples that differ only in the radiance. -/
theorem LightSample.ite_radiance {S : Type} (c : Prop) [Decidable c]
    (r1 r2 : Option (Vec3 S)) (w : Vec3 S) (p : S) (g : Rng S) :
    (if c then ({ radiance := r1, wiW := w, pdf := p, rng := g } : LightSample S)
      else { radiance := r2, wiW := w, pdf := p, rng := g }) =
      { radiance := if c then r1 else r2, wiW := w, pdf := p, rng := g } := by
  split <;> rfl

/-- The function `sampleAreaLight` on a box light, written with the named
quantities: the result differs between acceptance and rejection only in the
radiance, and the engine has advanced by two draws. -/
theorem sampleAreaLight_cube (E : MathEnv R) (box sphere : ShapeTest R) (u : Uninit R)
    (intersection0 : ShadeableIntersection R) (leftToRight : Bool) (light : Light R)
    (view_point view_nor : Vec3 R) (num_lights : Int) (wiW0 : Vec3 R) (pdf0 : R)
    (geoms : List (Geom R)) (materials : List (Material R)) (rng : Rng R)
    (hty : light.geom.type = GeomType.CUBE) :
    sampleAreaLight E box sphere u intersection0 leftToRight light view_point view_nor
        num_lights wiW0 pdf0 geoms materials rng =
      { radiance :=
          if (computeRayIntersection box sphere u geoms
                (shadowRayOf view_point (Vec3.normalize E.sqrt
                  (areaLightDis light view_point (areaLightSample leftToRight rng))))
                intersection0).t ≥ 0 ∧
              (computeRayIntersection box sphere u geoms
                (shadowRayOf view_point (Vec3.normalize E.sqrt
                  (areaLightDis light view_point (areaLightSample leftToRight rng))))
                intersection0).geomId = light.geom.geomId then
            (readAt materials (computeRayIntersection box sphere u geoms
                (shadowRayOf view_point (Vec3.normalize E.sqrt
                  (areaLightDis light view_point (areaLightSample leftToRight rng))))
                intersection0).materialId).map (fun mat => Vec3.smul mat.emittance mat.color)
          else some (Vec3.splat 0)
        wiW := Vec3.normalize E.sqrt
          (areaLightDis light view_point (areaLightSample leftToRight rng))
        pdf :=
          Vec3.length E.sqrt (areaLightDis light view_point (areaLightSample leftToRight rng)) *
              Vec3.length E.sqrt
                (areaLightDis light view_point (areaLightSample leftToRight rng)) /
            (|Vec3.dot
                  (Vec3.neg (Vec3.normalize E.sqrt
                    (areaLightDis light view_point (areaLightSample leftToRight rng))))
                  (Vec3.normalize E.sqrt (multiplyMV light.geom.invTranspose ⟨0, 1, 0, 0⟩))| *
                light.geom.scale.x * light.geom.scale.z * (num_lights : R))
        rng := { draws := rng.draws, pos := rng.pos + 1 + 1 } } := by
  simp only [sampleAreaLight, if_pos hty, u01, LightSample.ite_radiance, areaLightSample,
    areaLightDis, shadowRayOf]

/-- The function `sampleAreaLight` on a light that is not a box: nothing is
drawn or written and the zero vector is returned. -/
theorem sampleAreaLight_not_cube (E : MathEnv R) (box sphere : ShapeTest R) (u : Uninit R)
    (intersection0 : ShadeableIntersection R) (leftToRight : Bool) (light : Light R)
    (view_point view_nor : Vec3 R) (num_lights : Int) (wiW0 : Vec3 R) (pdf0 : R)
    (geoms : List (Geom R)) (materials : List (Material R)) (rng : Rng R)
    (hty : light.geom.type ≠ GeomType.CUBE) :
    sampleAreaLight E box sphere u intersection0 leftToRight light view_point view_nor
        num_lights wiW0 pdf0 geoms materials rng =
      { radiance := some (Vec3.splat 0), wiW := wiW0, pdf := pdf0, rng := rng } := by
  simp only [sampleAreaLight, if_neg hty]

/-- The outputs of `calculateRandomDirectionInHemisphere` other than the
engine depend on the engine only through its next two draws. -/
theorem calculateRandomDirectionInHemisphere_congr (E : MathEnv R) (normal : Vec3 R)
    (rng rng2 : Rng R) (h0 : rng2.draws rng2.pos = rng.draws rng.pos)
    (h1 : rng2.draws (rng2.pos + 1) = rng.draws (rng.pos + 1)) :
    (calculateRandomDirectionInHemisphere E normal rng2).1 =
        (calculateRandomDirectionInHemisphere E normal rng).1 ∧
      (calculateRandomDirectionInHemisphere E normal rng2).2.1 =
        (calculateRandomDirectionInHemisphere E normal rng).2.1 := by
  simp only [calculateRandomDirectionInHemisphere, u01, h0, h1, and_self]

/-- The value and direction of `sampleFresnelSpecularMaterial` depend on the
engine only through its next draw. -/
theorem sampleFresnelSpecularMaterial_congr (sqrt : R → R) (m : Material R)
    (normal wo : Vec3 R) (rng rng2 : Rng R) (h0 : rng2.draws rng2.pos = rng.draws rng.pos) :
    (sampleFresnelSpecularMaterial sqrt m normal wo rng2).1 =
        (sampleFresnelSpecularMaterial sqrt m normal wo rng).1 ∧
      (sampleFresnelSpecularMaterial sqrt m normal wo rng2).2.1 =
        (sampleFresnelSpecularMaterial sqrt m normal wo rng).2.1 := by
  simp only [sampleFresnelSpecularMaterial, u01, h0]
  split <;> exact ⟨rfl, rfl⟩

/-- The engine after `sampleFresnelSpecularMaterial`: one draw consumed. -/
theorem sampleFresnelSpecularMaterial_rng (sqrt : R → R) (m : Material R)
    (normal wo : Vec3 R) (rng : Rng R) :
    (sampleFresnelSpecularMaterial sqrt m normal wo rng).2.2 =
      { draws := rng.draws, pos := rng.pos + 1 } := by
  simp only [sampleFresnelSpecularMaterial, u01]
  split <;> rfl

/-- The sample point of `sampleAreaLight` depends on the engine only through
its next two draws. -/
theorem areaLightSample_congr (leftToRight : Bool) (rng rng2 : Rng R)
    (h0 : rng2.draws rng2.pos = rng.draws rng.pos)
    (h1 : rng2.draws (rng2.pos + 1) = rng.draws (rng.pos + 1)) :
    areaLightSample leftToRight rng2 = areaLightSample leftToRight rng := by
  simp only [areaLightSample, h0, h1]

/-- The radiance, direction and pdf of `sampleAreaLight` depend on the engine
only through its next two draws. -/
theorem sampleAreaLight_congr (E : MathEnv R) (box sphere : ShapeTest R) (u : Uninit R)
    (intersection0 : ShadeableIntersection R) (leftToRight : Bool) (light : Light R)
    (view_point view_nor : Vec3 R) (num_lights : Int) (wiW0 : Vec3 R) (pdf0 : R)
    (geoms : List (Geom R)) (materials : List (Material R)) (rng rng2 : Rng R)
    (h0 : rng2.draws rng2.pos = rng.draws rng.pos)
    (h1 : rng2.draws (rng2.pos + 1) = rng.draws (rng.pos + 1)) :
    (sampleAreaLight E box sphere u intersection0 leftToRight light view_point view_nor
          num_lights wiW0 pdf0 geoms materials rng2).radiance =
        (sampleAreaLight E box sphere u intersection0 leftToRight light view_point view_nor
          num_lights wiW0 pdf0 geoms materials rng).radiance ∧
      (sampleAreaLight E box sphere u intersection0 leftToRight light view_point view_nor
          num_lights wiW0 pdf0 geoms materials rng2).wiW =
        (sampleAreaLight E box sphere u intersection0 leftToRight light view_point view_nor
          num_lights wiW0 pdf0 geoms materials rng).wiW ∧
      (sampleAreaLight E box sphere u intersection0 leftToRight light view_point view_nor
          num_lights wiW0 pdf0 geoms materials rng2).pdf =
        (sampleAreaLight E box sphere u intersection0 leftToRight light view_point view_nor
          num_lights wiW0 pdf0 geoms materials rng).pdf := by
  by_cases hty : light.geom.type = GeomType.CUBE
  · rw [sampleAreaLight_cube E box sphere u intersection0 leftToRight light view_point
        view_nor num_lights wiW0 pdf0 geoms materials rng2 hty,
      sampleAreaLight_cube E box sphere u intersection0 leftToRight light view_point
        view_nor num_lights wiW0 pdf0 geoms materials rng hty,
      areaLightSample_congr leftToRight rng rng2 h0 h1]
    exact ⟨rfl, rfl, rfl⟩
  · rw [sampleAreaLight_not_cube E box sphere u intersection0 leftToRight light view_point
        view_nor num_lights wiW0 pdf0 geoms materials rng2 hty,
      sampleAreaLight_not_cube E box sphere u intersection0 leftToRight light view_point
        view_nor num_lights wiW0 pdf0 geoms materials rng hty]
    exact ⟨rfl, rfl, rfl⟩

variable [FloorRing R]

/-- The function `sampleLight` when the read `lights[chosenLightIndex]` stays
inside the array and yields `chosen`: one draw selects the light, and an
`AREA` light is sampled by `sampleAreaLight` on the engine advanced by that
draw. -/
theorem sampleLight_of_read (E : MathEnv R) (box sphere : ShapeTest R) (u : Uninit R)
    (intersection0 : ShadeableIntersection R) (leftToRight : Bool)
    (intersect normal wi0 : Vec3 R) (rng : Rng R) (lightPDF0 : R)
    (geoms : List (Geom R)) (materials : List (Material R)) (lights : List (Light R))
    (num_lights : Int) (chosen : Light R)
    (hread : readAt lights (chosenLightIndex (rng.draws rng.pos) num_lights) = some chosen) :
    sampleLight E box sphere u intersection0 leftToRight intersect normal wi0 rng lightPDF0
        geoms materials lights num_lights =
      some
        (if chosen.lightType = LightType.AREA then
          { radiance := (sampleAreaLight E box sphere u intersection0 leftToRight chosen
              intersect normal num_lights wi0 lightPDF0 geoms materials
              { draws := rng.draws, pos := rng.pos + 1 }).radiance
            wi := (sampleAreaLight E box sphere u intersection0 leftToRight chosen
              intersect normal num_lights wi0 lightPDF0 geoms materials
              { draws := rng.draws, pos := rng.pos + 1 }).wiW
            chosenLight := chosen
            lightPDF := (sampleAreaLight E box sphere u intersection0 leftToRight chosen
              intersect normal num_lights wi0 lightPDF0 geoms materials
              { draws := rng.draws, pos := rng.pos + 1 }).pdf
            rng := (sampleAreaLight E box sphere u intersection0 leftToRight chosen
              intersect normal num_lights wi0 lightPDF0 geoms materials
              { draws := rng.draws, pos := rng.pos + 1 }).rng }
        else
          { radiance := some (Vec3.splat 0), wi := wi0, chosenLight := chosen,
            lightPDF := lightPDF0, rng := { draws := rng.draws, pos := rng.pos + 1 } }) := by
  simp only [sampleLight, u01, hread]
  split <;> rfl

/-- The function `sampleLight` when the chosen light is an `AREA` light with
box geometry, written with the named quantities: three draws are consumed. -/
theorem sampleLight_area_cube (E : MathEnv R) (box sphere : ShapeTest R) (u : Uninit R)
    (intersection0 : ShadeableIntersection R) (leftToRight : Bool)
    (intersect normal wi0 : Vec3 R) (rng : Rng R) (lightPDF0 : R)
    (geoms : List (Geom R)) (materials : List (Material R)) (lights : List (Light R))
    (num_lights : Int) (chosen : Light R)
    (hread : readAt lights (chosenLightIndex (rng.draws rng.pos) num_lights) = some chosen)
    (harea : chosen.lightType = LightType.AREA) (hcube : chosen.geom.type = GeomType.CUBE) :
    sampleLight E box sphere u intersection0 leftToRight intersect normal wi0 rng lightPDF0
        geoms materials lights num_lights =
      some
        { radiance :=
            if (computeRayIntersection box sphere u geoms
                  (shadowRayOf intersect (Vec3.normalize E.sqrt
                    (areaLightDis chosen intersect
                      (areaLightSample leftToRight { draws := rng.draws, pos := rng.pos + 1 }))))
                  intersection0).t ≥ 0 ∧
                (computeRayIntersection box sphere u geoms
                  (shadowRayOf intersect (Vec3.normalize E.sqrt
                    (areaLightDis chosen intersect
                      (areaLightSample leftToRight { draws := rng.draws, pos := rng.pos + 1 }))))
                  intersection0).geomId = chosen.geom.geomId then
              (readAt materials (computeRayIntersection box sphere u geoms
                  (shadowRayOf intersect (Vec3.normalize E.sqrt
                    (areaLightDis chosen intersect
                      (areaLightSample leftToRight { draws := rng.draws, pos := rng.pos + 1 }))))
                  intersection0).materialId).map (fun mat => Vec3.smul mat.emittance mat.color)
            else some (Vec3.splat 0)
          wi := Vec3.normalize E.sqrt
            (areaLightDis chosen intersect
              (areaLightSample leftToRight { draws := rng.draws, pos := rng.pos + 1 }))
          chosenLight := chosen
          lightPDF := (sampleAreaLight E box sphere u intersection0 leftToRight chosen
            intersect normal num_lights wi0 lightPDF0 geoms materials
            { draws := rng.draws, pos := rng.pos + 1 }).pdf
          rng := { draws := rng.draws, pos := rng.pos + 3 } } := by
  rw [sampleLight_of_read E box sphere u intersection0 leftToRight intersect normal wi0 rng
    lightPDF0 geoms materials lights num_lights chosen hread, if_pos harea]
  rw [sampleAreaLight_cube E box sphere u intersection0 leftToRight chosen intersect normal
    num_lights wi0 lightPDF0 geoms materials { draws := rng.draws, pos := rng.pos + 1 } hcube]

/-- The function `sampleLight` when the chosen light is not an `AREA` light
with box geometry: the zero vector is returned, `wi` and `lightPDF` keep their
contents and one draw is consumed. -/
theorem sampleLight_unmatched (E : MathEnv R) (box sphere : ShapeTest R) (u : Uninit R)
    (intersection0 : ShadeableIntersection R) (leftToRight : Bool)
    (intersect normal wi0 : Vec3 R) (rng : Rng R) (lightPDF0 : R)
    (geoms : List (Geom R)) (materials : List (Material R)) (lights : List (Light R))
    (num_lights : Int) (chosen : Light R)
    (hread : readAt lights (chosenLightIndex (rng.draws rng.pos) num_lights) = some chosen)
    (hun : chosen.lightType ≠ LightType.AREA ∨ chosen.geom.type ≠ GeomType.CUBE) :
    sampleLight E box sphere u intersection0 leftToRight intersect normal wi0 rng lightPDF0
        geoms materials lights num_lights =
      some { radiance := some (Vec3.splat 0), wi := wi0, chosenLight := chosen,
             lightPDF := lightPDF0, rng := { draws := rng.draws, pos := rng.pos + 1 } } := by
  rw [sampleLight_of_read E box sphere u intersection0 leftToRight intersect normal wi0 rng
    lightPDF0 geoms materials lights num_lights chosen hread]
  by_cases harea : chosen.lightType = LightType.AREA
  · have hcube : chosen.geom.type ≠ GeomType.CUBE := by
      rcases hun with h | h
      · exact absurd harea h
      · exact h
    rw [if_pos harea, sampleAreaLight_not_cube E box sphere u intersection0 leftToRight chosen
      intersect normal num_lights wi0 lightPDF0 geoms materials
      { draws := rng.draws, pos := rng.pos + 1 } hcube]
  · rw [if_neg harea]

/-- For a count `num_lights ≥ 1` and a draw in `[0, 1)` the chosen index lies
in `[0, num_lights)`. -/
theorem chosenLightIndex_range (u : R) (num_lights : Int) (hn : 1 ≤ num_lights)
    (hu0 : 0 ≤ u) (hu1 : u < 1) :
    0 ≤ chosenLightIndex u num_lights ∧ chosenLightIndex u num_lights < num_lights := by
  have hnR : (0 : R) < (num_lights : R) := by
    have : (0 : Int) < num_lights := by omega
    exact_mod_cast this
  have hx0 : 0 ≤ u * (num_lights : R) := mul_nonneg hu0 (le_of_lt hnR)
  have hx1 : u * (num_lights : R) < (num_lights : R) := by
    have := mul_lt_mul_of_pos_right hu1 hnR
    simpa using this
  simp only [chosenLightIndex, truncToInt, if_pos hx0]
  exact ⟨Int.floor_nonneg.2 hx0, Int.floor_lt.2 hx1⟩

/-- An index in `[0, length)` reads an element of the array. -/
theorem readAt_of_range {α : Type} (xs : List α) (i : Int) (h0 : 0 ≤ i)
    (h1 : i < (xs.length : Int)) : ∃ x, readAt xs i = some x := by
  have hk : i.toNat < xs.length := by omega
  exact ⟨xs.get ⟨i.toNat, hk⟩, by
    simp only [readAt, if_pos h0]
    exact List.getElem?_eq_getElem hk⟩

end LightProofs

/-! # Claims -/

/-! ## Claims on `computeRayIntersection` -/

section IntersectionClaims

variable {R : Type} [LinearOrderedField R]

/-- C1 (as amended): for every ray and every list of primitives tagged sphere
or box, with the shape tests any given functions, `intersection.t` is positive
if and only if some shape test returns a value `t` with `0 < t < FLT_MAX`; in
that case `intersection.t` is one of the values returned by the shape tests,
is positive and is at most every positive value returned (it is the minimum of
the positive values); otherwise, the empty list included, `intersection.t` is
the miss sentinel `-1`. -/
theorem computeRayIntersection_nearest_positive (box sphere : ShapeTest R) (u : Uninit R)
    (geoms : List (Geom R)) (ray : Ray R) (intersection : ShadeableIntersection R)
    (hty : ∀ g ∈ geoms, g.type = GeomType.SPHERE ∨ g.type = GeomType.CUBE) :
    (0 < (computeRayIntersection box sphere u geoms ray intersection).t ↔
        ∃ v ∈ shapeValues box sphere u geoms ray, 0 < v ∧ v < FLT_MAX) ∧
    ((∃ v ∈ shapeValues box sphere u geoms ray, 0 < v ∧ v < FLT_MAX) →
        (computeRayIntersection box sphere u geoms ray intersection).t ∈
          shapeValues box sphere u geoms ray ∧
        0 < (computeRayIntersection box sphere u geoms ray intersection).t ∧
        ∀ v ∈ shapeValues box sphere u geoms ray, 0 < v →
          (computeRayIntersection box sphere u geoms ray intersection).t ≤ v) ∧
    ((¬ ∃ v ∈ shapeValues box sphere u geoms ray, 0 < v ∧ v < FLT_MAX) →
        (computeRayIntersection box sphere u geoms ray intersection).t = -1) := by
  have hty2 : ∀ g ∈ geoms, g.type ≠ GeomType.OTHER := by
    intro g hg h
    rcases hty g hg with h1 | h1 <;> rw [h] at h1 <;> cases h1
  have key := scanLoop_spec box sphere ray geoms 0 (scanInit u) hty2
  rcases key with ⟨_, e2, _, _, e5⟩ | ⟨k, o, ho, e1, e2, e3, e4, _, _, e7, _⟩
  · -- no iteration updated: a miss
    have hmiss : (computeRayIntersection box sphere u geoms ray intersection).t = -1 := by
      rw [computeRayIntersection_miss box sphere u geoms ray intersection (by rw [e2]; rfl)]
    have hnone : ¬ ∃ v ∈ shapeValues box sphere u geoms ray, 0 < v ∧ v < FLT_MAX := by
      rintro ⟨v, hv, hpos, hlt⟩
      rcases List.mem_map.1 hv with ⟨p, hp, rfl⟩
      have := e5 p hp hpos
      exact absurd hlt (not_lt_of_le this)
    refine ⟨?_, fun h => absurd h hnone, fun _ => hmiss⟩
    rw [hmiss]
    constructor
    · intro h
      exact absurd h (by norm_num)
    · intro h
      exact absurd h hnone
  · -- position `k` holds the recorded hit
    have hne : (scanLoop box sphere ray 0 geoms (scanInit u)).hit_geom_index ≠ -1 := by
      rw [e1]; omega
    have hres : (computeRayIntersection box sphere u geoms ray intersection).t = o.1 := by
      rw [computeRayIntersection_hit box sphere u geoms ray intersection hne, ← e2]
    have hmem : o.1 ∈ shapeValues box sphere u geoms ray :=
      List.mem_map.2 ⟨o, List.getElem?_mem ho, rfl⟩
    have hex : ∃ v ∈ shapeValues box sphere u geoms ray, 0 < v ∧ v < FLT_MAX :=
      ⟨o.1, hmem, e3, e4⟩
    have hmin : ∀ v ∈ shapeValues box sphere u geoms ray, 0 < v → o.1 ≤ v := by
      intro v hv hpos
      rcases List.mem_map.1 hv with ⟨p, hp, rfl⟩
      exact e7 p hp hpos
    rw [hres]
    exact ⟨⟨fun _ => hex, fun _ => e3⟩, fun _ => ⟨hmem, e3, hmin⟩, fun h => absurd hex h⟩

/-- Witness for C1: in `sceneTie` (values 5, 3, 3) the reported `t` is a
returned value, positive, and at most every positive returned value. -/
theorem computeRayIntersection_nearest_positive_witness :
    (computeRayIntersection scaleTest scaleTest (uninitWith 0) sceneTie rayZ staleRecord).t ∈
        shapeValues scaleTest scaleTest (uninitWith 0) sceneTie rayZ ∧
      0 < (computeRayIntersection scaleTest scaleTest (uninitWith 0) sceneTie rayZ
        staleRecord).t ∧
      ∀ v ∈ shapeValues scaleTest scaleTest (uninitWith 0) sceneTie rayZ, 0 < v →
        (computeRayIntersection scaleTest scaleTest (uninitWith 0) sceneTie rayZ
          staleRecord).t ≤ v :=
  (computeRayIntersection_nearest_positive scaleTest scaleTest (uninitWith 0) sceneTie rayZ
    staleRecord (by simp [sceneTie, mkGeom])).2.1
    ⟨3, by simp [shapeValues, testOutputs, sceneTie, mkGeom, scaleTest], by norm_num,
      by norm_num [FLT_MAX]⟩

/-- Counterexample to C1 as stated: the shape test of a single sphere returns
the positive value `FLT_MAX`, yet the scan reports the miss sentinel `-1`. -/
theorem computeRayIntersection_far_value_missed :
    (∃ v ∈ shapeValues farTest farTest (uninitWith 0) [mkGeom GeomType.SPHERE 10 1] rayZ,
        0 < v) ∧
      (computeRayIntersection farTest farTest (uninitWith 0) [mkGeom GeomType.SPHERE 10 1] rayZ
        staleRecord).t = -1 := by
  constructor
  · refine ⟨FLT_MAX, ?_, by norm_num [FLT_MAX]⟩
    simp [shapeValues, testOutputs, farTest, mkGeom]
  · simp [computeRayIntersection, scanLoop, scanStep, dispatch, scanInit, farTest, mkGeom]

/-- C2 (as amended): for every ray and every list of primitives tagged sphere
or box in which some shape test returns a value `t` with `0 < t < FLT_MAX`,
there is an index `i` such that the reported `geomId` is `i`, the value
returned by the shape test of primitive `i` is the reported `t` and is the
minimum of the positive returned values, no primitive before `i` returns that
value (a later primitive with an equal value never replaces an earlier one),
and the reported `materialId`, `surfaceNormal` and `surfaceTangent` are the
material of primitive `i` and the normal and tangent its shape test wrote. -/
theorem computeRayIntersection_first_nearest (box sphere : ShapeTest R) (u : Uninit R)
    (geoms : List (Geom R)) (ray : Ray R) (intersection : ShadeableIntersection R)
    (hty : ∀ g ∈ geoms, g.type = GeomType.SPHERE ∨ g.type = GeomType.CUBE)
    (hhit : ∃ v ∈ shapeValues box sphere u geoms ray, 0 < v ∧ v < FLT_MAX) :
    ∃ (i : Nat) (o : R × Scratch R) (g : Geom R),
      (testOutputs box sphere ray geoms (scanInit u).scratch)[i]? = some o ∧
      geoms[i]? = some g ∧
      0 < o.1 ∧
      (∀ v ∈ shapeValues box sphere u geoms ray, 0 < v → o.1 ≤ v) ∧
      (∀ j p, j < i →
        (testOutputs box sphere ray geoms (scanInit u).scratch)[j]? = some p → p.1 ≠ o.1) ∧
      (computeRayIntersection box sphere u geoms ray intersection).geomId = (i : Int) ∧
      (computeRayIntersection box sphere u geoms ray intersection).t = o.1 ∧
      (computeRayIntersection box sphere u geoms ray intersection).materialId = g.materialid ∧
      (computeRayIntersection box sphere u geoms ray intersection).surfaceNormal =
        o.2.tmp_normal ∧
      (computeRayIntersection box sphere u geoms ray intersection).surfaceTangent =
        o.2.tmp_tangent := by
  have hty2 : ∀ g ∈ geoms, g.type ≠ GeomType.OTHER := by
    intro g hg h
    rcases hty g hg with h1 | h1 <;> rw [h] at h1 <;> cases h1
  have key := scanLoop_spec box sphere ray geoms 0 (scanInit u) hty2
  rcases key with ⟨_, _, _, _, e5⟩ | ⟨k, o, ho, e1, e2, e3, _, e5, e6, e7, e8⟩
  · exfalso
    rcases hhit with ⟨v, hv, hpos, hlt⟩
    rcases List.mem_map.1 hv with ⟨p, hp, rfl⟩
    exact absurd hlt (not_lt_of_le (e5 p hp hpos))
  · have hne : (scanLoop box sphere ray 0 geoms (scanInit u)).hit_geom_index ≠ -1 := by
      rw [e1]; omega
    have hidx : (scanLoop box sphere ray 0 geoms (scanInit u)).hit_geom_index = (k : Int) := by
      rw [e1]; simp
    have hk : k < geoms.length := by
      have h1 : k < (testOutputs box sphere ray geoms (scanInit u).scratch).length := by
        rcases List.getElem?_eq_some.1 ho with ⟨h, _⟩
        exact h
      rwa [testOutputs_length] at h1
    have hg : geoms[k]? = some (geoms.get ⟨k, hk⟩) := by
      simp [List.getElem?_eq_getElem hk]
    refine ⟨k, o, geoms.get ⟨k, hk⟩, ho, hg, e3, ?_, e8, ?_, ?_, ?_, ?_, ?_⟩
    · intro v hv hpos
      rcases List.mem_map.1 hv with ⟨p, hp, rfl⟩
      exact e7 p hp hpos
    · rw [computeRayIntersection_hit box sphere u geoms ray intersection hne, hidx]
    · rw [computeRayIntersection_hit box sphere u geoms ray intersection hne, ← e2]
    · rw [computeRayIntersection_hit box sphere u geoms ray intersection hne]
      simp only [hidx, Int.toNat_ofNat, hg]
    · rw [computeRayIntersection_hit box sphere u geoms ray intersection hne, ← e5]
    · rw [computeRayIntersection_hit box sphere u geoms ray intersection hne, ← e6]

/-- Witness for C2: in `sceneTie` the box returns 5 and both spheres return 3;
the first sphere, index 1, is reported. -/
theorem computeRayIntersection_first_nearest_witness :
    ∃ (i : Nat) (o : ℚ × Scratch ℚ) (g : Geom ℚ),
      (testOutputs scaleTest scaleTest rayZ sceneTie (scanInit (uninitWith 0)).scratch)[i]? =
        some o ∧
      sceneTie[i]? = some g ∧
      0 < o.1 ∧
      (∀ v ∈ shapeValues scaleTest scaleTest (uninitWith 0) sceneTie rayZ, 0 < v → o.1 ≤ v) ∧
      (∀ j p, j < i →
        (testOutputs scaleTest scaleTest rayZ sceneTie (scanInit (uninitWith 0)).scratch)[j]? =
          some p → p.1 ≠ o.1) ∧
      (computeRayIntersection scaleTest scaleTest (uninitWith 0) sceneTie rayZ
        staleRecord).geomId = (i : Int) ∧
      (computeRayIntersection scaleTest scaleTest (uninitWith 0) sceneTie rayZ
        staleRecord).t = o.1 ∧
      (computeRayIntersection scaleTest scaleTest (uninitWith 0) sceneTie rayZ
        staleRecord).materialId = g.materialid ∧
      (computeRayIntersection scaleTest scaleTest (uninitWith 0) sceneTie rayZ
        staleRecord).surfaceNormal = o.2.tmp_normal ∧
      (computeRayIntersection scaleTest scaleTest (uninitWith 0) sceneTie rayZ
        staleRecord).surfaceTangent = o.2.tmp_tangent :=
  computeRayIntersection_first_nearest scaleTest scaleTest (uninitWith 0) sceneTie rayZ
    staleRecord (by simp [sceneTie, mkGeom])
    ⟨3, by simp [shapeValues, testOutputs, sceneTie, mkGeom, scaleTest], by norm_num,
      by norm_num [FLT_MAX]⟩

/-- Counterexample to C2 as stated: the only primitive, a box, returns the
positive value `FLT_MAX`, so index 0 holds the minimum positive value; the
scan reports no hit and `geomId` keeps the caller's stale value 7. -/
theorem computeRayIntersection_far_value_not_reported :
    shapeValues farTest farTest (uninitWith 0) [mkGeom GeomType.CUBE 10 1] rayZ = [FLT_MAX] ∧
      (0 : ℚ) < FLT_MAX ∧
      (computeRayIntersection farTest farTest (uninitWith 0) [mkGeom GeomType.CUBE 10 1] rayZ
        staleRecord).geomId = 7 := by
  refine ⟨?_, by norm_num [FLT_MAX], ?_⟩
  · simp [shapeValues, testOutputs, farTest, mkGeom]
  · simp [computeRayIntersection, scanLoop, scanStep, dispatch, scanInit, farTest, mkGeom,
      staleRecord]

/-- C3 (the code at the failing input): a primitive of unmatched type at
index 0 is tested against the indeterminate initial `t`.  When that value
happens to be `1`, the scan of the single unmatched primitive reports a hit
with `t = 1`, `geomId = 0` and its material 10, where the scan without it
reports the miss sentinel; and in front of a sphere whose test returns 3 it is
reported as well, where the scan without it reports the sphere. -/
theorem computeRayIntersection_unmatched_first_reported :
    computeRayIntersection scaleTest scaleTest (uninitWith 1) [mkGeom GeomType.OTHER 10 5]
        rayZ staleRecord =
      { t := 1, surfaceNormal := zeroVec, surfaceTangent := zeroVec, materialId := 10,
        geomId := 0 } ∧
    computeRayIntersection scaleTest scaleTest (uninitWith 1) [] rayZ staleRecord =
      { t := -1, surfaceNormal := zeroVec, surfaceTangent := zeroVec, materialId := 7,
        geomId := 7 } ∧
    computeRayIntersection scaleTest scaleTest (uninitWith 1)
        [mkGeom GeomType.OTHER 10 5, mkGeom GeomType.SPHERE 11 3] rayZ staleRecord =
      { t := 1, surfaceNormal := zeroVec, surfaceTangent := zeroVec, materialId := 10,
        geomId := 0 } ∧
    computeRayIntersection scaleTest scaleTest (uninitWith 1) [mkGeom GeomType.SPHERE 11 3]
        rayZ staleRecord =
      { t := 3, surfaceNormal := ⟨3, 1, 1⟩, surfaceTangent := ⟨3, 1, 1⟩, materialId := 11,
        geomId := 0 } := by
  refine ⟨?_, ?_, ?_, ?_⟩ <;>
    simp [computeRayIntersection, scanLoop, scanStep, dispatch, scanInit, scaleTest, mkGeom,
      staleRecord, uninitWith, FLT_MAX] <;> norm_num

end IntersectionClaims

/-! ## Claims on the BSDF samplers -/

section BsdfClaims

variable {R : Type} [LinearOrderedField R]

/-- C4: `sampleMaterial` selects exactly one branch by precedence.  With both
weights positive the value, direction and engine are those of
`sampleFresnelSpecularMaterial`; else with `hasReflective > 0` those of
`sampleSpecularReflectMaterial`; else with `hasRefractive > 0` those of
`sampleSpecularTransmissionMaterial`; in these three branches `pdf = 1` and
`specular = true`.  Otherwise the diffuse branch is taken: `specular = false`,
the value is the base color divided by `PI`, and direction, pdf and engine
come from `calculateRandomDirectionInHemisphere`. -/
theorem sampleMaterial_branch (E : MathEnv R) (intersect normal tangent : Vec3 R)
    (m : Material R) (wo : Vec3 R) (rng : Rng R) :
    (m.hasReflective > 0 ∧ m.hasRefractive > 0 →
      sampleMaterial E intersect normal tangent m wo rng =
        { f := (sampleFresnelSpecularMaterial E.sqrt m normal wo rng).1
          wi := (sampleFresnelSpecularMaterial E.sqrt m normal wo rng).2.1
          pdf := 1
          specular := true
          rng := (sampleFresnelSpecularMaterial E.sqrt m normal wo rng).2.2 }) ∧
    (m.hasReflective > 0 ∧ ¬ m.hasRefractive > 0 →
      sampleMaterial E intersect normal tangent m wo rng =
        { f := (sampleSpecularReflectMaterial E.sqrt m normal wo).1
          wi := (sampleSpecularReflectMaterial E.sqrt m normal wo).2
          pdf := 1
          specular := true
          rng := rng }) ∧
    (¬ m.hasReflective > 0 ∧ m.hasRefractive > 0 →
      sampleMaterial E intersect normal tangent m wo rng =
        { f := (sampleSpecularTransmissionMaterial E.sqrt m normal wo).1
          wi := (sampleSpecularTransmissionMaterial E.sqrt m normal wo).2
          pdf := 1
          specular := true
          rng := rng }) ∧
    (¬ m.hasReflective > 0 ∧ ¬ m.hasRefractive > 0 →
      sampleMaterial E intersect normal tangent m wo rng =
        { f := Vec3.divs m.color E.PI
          wi := Vec3.normalize E.sqrt (calculateRandomDirectionInHemisphere E normal rng).1
          pdf := (calculateRandomDirectionInHemisphere E normal rng).2.1
          specular := false
          rng := (calculateRandomDirectionInHemisphere E normal rng).2.2 }) := by
  refine ⟨?_, ?_, ?_, ?_⟩
  · intro h
    simp only [sampleMaterial]
    rw [if_pos h]
  · rintro ⟨h1, h2⟩
    simp only [sampleMaterial]
    rw [if_neg (fun h => h2 h.2), if_pos h1]
  · rintro ⟨h1, h2⟩
    simp only [sampleMaterial]
    rw [if_neg (fun h => h1 h.1), if_neg h1, if_pos h2]
  · rintro ⟨h1, h2⟩
    simp only [sampleMaterial]
    rw [if_neg (fun h => h1 h.1), if_neg h1, if_neg h2]

/-- Witness for C4, over `ℝ` with the real library functions: the diffuse
material takes the diffuse branch, with `specular = false` and value
`color / PI`. -/
theorem sampleMaterial_branch_witness :
    (sampleMaterial (⟨Real.sqrt, Real.cos, Real.sin, Real.pi, 2 * Real.pi, Real.sqrt (1 / 3)⟩ :
          MathEnv ℝ) ⟨0, 0, 0⟩ ⟨0, 0, 1⟩ ⟨1, 0, 0⟩ diffuseMaterial ⟨0, 0, -1⟩
        ⟨fun _ => 1 / 4, 0⟩).specular = false ∧
      (sampleMaterial (⟨Real.sqrt, Real.cos, Real.sin, Real.pi, 2 * Real.pi, Real.sqrt (1 / 3)⟩ :
          MathEnv ℝ) ⟨0, 0, 0⟩ ⟨0, 0, 1⟩ ⟨1, 0, 0⟩ diffuseMaterial ⟨0, 0, -1⟩
        ⟨fun _ => 1 / 4, 0⟩).f = Vec3.divs (diffuseMaterial : Material ℝ).color Real.pi := by
  have h := (sampleMaterial_branch
    (⟨Real.sqrt, Real.cos, Real.sin, Real.pi, 2 * Real.pi, Real.sqrt (1 / 3)⟩ : MathEnv ℝ)
    ⟨0, 0, 0⟩ ⟨0, 0, 1⟩ ⟨1, 0, 0⟩ diffuseMaterial ⟨0, 0, -1⟩ ⟨fun _ => 1 / 4, 0⟩).2.2.2
    ⟨by norm_num [diffuseMaterial], by norm_num [diffuseMaterial]⟩
  rw [h]
  exact ⟨rfl, rfl⟩

/-- C5 (as amended): for every unit incoming direction `wo` and every unit
normal (with `sqrt 1 = 1`), the direction sampled by
`sampleSpecularReflectMaterial` equals `reflect(wo, normal)
= wo - 2 (wo . normal) normal` exactly, and, when that direction is not
perpendicular to the normal, the returned value multiplied by
`|dot(wi, normal)|` equals the specular color exactly. -/
theorem sampleSpecularReflectMaterial_unit (sqrt : R → R) (m : Material R)
    (normal wo : Vec3 R) (hsqrt : sqrt 1 = 1) (hn : Vec3.dot normal normal = 1)
    (hw : Vec3.dot wo wo = 1) :
    (sampleSpecularReflectMaterial sqrt m normal wo).2 = Vec3.reflect wo normal ∧
    Vec3.reflect wo normal = Vec3.sub wo (Vec3.smul (2 * Vec3.dot wo normal) normal) ∧
    (Vec3.dot (sampleSpecularReflectMaterial sqrt m normal wo).2 normal ≠ 0 →
      Vec3.smul |Vec3.dot (sampleSpecularReflectMaterial sqrt m normal wo).2 normal|
        (sampleSpecularReflectMaterial sqrt m normal wo).1 = m.specular.color) := by
  have hunit : Vec3.dot (Vec3.reflect wo normal) (Vec3.reflect wo normal) = 1 := by
    rw [Vec3.dot_reflect_reflect wo normal hn, hw]
  have hwi : (sampleSpecularReflectMaterial sqrt m normal wo).2 = Vec3.reflect wo normal := by
    simp only [sampleSpecularReflectMaterial]
    exact Vec3.normalize_of_unit sqrt _ hsqrt hunit
  have hval : (sampleSpecularReflectMaterial sqrt m normal wo).1 =
      Vec3.divs m.specular.color |Vec3.dot (Vec3.reflect wo normal) normal| := by
    simp only [sampleSpecularReflectMaterial]
    rw [Vec3.normalize_of_unit sqrt _ hsqrt hunit, Vec3.normalize_of_unit sqrt _ hsqrt hunit]
  refine ⟨hwi, ?_, ?_⟩
  · cases wo; cases normal
    simp only [Vec3.reflect, Vec3.dot, Vec3.sub, Vec3.smul, Vec3.mk.injEq]
    refine ⟨?_, ?_, ?_⟩ <;> ring
  · intro hne
    rw [hwi] at hne ⊢
    rw [hval]
    exact Vec3.smul_divs_cancel _ _ (abs_ne_zero.2 hne)

/-- Witness for C5, over `ℝ`: `wo = (3/5, 0, -4/5)` arriving on the normal
`(0, 0, 1)`. -/
theorem sampleSpecularReflectMaterial_unit_witness :
    (sampleSpecularReflectMaterial Real.sqrt (mirrorMaterial : Material ℝ) ⟨0, 0, 1⟩
        ⟨3 / 5, 0, -4 / 5⟩).2 = Vec3.reflect ⟨3 / 5, 0, -4 / 5⟩ ⟨0, 0, 1⟩ :=
  (sampleSpecularReflectMaterial_unit Real.sqrt mirrorMaterial ⟨0, 0, 1⟩ ⟨3 / 5, 0, -4 / 5⟩
    Real.sqrt_one (by norm_num [Vec3.dot]) (by norm_num [Vec3.dot])).1

/-- Counterexample to C5 as stated, over `ℝ` with the real square root.
For the incoming direction `(0, 0, -2)` and normal `(0, 0, 1)` the sampled
direction is `(0, 0, 1)` while `reflect(wo, normal)` is `(0, 0, 2)`.  For the
unit direction `(1, 0, 0)` along the surface the sampled direction is
perpendicular to the normal, the value is the specular color divided by zero,
and the value multiplied by `|dot(wi, normal)| = 0` is not the specular color
`(1, 1/2, 1/4)`. -/
theorem sampleSpecularReflectMaterial_not_reflect :
    (sampleSpecularReflectMaterial Real.sqrt (mirrorMaterial : Material ℝ) ⟨0, 0, 1⟩
        ⟨0, 0, -2⟩).2 = ⟨0, 0, 1⟩ ∧
      Vec3.reflect (⟨0, 0, -2⟩ : Vec3 ℝ) ⟨0, 0, 1⟩ = ⟨0, 0, 2⟩ ∧
      Vec3.dot (sampleSpecularReflectMaterial Real.sqrt (mirrorMaterial : Material ℝ)
        ⟨0, 0, 1⟩ ⟨1, 0, 0⟩).2 ⟨0, 0, 1⟩ = 0 ∧
      Vec3.smul
        |Vec3.dot (sampleSpecularReflectMaterial Real.sqrt (mirrorMaterial : Material ℝ)
          ⟨0, 0, 1⟩ ⟨1, 0, 0⟩).2 ⟨0, 0, 1⟩|
        (sampleSpecularReflectMaterial Real.sqrt (mirrorMaterial : Material ℝ) ⟨0, 0, 1⟩
          ⟨1, 0, 0⟩).1 ≠ (mirrorMaterial : Material ℝ).specular.color := by
  refine ⟨?_, ?_, ?_, ?_⟩
  · simp only [sampleSpecularReflectMaterial, Vec3.normalize, Vec3.reflect, Vec3.dot, Vec3.sub,
      Vec3.smul]
    norm_num [real_sqrt_four]
  · simp only [Vec3.reflect, Vec3.dot, Vec3.sub, Vec3.smul]
    norm_num
  · simp only [sampleSpecularReflectMaterial, Vec3.normalize, Vec3.reflect, Vec3.dot, Vec3.sub,
      Vec3.smul]
    norm_num
  · simp only [sampleSpecularReflectMaterial, Vec3.normalize, Vec3.reflect, Vec3.dot, Vec3.sub,
      Vec3.smul, Vec3.divs, mirrorMaterial]
    norm_num

/-- C6 (the code at the failing input), over `ℝ` with the real square root.
The unit direction `wo = (3/5, 0, 4/5)` leaves the glass through the surface
with normal `(0, 0, 1)`: `dot(wo, normal) = 4/5 > 0`.  The reflectance the
code compares with the draw is `1124/21609`, the value for incident index 1
and transmitted index `39/25`; the reflectance for incident index `39/25` and
transmitted index 1 at the same cosine is `30218692/173580625`.  The draw
`u = 1/10` lies between the two, so the code takes the transmission branch and
returns the refracted direction `(117/125, 0, 44/125)`, where the reflection
branch would return `(3/5, 0, -4/5)`. -/
theorem sampleFresnelSpecularMaterial_exiting_not_swapped :
    Vec3.dot (⟨3 / 5, 0, 4 / 5⟩ : Vec3 ℝ) ⟨0, 0, 1⟩ > 0 ∧
      fresnelF Real.sqrt (glassMaterial : Material ℝ) ⟨0, 0, 1⟩ ⟨3 / 5, 0, 4 / 5⟩ =
        1124 / 21609 ∧
      fresnelDielectricEval Real.sqrt (-(4 / 5)) 1 (39 / 25) = 1124 / 21609 ∧
      fresnelDielectricEval Real.sqrt (-(4 / 5)) (39 / 25) 1 = 30218692 / 173580625 ∧
      (1124 / 21609 : ℝ) ≤ 1 / 10 ∧ (1 / 10 : ℝ) < 30218692 / 173580625 ∧
      (sampleFresnelSpecularMaterial Real.sqrt (glassMaterial : Material ℝ) ⟨0, 0, 1⟩
        ⟨3 / 5, 0, 4 / 5⟩ ⟨fun _ => 1 / 10, 0⟩).2.1 = ⟨117 / 125, 0, 44 / 125⟩ ∧
      (sampleSpecularReflectMaterial Real.sqrt (glassMaterial : Material ℝ) ⟨0, 0, 1⟩
        ⟨3 / 5, 0, 4 / 5⟩).2 = ⟨3 / 5, 0, -(4 / 5)⟩ := by
  have hF : fresnelF Real.sqrt (glassMaterial : Material ℝ) ⟨0, 0, 1⟩ ⟨3 / 5, 0, 4 / 5⟩ =
      1124 / 21609 := by
    simp only [fresnelF, fresnelDielectricEval, Vec3.dot, glassMaterial]
    norm_num [real_sqrt_9, real_sqrt_25, real_sqrt_144, real_sqrt_169, abs_of_nonneg]
  refine ⟨by norm_num [Vec3.dot], hF, ?_, ?_, by norm_num, by norm_num, ?_, ?_⟩
  · simp only [fresnelDielectricEval]
    norm_num [real_sqrt_9, real_sqrt_25, real_sqrt_144, real_sqrt_169, abs_of_nonneg]
  · simp only [fresnelDielectricEval]
    norm_num [real_sqrt_9, real_sqrt_25, real_sqrt_1936, real_sqrt_15625, abs_of_nonneg]
  · simp only [sampleFresnelSpecularMaterial, hF, u01]
    norm_num
    simp only [sampleSpecularTransmissionMaterial, Vec3.dot, glassMaterial, Vec3.refract,
      Vec3.normalize, Vec3.smul, Vec3.sub, Vec3.neg, Vec3.splat]
    norm_num [real_sqrt_9, real_sqrt_25, real_sqrt_1936, real_sqrt_15625, abs_of_nonneg]
  · simp only [sampleSpecularReflectMaterial, Vec3.normalize, Vec3.reflect, Vec3.dot, Vec3.sub,
      Vec3.smul]
    norm_num

/-- C7: at normal incidence (`cosi = 1` or `cosi = -1`) and for every pair of
positive indices `etai`, `etat`, `fresnelDielectricEval` returns the closed
form `((etat - etai) / (etat + etai))²` (the square root being exact at 0 and
at 1); for the glass pair `(1, 3/2)` this is `1/25 = 0.04`. -/
theorem fresnelDielectricEval_normal_incidence (sqrt : R → R) (etai etat : R)
    (h0 : sqrt 0 = 0) (h1 : sqrt 1 = 1) (hi : 0 < etai) (ht : 0 < etat) :
    fresnelDielectricEval sqrt 1 etai etat = ((etat - etai) / (etat + etai)) ^ 2 ∧
    fresnelDielectricEval sqrt (-1) etai etat = ((etat - etai) / (etat + etai)) ^ 2 ∧
    fresnelDielectricEval sqrt 1 1 (3 / 2) = 1 / 25 ∧
    fresnelDielectricEval sqrt (-1) 1 (3 / 2) = 1 / 25 := by
  have hpos : ∀ a b : R, 0 < a → 0 < b →
      fresnelDielectricEval sqrt 1 a b = ((b - a) / (b + a)) ^ 2 := by
    intro a b ha hb
    have hab : b + a ≠ 0 := ne_of_gt (add_pos hb ha)
    have hba : a + b ≠ 0 := ne_of_gt (add_pos ha hb)
    simp only [fresnelDielectricEval]
    norm_num [h0, h1]
    field_simp
    ring
  have hneg : ∀ a b : R, 0 < a → 0 < b →
      fresnelDielectricEval sqrt (-1) a b = ((b - a) / (b + a)) ^ 2 := by
    intro a b ha hb
    have hab : b + a ≠ 0 := ne_of_gt (add_pos hb ha)
    have hba : a + b ≠ 0 := ne_of_gt (add_pos ha hb)
    simp only [fresnelDielectricEval]
    norm_num [h0, h1]
    field_simp
    ring
  refine ⟨hpos etai etat hi ht, hneg etai etat hi ht, ?_, ?_⟩
  · rw [hpos 1 (3 / 2) (by norm_num) (by norm_num)]
    norm_num
  · rw [hneg 1 (3 / 2) (by norm_num) (by norm_num)]
    norm_num

/-- Witness for C7, over `ℝ` with the real square root: water against air,
indices `(1, 4/3)`, head-on. -/
theorem fresnelDielectricEval_normal_incidence_witness :
    fresnelDielectricEval Real.sqrt 1 1 (4 / 3) = (((4 / 3 : ℝ) - 1) / (4 / 3 + 1)) ^ 2 :=
  (fresnelDielectricEval_normal_incidence Real.sqrt 1 (4 / 3) Real.sqrt_zero Real.sqrt_one
    (by norm_num) (by norm_num)).1

/-- C8: whenever the transmitted sine that `fresnelDielectricEval` computes,
`(eta_incident / eta_transmitted) * sqrt(max(0, 1 - cosi²))` with the indices
swapped when `cosi > 0`, exceeds 1, the function returns exactly 1. -/
theorem fresnelDielectricEval_total_internal_reflection (sqrt : R → R) (cosi etai etat : R) :
    (cosi > 0 → (etat / etai) * sqrt (max 0 (1 - cosi * cosi)) > 1 →
      fresnelDielectricEval sqrt cosi etai etat = 1) ∧
    (¬ cosi > 0 → (etai / etat) * sqrt (max 0 (1 - cosi * cosi)) > 1 →
      fresnelDielectricEval sqrt cosi etai etat = 1) := by
  constructor
  · intro hc hs
    simp only [fresnelDielectricEval, if_pos hc, abs_mul_abs_self]
    rw [if_pos (le_of_lt hs)]
  · intro hc hs
    simp only [fresnelDielectricEval, if_neg hc, abs_mul_abs_self]
    rw [if_pos (le_of_lt hs)]

/-- Witness for C8, over `ℝ` with the real square root: `cosi = 3/5 > 0`, so
the indices `(1, 2)` are swapped and the sine is `(2 / 1) * (4/5) = 8/5`. -/
theorem fresnelDielectricEval_total_internal_reflection_witness :
    fresnelDielectricEval Real.sqrt (3 / 5) 1 2 = 1 :=
  (fresnelDielectricEval_total_internal_reflection Real.sqrt (3 / 5) 1 2).1 (by norm_num)
    (by norm_num [real_sqrt_16, real_sqrt_25])

/-- C9 (as amended): for every material with positive index of refraction,
unit normal and unit `wo` (and an exact square root), with
`eta = etaI / etaT` (`1 / ior` when `dot(wo, normal) < 0`, `ior / 1`
otherwise) and `nor` the normal flipped to face the ray: if the computed sine
`eta * sqrt(1 - dot(wo, normal)²)` exceeds 1, `wi` is the mirror reflection of
`wo` about the normal; otherwise `wi` is a unit vector whose component
perpendicular to the normal is `eta` times that of `wo`, and while `wo` points
against `nor`, `wi` does too (`dot(wi, nor) ≤ 0`): strictly when the sine is
below 1, while at a sine of exactly 1 `wi` lies in the surface
(`dot(wi, nor) = 0`). -/
theorem sampleSpecularTransmissionMaterial_snell (sqrt : R → R) (m : Material R)
    (normal wo nor : Vec3 R) (eta : R) (hsqrt : IsSqrt sqrt)
    (hn : Vec3.dot normal normal = 1) (hw : Vec3.dot wo wo = 1)
    (hior : 0 < m.indexOfRefraction)
    (heta : eta = if Vec3.dot wo normal < 0 then 1 / m.indexOfRefraction
      else m.indexOfRefraction / 1)
    (hnor : nor = if Vec3.dot wo normal < 0 then normal else Vec3.neg normal) :
    (eta * sqrt (1 - Vec3.dot wo normal * Vec3.dot wo normal) > 1 →
      (sampleSpecularTransmissionMaterial sqrt m normal wo).2 = Vec3.reflect wo normal) ∧
    (¬ eta * sqrt (1 - Vec3.dot wo normal * Vec3.dot wo normal) > 1 →
      Vec3.dot (sampleSpecularTransmissionMaterial sqrt m normal wo).2
          (sampleSpecularTransmissionMaterial sqrt m normal wo).2 = 1 ∧
      Vec3.sub (sampleSpecularTransmissionMaterial sqrt m normal wo).2
          (Vec3.smul (Vec3.dot (sampleSpecularTransmissionMaterial sqrt m normal wo).2 nor) nor) =
        Vec3.smul eta (Vec3.sub wo (Vec3.smul (Vec3.dot wo nor) nor)) ∧
      Vec3.dot wo nor ≤ 0 ∧
      Vec3.dot (sampleSpecularTransmissionMaterial sqrt m normal wo).2 nor ≤ 0 ∧
      (eta * sqrt (1 - Vec3.dot wo normal * Vec3.dot wo normal) < 1 →
        Vec3.dot (sampleSpecularTransmissionMaterial sqrt m normal wo).2 nor < 0) ∧
      (eta * sqrt (1 - Vec3.dot wo normal * Vec3.dot wo normal) = 1 →
        Vec3.dot (sampleSpecularTransmissionMaterial sqrt m normal wo).2 nor = 0)) := by
  have hwi := sampleSpecularTransmissionMaterial_wi sqrt m normal wo nor eta heta hnor
  have hcs : Vec3.dot wo normal * Vec3.dot wo normal ≤ 1 := Vec3.dot_sq_le_one wo normal hw hn
  have hmax : max 0 (1 - Vec3.dot wo normal * Vec3.dot wo normal) =
      1 - Vec3.dot wo normal * Vec3.dot wo normal := max_eq_right (by linarith)
  rw [hmax] at hwi
  obtain ⟨hs0, hs1⟩ := hsqrt (1 - Vec3.dot wo normal * Vec3.dot wo normal) (by linarith)
  have heta0 : 0 < eta := by
    rw [heta]
    split
    · exact one_div_pos.2 hior
    · simpa using hior
  have hnn : Vec3.dot nor nor = 1 := by
    rw [hnor]
    split
    · exact hn
    · rw [Vec3.dot_neg_neg, hn]
  have hrefl : Vec3.reflect wo nor = Vec3.reflect wo normal := by
    rw [hnor]
    split
    · rfl
    · exact Vec3.reflect_neg wo normal
  have hdn : Vec3.dot nor wo * Vec3.dot nor wo = Vec3.dot wo normal * Vec3.dot wo normal := by
    rw [hnor]
    split
    · rw [Vec3.dot_comm]
    · rw [Vec3.dot_comm, Vec3.dot_neg_right]; ring
  have hface : Vec3.dot wo nor ≤ 0 := by
    rw [hnor]
    split
    · next h => exact le_of_lt h
    · next h =>
      rw [Vec3.dot_neg_right]
      linarith [not_lt.1 h]
  constructor
  · intro hgt
    rw [hwi, if_pos hgt, hrefl]
    apply Vec3.normalize_of_unit sqrt _ hsqrt.one
    rw [Vec3.dot_reflect_reflect wo normal hn, hw]
  · intro hle
    rw [hwi, if_neg hle]
    have hle2 : eta * sqrt (1 - Vec3.dot wo normal * Vec3.dot wo normal) ≤ 1 := not_lt.1 hle
    have hsine0 : 0 ≤ eta * sqrt (1 - Vec3.dot wo normal * Vec3.dot wo normal) :=
      mul_nonneg (le_of_lt heta0) hs0
    have hkeq : 1 - eta * eta * (1 - Vec3.dot nor wo * Vec3.dot nor wo) =
        1 - (eta * sqrt (1 - Vec3.dot wo normal * Vec3.dot wo normal)) *
          (eta * sqrt (1 - Vec3.dot wo normal * Vec3.dot wo normal)) := by
      rw [hdn]
      linear_combination (eta * eta) * hs1
    have hk : 0 ≤ 1 - eta * eta * (1 - Vec3.dot nor wo * Vec3.dot nor wo) := by
      rw [hkeq]
      nlinarith
    obtain ⟨r1, r2, r3⟩ := Vec3.refract_spec sqrt wo nor eta hsqrt hw hnn hk
    obtain ⟨k0, k1⟩ := hsqrt _ hk
    rw [Vec3.normalize_of_unit sqrt _ hsqrt.one r1]
    refine ⟨r1, r3, hface, ?_, ?_, ?_⟩
    · rw [r2]; linarith
    rotate_left
    · intro heq
      rw [r2, hkeq, heq]
      norm_num [hsqrt.zero]
    · intro hlt
      rw [r2]
      have hkpos : 0 < 1 - eta * eta * (1 - Vec3.dot nor wo * Vec3.dot nor wo) := by
        rw [hkeq]
        nlinarith
      have : sqrt (1 - eta * eta * (1 - Vec3.dot nor wo * Vec3.dot nor wo)) ≠ 0 := by
        intro h0
        rw [h0] at k1
        linarith
      have : 0 < sqrt (1 - eta * eta * (1 - Vec3.dot nor wo * Vec3.dot nor wo)) :=
        lt_of_le_of_ne k0 (Ne.symm this)
      linarith

/-- Witness for C9, over `ℝ` with the real square root: the unit direction
`(3/5, 0, -4/5)` enters glass of index `39/25` through the normal `(0, 0, 1)`;
the sine `(25/39) (3/5)` is below 1 and the refracted direction is a unit
vector that points against the normal. -/
theorem sampleSpecularTransmissionMaterial_snell_witness :
    Vec3.dot (sampleSpecularTransmissionMaterial Real.sqrt (glassMaterial : Material ℝ)
          ⟨0, 0, 1⟩ ⟨3 / 5, 0, -4 / 5⟩).2
        (sampleSpecularTransmissionMaterial Real.sqrt (glassMaterial : Material ℝ)
          ⟨0, 0, 1⟩ ⟨3 / 5, 0, -4 / 5⟩).2 = 1 ∧
      Vec3.dot (sampleSpecularTransmissionMaterial Real.sqrt (glassMaterial : Material ℝ)
          ⟨0, 0, 1⟩ ⟨3 / 5, 0, -4 / 5⟩).2 ⟨0, 0, 1⟩ ≤ 0 := by
  have h := (sampleSpecularTransmissionMaterial_snell Real.sqrt (glassMaterial : Material ℝ)
    ⟨0, 0, 1⟩ ⟨3 / 5, 0, -4 / 5⟩ ⟨0, 0, 1⟩ (25 / 39) isSqrt_real (by norm_num [Vec3.dot])
    (by norm_num [Vec3.dot]) (by norm_num [glassMaterial])
    (by norm_num [Vec3.dot, glassMaterial]) (by norm_num [Vec3.dot])).2
    (by norm_num [Vec3.dot, real_sqrt_9, real_sqrt_25])
  exact ⟨h.1, h.2.2.2.1⟩

/-- Counterexample to C9 as stated, over `ℝ` with the real square root: a
material of index 1, the unit direction `wo = (1, 0, 0)` and the unit normal
`(0, 0, 1)`.  Here `dot(wo, normal) = 0` is not negative, so `etaI / etaT` is
`1 / 1` and the facing normal is `(0, 0, -1)`; the computed sine
`(1 / 1) * sqrt(1 - 0)` is exactly 1 and does not exceed 1, the refracted
direction is the unit vector `wi = (1, 0, 0)`, and `dot(wi, nor) = 0`: the
direction lies in the surface, not on the side opposite to the incident
side. -/
theorem sampleSpecularTransmissionMaterial_sine_one :
    ((1 : ℝ) / 1) * Real.sqrt (1 - Vec3.dot (⟨1, 0, 0⟩ : Vec3 ℝ) ⟨0, 0, 1⟩ *
        Vec3.dot (⟨1, 0, 0⟩ : Vec3 ℝ) ⟨0, 0, 1⟩) = 1 ∧
      (sampleSpecularTransmissionMaterial Real.sqrt
        ({ glassMaterial with indexOfRefraction := 1 } : Material ℝ) ⟨0, 0, 1⟩
        ⟨1, 0, 0⟩).2 = ⟨1, 0, 0⟩ ∧
      Vec3.dot (sampleSpecularTransmissionMaterial Real.sqrt
        ({ glassMaterial with indexOfRefraction := 1 } : Material ℝ) ⟨0, 0, 1⟩
        ⟨1, 0, 0⟩).2 (Vec3.neg ⟨0, 0, 1⟩) = 0 := by
  have hwi : (sampleSpecularTransmissionMaterial Real.sqrt
      ({ glassMaterial with indexOfRefraction := 1 } : Material ℝ) ⟨0, 0, 1⟩
      ⟨1, 0, 0⟩).2 = ⟨1, 0, 0⟩ := by
    simp only [sampleSpecularTransmissionMaterial, Vec3.dot, glassMaterial, Vec3.refract,
      Vec3.normalize, Vec3.smul, Vec3.sub, Vec3.neg, Vec3.splat]
    norm_num
  refine ⟨by norm_num [Vec3.dot], hwi, ?_⟩
  rw [hwi]
  norm_num [Vec3.dot, Vec3.neg]

/-- C10: in the diffuse branch of `sampleMaterial` (no reflective and no
refractive weight), for every unit normal and every first draw `u1` in
`[0, 1)`, whatever the second draw, the sampled direction `wi` is a unit
vector with `dot(wi, normal) = sqrt(u1) ≥ 0`, and the returned pdf equals
`dot(wi, normal) / PI`.  The library is assumed exact: `sqrt` is a square root
on the non-negatives, `cos² + sin² = 1`, and `0 < SQRT_OF_ONE_THIRD ≤ 1`. -/
theorem sampleMaterial_diffuse_hemisphere (E : MathEnv R) (intersect normal tangent : Vec3 R)
    (m : Material R) (wo : Vec3 R) (rng : Rng R) (hsqrt : IsSqrt E.sqrt)
    (htrig : ∀ x, E.cos x * E.cos x + E.sin x * E.sin x = 1)
    (hc0 : 0 < E.SQRT_OF_ONE_THIRD) (hc1 : E.SQRT_OF_ONE_THIRD ≤ 1)
    (hn : Vec3.dot normal normal = 1)
    (hu : 0 ≤ rng.draws rng.pos ∧ rng.draws rng.pos < 1)
    (hrefl : ¬ m.hasReflective > 0) (hrefr : ¬ m.hasRefractive > 0) :
    Vec3.dot (sampleMaterial E intersect normal tangent m wo rng).wi
        (sampleMaterial E intersect normal tangent m wo rng).wi = 1 ∧
    Vec3.dot (sampleMaterial E intersect normal tangent m wo rng).wi normal =
      E.sqrt (rng.draws rng.pos) ∧
    0 ≤ Vec3.dot (sampleMaterial E intersect normal tangent m wo rng).wi normal ∧
    (sampleMaterial E intersect normal tangent m wo rng).pdf =
      Vec3.dot (sampleMaterial E intersect normal tangent m wo rng).wi normal / E.PI := by
  obtain ⟨h1, h2, h3⟩ := calculateRandomDirectionInHemisphere_spec E normal rng hsqrt htrig
    hc0 hc1 hn hu.1 (le_of_lt hu.2)
  rw [sampleMaterial_diffuse_eq E intersect normal tangent m wo rng hrefl hrefr]
  simp only
  rw [Vec3.normalize_of_unit E.sqrt _ hsqrt.one h1]
  exact ⟨h1, h2, by rw [h2]; exact (hsqrt _ hu.1).1, by rw [h2, h3]⟩

/-- Witness for C10, over `ℝ` with the real `sqrt`, `cos`, `sin` and `π`: the
diffuse material on the normal `(0, 0, 1)` with draws `u1 = 1/4` and
`u2 = 1/3`. -/
theorem sampleMaterial_diffuse_hemisphere_witness :
    Vec3.dot (sampleMaterial
        (⟨Real.sqrt, Real.cos, Real.sin, Real.pi, 2 * Real.pi, Real.sqrt (1 / 3)⟩ : MathEnv ℝ)
        ⟨0, 0, 0⟩ ⟨0, 0, 1⟩ ⟨1, 0, 0⟩ diffuseMaterial ⟨0, 0, -1⟩
        ⟨fun i => if i = 0 then 1 / 4 else 1 / 3, 0⟩).wi ⟨0, 0, 1⟩ = Real.sqrt (1 / 4) :=
  (sampleMaterial_diffuse_hemisphere
    (⟨Real.sqrt, Real.cos, Real.sin, Real.pi, 2 * Real.pi, Real.sqrt (1 / 3)⟩ : MathEnv ℝ)
    ⟨0, 0, 0⟩ ⟨0, 0, 1⟩ ⟨1, 0, 0⟩ diffuseMaterial ⟨0, 0, -1⟩
    ⟨fun i => if i = 0 then 1 / 4 else 1 / 3, 0⟩ isSqrt_real
    (fun x => by have := Real.cos_sq_add_sin_sq x; nlinarith)
    (Real.sqrt_pos.2 (by norm_num))
    (by
      have h : Real.sqrt (1 / 3) ≤ Real.sqrt 1 := Real.sqrt_le_sqrt (by norm_num)
      rwa [Real.sqrt_one] at h)
    (by norm_num [Vec3.dot]) (by norm_num) (by norm_num [diffuseMaterial])
    (by norm_num [diffuseMaterial])).2.1

end BsdfClaims

/-! ## Claims on the integrator update, the power heuristic and light sampling -/

section IntegratorClaims

variable {R : Type} [LinearOrderedField R]

/-- C11: `scatterRay` decrements `remainingBounces` by exactly 1 on every
call, whatever the material: from 5 it becomes 4, and from a positive value
the new value is strictly smaller and not negative. -/
theorem scatterRay_remainingBounces (E : MathEnv R) (pathSegment : PathSegment R)
    (intersect normal tangent : Vec3 R) (m : Material R) (rng : Rng R) :
    (scatterRay E pathSegment intersect normal tangent m rng).1.remainingBounces =
      pathSegment.remainingBounces - 1 ∧
    (pathSegment.remainingBounces = 5 →
      (scatterRay E pathSegment intersect normal tangent m rng).1.remainingBounces = 4) ∧
    (0 < pathSegment.remainingBounces →
      (scatterRay E pathSegment intersect normal tangent m rng).1.remainingBounces <
          pathSegment.remainingBounces ∧
        0 ≤ (scatterRay E pathSegment intersect normal tangent m rng).1.remainingBounces) := by
  have h : (scatterRay E pathSegment intersect normal tangent m rng).1.remainingBounces =
      pathSegment.remainingBounces - 1 := rfl
  refine ⟨h, ?_, ?_⟩
  · intro h5
    rw [h, h5]
    rfl
  · intro hpos
    rw [h]
    constructor <;> omega

/-- Witness for C11, over `ℝ` with the real library functions: a path segment
with 5 remaining bounces hits the mirror material. -/
theorem scatterRay_remainingBounces_witness :
    (scatterRay
        (⟨Real.sqrt, Real.cos, Real.sin, Real.pi, 2 * Real.pi, Real.sqrt (1 / 3)⟩ : MathEnv ℝ)
        ⟨⟨⟨0, 0, 1⟩, ⟨0, 0, -1⟩⟩, ⟨1, 1, 1⟩, 0, 5⟩ ⟨0, 0, 0⟩ ⟨0, 0, 1⟩ ⟨1, 0, 0⟩ mirrorMaterial
        ⟨fun _ => 1 / 4, 0⟩).1.remainingBounces = 4 :=
  (scatterRay_remainingBounces
    (⟨Real.sqrt, Real.cos, Real.sin, Real.pi, 2 * Real.pi, Real.sqrt (1 / 3)⟩ : MathEnv ℝ)
    ⟨⟨⟨0, 0, 1⟩, ⟨0, 0, -1⟩⟩, ⟨1, 1, 1⟩, 0, 5⟩ ⟨0, 0, 0⟩ ⟨0, 0, 1⟩ ⟨1, 0, 0⟩ mirrorMaterial
    ⟨fun _ => 1 / 4, 0⟩).2.1 rfl

/-- C12: on a pure-diffuse material (`hasReflective ≤ 0` and
`hasRefractive ≤ 0`) the new ray direction is the normalised direction of the
diffuse sampler, and in every channel the throughput after `scatterRay` is
`previous * (color / PI) * |cos(theta)| / pdf`, with
`cos(theta) = dot(normalize(new direction), normal)` and `pdf` the value the
diffuse sampler wrote for the same draws. -/
theorem scatterRay_diffuse_throughput (E : MathEnv R) (pathSegment : PathSegment R)
    (intersect normal tangent : Vec3 R) (m : Material R) (rng : Rng R)
    (hrefl : m.hasReflective ≤ 0) (hrefr : m.hasRefractive ≤ 0) :
    (scatterRay E pathSegment intersect normal tangent m rng).1.ray.direction =
      Vec3.normalize E.sqrt (calculateRandomDirectionInHemisphere E normal rng).1 ∧
    (scatterRay E pathSegment intersect normal tangent m rng).1.color.x =
      pathSegment.color.x * (m.color.x / E.PI) *
          |Vec3.dot (Vec3.normalize E.sqrt
            (scatterRay E pathSegment intersect normal tangent m rng).1.ray.direction) normal| /
        (calculateRandomDirectionInHemisphere E normal rng).2.1 ∧
    (scatterRay E pathSegment intersect normal tangent m rng).1.color.y =
      pathSegment.color.y * (m.color.y / E.PI) *
          |Vec3.dot (Vec3.normalize E.sqrt
            (scatterRay E pathSegment intersect normal tangent m rng).1.ray.direction) normal| /
        (calculateRandomDirectionInHemisphere E normal rng).2.1 ∧
    (scatterRay E pathSegment intersect normal tangent m rng).1.color.z =
      pathSegment.color.z * (m.color.z / E.PI) *
          |Vec3.dot (Vec3.normalize E.sqrt
            (scatterRay E pathSegment intersect normal tangent m rng).1.ray.direction) normal| /
        (calculateRandomDirectionInHemisphere E normal rng).2.1 := by
  have hs := sampleMaterial_diffuse_eq E intersect normal tangent m pathSegment.ray.direction
    rng (not_lt.2 hrefl) (not_lt.2 hrefr)
  simp only [scatterRay, hs, Vec3.smul, Vec3.mul, Vec3.divs]
  refine ⟨trivial, ?_, ?_, ?_⟩ <;> ring

/-- Witness for C12, over `ℝ` with the real library functions: the diffuse
material, normal `(0, 0, 1)`, draws `1/4` and `1/3`. -/
theorem scatterRay_diffuse_throughput_witness :
    (scatterRay
        (⟨Real.sqrt, Real.cos, Real.sin, Real.pi, 2 * Real.pi, Real.sqrt (1 / 3)⟩ : MathEnv ℝ)
        ⟨⟨⟨0, 0, 1⟩, ⟨0, 0, -1⟩⟩, ⟨1, 1, 1⟩, 0, 5⟩ ⟨0, 0, 0⟩ ⟨0, 0, 1⟩ ⟨1, 0, 0⟩ diffuseMaterial
        ⟨fun i => if i = 0 then 1 / 4 else 1 / 3, 0⟩).1.ray.direction =
      Vec3.normalize Real.sqrt
        (calculateRandomDirectionInHemisphere
          (⟨Real.sqrt, Real.cos, Real.sin, Real.pi, 2 * Real.pi, Real.sqrt (1 / 3)⟩ : MathEnv ℝ)
          ⟨0, 0, 1⟩ ⟨fun i => if i = 0 then 1 / 4 else 1 / 3, 0⟩).1 :=
  (scatterRay_diffuse_throughput
    (⟨Real.sqrt, Real.cos, Real.sin, Real.pi, 2 * Real.pi, Real.sqrt (1 / 3)⟩ : MathEnv ℝ)
    ⟨⟨⟨0, 0, 1⟩, ⟨0, 0, -1⟩⟩, ⟨1, 1, 1⟩, 0, 5⟩ ⟨0, 0, 0⟩ ⟨0, 0, 1⟩ ⟨1, 0, 0⟩ diffuseMaterial
    ⟨fun i => if i = 0 then 1 / 4 else 1 / 3, 0⟩ (by norm_num [diffuseMaterial])
    (by norm_num [diffuseMaterial])).1

/-- C15 (as amended): `powerHeuristic(n, p, n, p)` returns exactly `1/2` for
every sample count `n` and every pdf value `p` whose product `n * p` is not
zero. -/
theorem powerHeuristic_equal (n : Int) (p : R) (h : (n : R) * p ≠ 0) :
    powerHeuristic n p n p = 1 / 2 := by
  simp only [powerHeuristic]
  have h2 : (n : R) * p * ((n : R) * p) ≠ 0 := mul_ne_zero h h
  field_simp
  ring

/-- Witness for C15: two samples with pdf `1/4` on both strategies. -/
theorem powerHeuristic_equal_witness : powerHeuristic (2 : Int) (1 / 4 : ℚ) 2 (1 / 4) = 1 / 2 :=
  powerHeuristic_equal 2 (1 / 4) (by norm_num)

/-- Counterexample to C15 as stated: with the pdf value `0` on both
strategies the quotient is `0 / 0` and the result is not `1/2`. -/
theorem powerHeuristic_zero_pdf : powerHeuristic (1 : Int) (0 : ℚ) 1 0 ≠ 1 / 2 := by
  norm_num [powerHeuristic]

/-- C13 (as amended): for every path segment, normal and material taking a
specular branch (reflection, transmission, or either outcome of the Fresnel
blend), whenever the new ray direction is not perpendicular to the normal, the
cosine pre-division inside the BSDF value and the `|cos| / pdf` multiply
cancel: the throughput after `scatterRay` is the previous throughput times the
specular color, channel by channel (the square root being exact). -/
theorem scatterRay_specular_throughput (E : MathEnv R) (pathSegment : PathSegment R)
    (intersect normal tangent : Vec3 R) (m : Material R) (rng : Rng R) (hsqrt : IsSqrt E.sqrt)
    (hspec : m.hasReflective > 0 ∨ m.hasRefractive > 0)
    (hne : Vec3.dot (scatterRay E pathSegment intersect normal tangent m rng).1.ray.direction
      normal ≠ 0) :
    (scatterRay E pathSegment intersect normal tangent m rng).1.color =
      Vec3.mul pathSegment.color m.specular.color := by
  have hdir : (scatterRay E pathSegment intersect normal tangent m rng).1.ray.direction =
      (sampleMaterial E intersect normal tangent m pathSegment.ray.direction rng).wi := rfl
  rw [hdir] at hne
  obtain ⟨hpdf, ⟨v, hv⟩, hf⟩ := sampleMaterial_specular_form E intersect normal tangent m
    pathSegment.ray.direction rng hspec
  have hidem : Vec3.normalize E.sqrt
      (sampleMaterial E intersect normal tangent m pathSegment.ray.direction rng).wi =
      (sampleMaterial E intersect normal tangent m pathSegment.ray.direction rng).wi := by
    rw [hv] at hne ⊢
    exact Vec3.normalize_normalize E.sqrt v normal hsqrt hne
  have hf2 : (sampleMaterial E intersect normal tangent m pathSegment.ray.direction rng).f =
      Vec3.divs m.specular.color
        |Vec3.dot (sampleMaterial E intersect normal tangent m pathSegment.ray.direction rng).wi
          normal| := by
    rcases hf with h | h
    · rw [h, hidem]
    · exact h
  have hD : |Vec3.dot
      (sampleMaterial E intersect normal tangent m pathSegment.ray.direction rng).wi normal| ≠
      0 := abs_ne_zero.2 hne
  simp only [scatterRay, hidem, hf2, hpdf, Vec3.smul, Vec3.mul, Vec3.divs, Vec3.mk.injEq]
  refine ⟨?_, ?_, ?_⟩ <;> field_simp

/-- Witness for C13, over `ℝ` with the real library functions: the direction
`(3/5, 0, -4/5)` hits the mirror material on the normal `(0, 0, 1)`. -/
theorem scatterRay_specular_throughput_witness :
    (scatterRay
        (⟨Real.sqrt, Real.cos, Real.sin, Real.pi, 2 * Real.pi, Real.sqrt (1 / 3)⟩ : MathEnv ℝ)
        ⟨⟨⟨0, 0, 1⟩, ⟨3 / 5, 0, -4 / 5⟩⟩, ⟨1, 1, 1⟩, 0, 5⟩ ⟨0, 0, 0⟩ ⟨0, 0, 1⟩ ⟨1, 0, 0⟩
        mirrorMaterial ⟨fun _ => 1 / 4, 0⟩).1.color =
      Vec3.mul ⟨1, 1, 1⟩ (mirrorMaterial : Material ℝ).specular.color :=
  scatterRay_specular_throughput
    (⟨Real.sqrt, Real.cos, Real.sin, Real.pi, 2 * Real.pi, Real.sqrt (1 / 3)⟩ : MathEnv ℝ)
    ⟨⟨⟨0, 0, 1⟩, ⟨3 / 5, 0, -4 / 5⟩⟩, ⟨1, 1, 1⟩, 0, 5⟩ ⟨0, 0, 0⟩ ⟨0, 0, 1⟩ ⟨1, 0, 0⟩
    mirrorMaterial ⟨fun _ => 1 / 4, 0⟩ isSqrt_real (Or.inl (by norm_num [mirrorMaterial]))
    (by
      simp only [scatterRay, sampleMaterial, mirrorMaterial, sampleSpecularReflectMaterial,
        Vec3.normalize, Vec3.reflect, Vec3.dot, Vec3.sub, Vec3.smul]
      norm_num)

/-- Counterexample to C13 as stated, over `ℝ` with the real library
functions: the unit direction `(1, 0, 0)` runs along the surface with normal
`(0, 0, 1)` and hits the mirror material with throughput `(1, 1, 1)`.  The new
direction is perpendicular to the normal, the BSDF value is the specular color
divided by zero, and the throughput after `scatterRay` is not
`(1, 1, 1) * (1, 1/2, 1/4)`. -/
theorem scatterRay_specular_grazing :
    Vec3.dot (scatterRay
        (⟨Real.sqrt, Real.cos, Real.sin, Real.pi, 2 * Real.pi, Real.sqrt (1 / 3)⟩ : MathEnv ℝ)
        ⟨⟨⟨0, 0, 0⟩, ⟨1, 0, 0⟩⟩, ⟨1, 1, 1⟩, 0, 5⟩ ⟨0, 0, 0⟩ ⟨0, 0, 1⟩ ⟨1, 0, 0⟩
        mirrorMaterial ⟨fun _ => 1 / 4, 0⟩).1.ray.direction ⟨0, 0, 1⟩ = 0 ∧
      (scatterRay
        (⟨Real.sqrt, Real.cos, Real.sin, Real.pi, 2 * Real.pi, Real.sqrt (1 / 3)⟩ : MathEnv ℝ)
        ⟨⟨⟨0, 0, 0⟩, ⟨1, 0, 0⟩⟩, ⟨1, 1, 1⟩, 0, 5⟩ ⟨0, 0, 0⟩ ⟨0, 0, 1⟩ ⟨1, 0, 0⟩
        mirrorMaterial ⟨fun _ => 1 / 4, 0⟩).1.color ≠
        Vec3.mul ⟨1, 1, 1⟩ (mirrorMaterial : Material ℝ).specular.color := by
  constructor
  · simp only [scatterRay, sampleMaterial, mirrorMaterial, sampleSpecularReflectMaterial,
      Vec3.normalize, Vec3.reflect, Vec3.dot, Vec3.sub, Vec3.smul]
    norm_num
  · simp only [scatterRay, sampleMaterial, mirrorMaterial, sampleSpecularReflectMaterial,
      Vec3.normalize, Vec3.reflect, Vec3.dot, Vec3.sub, Vec3.smul, Vec3.mul, Vec3.divs]
    norm_num

/-- C14 (as amended): `scatterRay` preserves the non-negativity of the
throughput wherever its update divides by no zero.  For every path segment
whose color is non-negative in every channel, every unit normal and every
material whose base color and specular color are non-negative in every
channel, the path color after `scatterRay` is non-negative in every channel:
in the specular branches whenever the new ray direction is not perpendicular
to the normal (`dot(wi, normal) ≠ 0`), and in the diffuse branch whenever the
first draw `u1` lies in `(0, 1)`, so that `pdf = sqrt(u1) / PI` is positive.
The library is assumed exact: `sqrt` is a square root on the non-negatives,
`cos² + sin² = 1`, `0 < SQRT_OF_ONE_THIRD ≤ 1` and `0 < PI`. -/
theorem scatterRay_color_nonneg (E : MathEnv R) (pathSegment : PathSegment R)
    (intersect normal tangent : Vec3 R) (m : Material R) (rng : Rng R)
    (hsqrt : IsSqrt E.sqrt)
    (htrig : ∀ x, E.cos x * E.cos x + E.sin x * E.sin x = 1)
    (hc0 : 0 < E.SQRT_OF_ONE_THIRD) (hc1 : E.SQRT_OF_ONE_THIRD ≤ 1) (hPI : 0 < E.PI)
    (hn : Vec3.dot normal normal = 1)
    (hspec : m.hasReflective > 0 ∨ m.hasRefractive > 0 →
      Vec3.dot (scatterRay E pathSegment intersect normal tangent m rng).1.ray.direction
        normal ≠ 0)
    (hdiff : ¬ m.hasReflective > 0 → ¬ m.hasRefractive > 0 →
      0 < rng.draws rng.pos ∧ rng.draws rng.pos < 1)
    (hc : 0 ≤ pathSegment.color.x ∧ 0 ≤ pathSegment.color.y ∧ 0 ≤ pathSegment.color.z)
    (hm : 0 ≤ m.color.x ∧ 0 ≤ m.color.y ∧ 0 ≤ m.color.z)
    (hs : 0 ≤ m.specular.color.x ∧ 0 ≤ m.specular.color.y ∧ 0 ≤ m.specular.color.z) :
    0 ≤ (scatterRay E pathSegment intersect normal tangent m rng).1.color.x ∧
    0 ≤ (scatterRay E pathSegment intersect normal tangent m rng).1.color.y ∧
    0 ≤ (scatterRay E pathSegment intersect normal tangent m rng).1.color.z := by
  by_cases hsp : m.hasReflective > 0 ∨ m.hasRefractive > 0
  · have hne := hspec hsp
    have hdir : (scatterRay E pathSegment intersect normal tangent m rng).1.ray.direction =
        (sampleMaterial E intersect normal tangent m pathSegment.ray.direction rng).wi := rfl
    rw [hdir] at hne
    obtain ⟨hpdf, ⟨v, hv⟩, hf⟩ := sampleMaterial_specular_form E intersect normal tangent m
      pathSegment.ray.direction rng hsp
    have hidem : Vec3.normalize E.sqrt
        (sampleMaterial E intersect normal tangent m pathSegment.ray.direction rng).wi =
        (sampleMaterial E intersect normal tangent m pathSegment.ray.direction rng).wi := by
      rw [hv] at hne ⊢
      exact Vec3.normalize_normalize E.sqrt v normal hsqrt hne
    have hf2 : (sampleMaterial E intersect normal tangent m pathSegment.ray.direction rng).f =
        Vec3.divs m.specular.color
          |Vec3.dot (sampleMaterial E intersect normal tangent m pathSegment.ray.direction rng).wi
            normal| := by
      rcases hf with h | h
      · rw [h, hidem]
      · exact h
    have hD : 0 < |Vec3.dot
        (sampleMaterial E intersect normal tangent m pathSegment.ray.direction rng).wi
        normal| := abs_pos.2 hne
    simp only [scatterRay, hidem, hf2, hpdf, Vec3.smul, Vec3.mul, Vec3.divs]
    exact ⟨mul_nonneg (div_nonneg (le_of_lt hD) zero_le_one)
        (mul_nonneg hc.1 (div_nonneg hs.1 (le_of_lt hD))),
      mul_nonneg (div_nonneg (le_of_lt hD) zero_le_one)
        (mul_nonneg hc.2.1 (div_nonneg hs.2.1 (le_of_lt hD))),
      mul_nonneg (div_nonneg (le_of_lt hD) zero_le_one)
        (mul_nonneg hc.2.2 (div_nonneg hs.2.2 (le_of_lt hD)))⟩
  · have h1 : ¬ m.hasReflective > 0 := fun h => hsp (Or.inl h)
    have h2 : ¬ m.hasRefractive > 0 := fun h => hsp (Or.inr h)
    obtain ⟨hu0, hu1⟩ := hdiff h1 h2
    obtain ⟨d1, d2, d3⟩ := calculateRandomDirectionInHemisphere_spec E normal rng hsqrt htrig
      hc0 hc1 hn (le_of_lt hu0) (le_of_lt hu1)
    obtain ⟨q0, q1⟩ := hsqrt _ (le_of_lt hu0)
    have hup : 0 < E.sqrt (rng.draws rng.pos) := by
      rcases lt_or_eq_of_le q0 with h | h
      · exact h
      · rw [← h] at q1
        linarith
    have hpdf : 0 < E.sqrt (rng.draws rng.pos) / E.PI := div_pos hup hPI
    have hd := sampleMaterial_diffuse_eq E intersect normal tangent m pathSegment.ray.direction
      rng h1 h2
    have hunit := Vec3.normalize_of_unit E.sqrt _ hsqrt.one d1
    simp only [scatterRay, hd, hunit, d2, d3, Vec3.smul, Vec3.mul, Vec3.divs]
    exact ⟨mul_nonneg (div_nonneg (abs_nonneg _) (le_of_lt hpdf))
        (mul_nonneg hc.1 (div_nonneg hm.1 (le_of_lt hPI))),
      mul_nonneg (div_nonneg (abs_nonneg _) (le_of_lt hpdf))
        (mul_nonneg hc.2.1 (div_nonneg hm.2.1 (le_of_lt hPI))),
      mul_nonneg (div_nonneg (abs_nonneg _) (le_of_lt hpdf))
        (mul_nonneg hc.2.2 (div_nonneg hm.2.2 (le_of_lt hPI)))⟩

/-- Witness for C14, over `ℝ` with the real library functions: the diffuse
material with first draw `1/4`, and the mirror material hit by the direction
`(3/5, 0, -4/5)`, both on the normal `(0, 0, 1)` with throughput
`(1, 1, 1)`. -/
theorem scatterRay_color_nonneg_witness :
    0 ≤ (scatterRay
        (⟨Real.sqrt, Real.cos, Real.sin, Real.pi, 2 * Real.pi, Real.sqrt (1 / 3)⟩ : MathEnv ℝ)
        ⟨⟨⟨0, 0, 1⟩, ⟨0, 0, -1⟩⟩, ⟨1, 1, 1⟩, 0, 5⟩ ⟨0, 0, 0⟩ ⟨0, 0, 1⟩ ⟨1, 0, 0⟩ diffuseMaterial
        ⟨fun _ => 1 / 4, 0⟩).1.color.x ∧
      0 ≤ (scatterRay
        (⟨Real.sqrt, Real.cos, Real.sin, Real.pi, 2 * Real.pi, Real.sqrt (1 / 3)⟩ : MathEnv ℝ)
        ⟨⟨⟨0, 0, 1⟩, ⟨3 / 5, 0, -4 / 5⟩⟩, ⟨1, 1, 1⟩, 0, 5⟩ ⟨0, 0, 0⟩ ⟨0, 0, 1⟩ ⟨1, 0, 0⟩
        mirrorMaterial ⟨fun _ => 1 / 4, 0⟩).1.color.x :=
  ⟨(scatterRay_color_nonneg
      (⟨Real.sqrt, Real.cos, Real.sin, Real.pi, 2 * Real.pi, Real.sqrt (1 / 3)⟩ : MathEnv ℝ)
      ⟨⟨⟨0, 0, 1⟩, ⟨0, 0, -1⟩⟩, ⟨1, 1, 1⟩, 0, 5⟩ ⟨0, 0, 0⟩ ⟨0, 0, 1⟩ ⟨1, 0, 0⟩ diffuseMaterial
      ⟨fun _ => 1 / 4, 0⟩ isSqrt_real
      (fun x => by have := Real.cos_sq_add_sin_sq x; nlinarith)
      (Real.sqrt_pos.2 (by norm_num))
      (by
        have h : Real.sqrt (1 / 3) ≤ Real.sqrt 1 := Real.sqrt_le_sqrt (by norm_num)
        rwa [Real.sqrt_one] at h)
      Real.pi_pos (by norm_num [Vec3.dot])
      (fun h => absurd h (by norm_num [diffuseMaterial]))
      (fun _ _ => ⟨by norm_num, by norm_num⟩)
      (by norm_num) (by norm_num [diffuseMaterial]) (by norm_num [diffuseMaterial])).1,
    (scatterRay_color_nonneg
      (⟨Real.sqrt, Real.cos, Real.sin, Real.pi, 2 * Real.pi, Real.sqrt (1 / 3)⟩ : MathEnv ℝ)
      ⟨⟨⟨0, 0, 1⟩, ⟨3 / 5, 0, -4 / 5⟩⟩, ⟨1, 1, 1⟩, 0, 5⟩ ⟨0, 0, 0⟩ ⟨0, 0, 1⟩ ⟨1, 0, 0⟩
      mirrorMaterial ⟨fun _ => 1 / 4, 0⟩ isSqrt_real
      (fun x => by have := Real.cos_sq_add_sin_sq x; nlinarith)
      (Real.sqrt_pos.2 (by norm_num))
      (by
        have h : Real.sqrt (1 / 3) ≤ Real.sqrt 1 := Real.sqrt_le_sqrt (by norm_num)
        rwa [Real.sqrt_one] at h)
      Real.pi_pos (by norm_num [Vec3.dot])
      (fun _ => by
        simp only [scatterRay, sampleMaterial, mirrorMaterial, sampleSpecularReflectMaterial,
          Vec3.normalize, Vec3.reflect, Vec3.dot, Vec3.sub, Vec3.smul]
        norm_num)
      (fun h => absurd (by norm_num [mirrorMaterial]) h)
      (by norm_num) (by norm_num [mirrorMaterial]) (by norm_num [mirrorMaterial])).1⟩

/-- Counterexample to C14 as stated, over `ℝ` with the real library
functions: the diffuse material on the unit normal `(0, 0, 1)`, throughput
`(1, 1, 1)`, first draw `u1 = 0`.  The diffuse sampler writes
`pdf = sqrt(0) / PI = 0` and the new ray direction is perpendicular to the
normal, so the factor `|cos| / pdf` by which `scatterRay` multiplies the
non-negative color is the quotient `0 / 0`: it has no non-negative value (in
float arithmetic it is NaN, and so is every channel of the color). -/
theorem scatterRay_diffuse_zero_draw :
    (sampleMaterial
        (⟨Real.sqrt, Real.cos, Real.sin, Real.pi, 2 * Real.pi, Real.sqrt (1 / 3)⟩ : MathEnv ℝ)
        ⟨0, 0, 0⟩ ⟨0, 0, 1⟩ ⟨1, 0, 0⟩ diffuseMaterial ⟨0, 0, -1⟩ ⟨fun _ => 0, 0⟩).pdf = 0 ∧
      |Vec3.dot (Vec3.normalize Real.sqrt (scatterRay
        (⟨Real.sqrt, Real.cos, Real.sin, Real.pi, 2 * Real.pi, Real.sqrt (1 / 3)⟩ : MathEnv ℝ)
        ⟨⟨⟨0, 0, 1⟩, ⟨0, 0, -1⟩⟩, ⟨1, 1, 1⟩, 0, 5⟩ ⟨0, 0, 0⟩ ⟨0, 0, 1⟩ ⟨1, 0, 0⟩ diffuseMaterial
        ⟨fun _ => 0, 0⟩).1.ray.direction) ⟨0, 0, 1⟩| = 0 := by
  have hd := sampleMaterial_diffuse_eq
    (⟨Real.sqrt, Real.cos, Real.sin, Real.pi, 2 * Real.pi, Real.sqrt (1 / 3)⟩ : MathEnv ℝ)
    ⟨0, 0, 0⟩ ⟨0, 0, 1⟩ ⟨1, 0, 0⟩ diffuseMaterial ⟨0, 0, -1⟩ ⟨fun _ => 0, 0⟩
    (by norm_num [diffuseMaterial]) (by norm_num [diffuseMaterial])
  obtain ⟨d1, d2, d3⟩ := calculateRandomDirectionInHemisphere_spec
    (⟨Real.sqrt, Real.cos, Real.sin, Real.pi, 2 * Real.pi, Real.sqrt (1 / 3)⟩ : MathEnv ℝ)
    ⟨0, 0, 1⟩ ⟨fun _ => 0, 0⟩ isSqrt_real
    (fun x => by have := Real.cos_sq_add_sin_sq x; nlinarith)
    (Real.sqrt_pos.2 (by norm_num))
    (by
      have h : Real.sqrt (1 / 3) ≤ Real.sqrt 1 := Real.sqrt_le_sqrt (by norm_num)
      rwa [Real.sqrt_one] at h)
    (by norm_num [Vec3.dot]) (le_refl _) (by norm_num)
  have hunit := Vec3.normalize_of_unit Real.sqrt _ Real.sqrt_one d1
  constructor
  · rw [hd]
    simp only [d3]
    simp
  · simp only [scatterRay, hd, hunit, d2]
    simp

/-- C19: for every cosine (in particular every `cosi` in `[-1, 1]`) and every
pair of positive indices, `fresnelDielectricEval` returns a reflectance in the
closed interval `[0, 1]` (the square root being exact). -/
theorem fresnelDielectricEval_unit_interval (sqrt : R → R) (cosi etai etat : R)
    (hsqrt : IsSqrt sqrt) (hi : 0 < etai) (ht : 0 < etat) :
    0 ≤ fresnelDielectricEval sqrt cosi etai etat ∧
      fresnelDielectricEval sqrt cosi etai etat ≤ 1 := by
  by_cases hc : cosi > 0
  · rw [fresnelDielectricEval_swap sqrt cosi etai etat hc]
    exact fresnelDielectricEval_bounds_nonpos sqrt (-cosi) etat etai hsqrt
      (by intro h; linarith) ht hi
  · exact fresnelDielectricEval_bounds_nonpos sqrt cosi etai etat hsqrt hc hi ht

/-- Witness for C19, over `ℝ` with the real square root: cosine `-4/5`, air
against glass of index `39/25`. -/
theorem fresnelDielectricEval_unit_interval_witness :
    0 ≤ fresnelDielectricEval Real.sqrt (-(4 / 5)) 1 (39 / 25) ∧
      fresnelDielectricEval Real.sqrt (-(4 / 5)) 1 (39 / 25) ≤ 1 :=
  fresnelDielectricEval_unit_interval Real.sqrt (-(4 / 5)) 1 (39 / 25) isSqrt_real
    (by norm_num) (by norm_num)

/-- C17: for every box light, shading point, light count and pair of draws
(in either evaluation order of the two draws), `sampleAreaLight` sets
`pdf = distance² / (|cos(theta)| * area * num_lights)`: `distance` is the
length of `dis`, the vector from the shading point to the sampled world-space
light point, `cos(theta)` is the inner product of the normalised light normal
with the normalised direction from the light point back to the shading point,
and `area = scale.x * scale.z` (4 for a 2 by 2 face).  With an exact square
root, `distance` is not negative and `distance²` is `dot(dis, dis)`. -/
theorem sampleAreaLight_pdf (E : MathEnv R) (box sphere : ShapeTest R) (u : Uninit R)
    (intersection0 : ShadeableIntersection R) (leftToRight : Bool) (light : Light R)
    (view_point view_nor : Vec3 R) (num_lights : Int) (wiW0 : Vec3 R) (pdf0 : R)
    (geoms : List (Geom R)) (materials : List (Material R)) (rng : Rng R)
    (hty : light.geom.type = GeomType.CUBE) :
    (sampleAreaLight E box sphere u intersection0 leftToRight light view_point view_nor
        num_lights wiW0 pdf0 geoms materials rng).pdf =
      Vec3.length E.sqrt (areaLightDis light view_point (areaLightSample leftToRight rng)) *
          Vec3.length E.sqrt (areaLightDis light view_point (areaLightSample leftToRight rng)) /
        (|Vec3.dot
              (Vec3.neg (Vec3.normalize E.sqrt
                (areaLightDis light view_point (areaLightSample leftToRight rng))))
              (Vec3.normalize E.sqrt (multiplyMV light.geom.invTranspose ⟨0, 1, 0, 0⟩))| *
          (light.geom.scale.x * light.geom.scale.z) * (num_lights : R)) ∧
    (light.geom.scale.x = 2 → light.geom.scale.z = 2 →
      (sampleAreaLight E box sphere u intersection0 leftToRight light view_point view_nor
          num_lights wiW0 pdf0 geoms materials rng).pdf =
        Vec3.length E.sqrt (areaLightDis light view_point (areaLightSample leftToRight rng)) *
            Vec3.length E.sqrt
              (areaLightDis light view_point (areaLightSample leftToRight rng)) /
          (|Vec3.dot
                (Vec3.neg (Vec3.normalize E.sqrt
                  (areaLightDis light view_point (areaLightSample leftToRight rng))))
                (Vec3.normalize E.sqrt (multiplyMV light.geom.invTranspose ⟨0, 1, 0, 0⟩))| *
            4 * (num_lights : R))) ∧
    (IsSqrt E.sqrt →
      0 ≤ Vec3.length E.sqrt
          (areaLightDis light view_point (areaLightSample leftToRight rng)) ∧
        Vec3.length E.sqrt (areaLightDis light view_point (areaLightSample leftToRight rng)) *
            Vec3.length E.sqrt
              (areaLightDis light view_point (areaLightSample leftToRight rng)) =
          Vec3.dot (areaLightDis light view_point (areaLightSample leftToRight rng))
            (areaLightDis light view_point (areaLightSample leftToRight rng))) := by
  have hpdf := congrArg LightSample.pdf
    (sampleAreaLight_cube E box sphere u intersection0 leftToRight light view_point view_nor
      num_lights wiW0 pdf0 geoms materials rng hty)
  refine ⟨?_, ?_, ?_⟩
  · rw [hpdf]
    ring
  · intro hx hz
    rw [hpdf, hx, hz]
    ring
  · intro hsqrt
    have hnn : 0 ≤ Vec3.dot (areaLightDis light view_point (areaLightSample leftToRight rng))
        (areaLightDis light view_point (areaLightSample leftToRight rng)) := by
      simp only [Vec3.dot]
      exact add_nonneg (add_nonneg (mul_self_nonneg _) (mul_self_nonneg _)) (mul_self_nonneg _)
    exact hsqrt _ hnn

/-- Witness for C17, over `ℝ` with the real library functions: the 2 by 2 box
light seen from `(0, -3, 0)`, one light in the scene; the pdf has the area 4
in its denominator. -/
theorem sampleAreaLight_pdf_witness :
    (sampleAreaLight
        (⟨Real.sqrt, Real.cos, Real.sin, Real.pi, 2 * Real.pi, Real.sqrt (1 / 3)⟩ : MathEnv ℝ)
        (constTest 1) (constTest 1) zeroUninit zeroRecord true boxLight ⟨0, -3, 0⟩ ⟨0, 1, 0⟩ 1
        ⟨0, 0, 0⟩ 0 [boxLight.geom] [emissiveMaterial] ⟨fun _ => 1 / 2, 0⟩).pdf =
      Vec3.length Real.sqrt
          (areaLightDis boxLight ⟨0, -3, 0⟩ (areaLightSample true ⟨fun _ => 1 / 2, 0⟩)) *
          Vec3.length Real.sqrt
            (areaLightDis boxLight ⟨0, -3, 0⟩ (areaLightSample true ⟨fun _ => 1 / 2, 0⟩)) /
        (|Vec3.dot
              (Vec3.neg (Vec3.normalize Real.sqrt
                (areaLightDis boxLight ⟨0, -3, 0⟩ (areaLightSample true ⟨fun _ => 1 / 2, 0⟩))))
              (Vec3.normalize Real.sqrt
                (multiplyMV (boxLight : Light ℝ).geom.invTranspose ⟨0, 1, 0, 0⟩))| *
          4 * ((1 : Int) : ℝ)) :=
  (sampleAreaLight_pdf
    (⟨Real.sqrt, Real.cos, Real.sin, Real.pi, 2 * Real.pi, Real.sqrt (1 / 3)⟩ : MathEnv ℝ)
    (constTest 1) (constTest 1) zeroUninit zeroRecord true boxLight ⟨0, -3, 0⟩ ⟨0, 1, 0⟩ 1
    ⟨0, 0, 0⟩ 0 [boxLight.geom] [emissiveMaterial] ⟨fun _ => 1 / 2, 0⟩ rfl).2.1 rfl rfl

end IntegratorClaims

section LightClaims

variable {R : Type} [LinearOrderedField R] [FloorRing R]

/-- C20: for every `num_lights ≥ 1` and every draw `u` in `[0, 1)` the index
`chosenLightIndex = (int)(u * num_lights)` satisfies
`0 ≤ chosenLightIndex < num_lights`, so the read `lights[chosenLightIndex]` of
an array of `num_lights` lights stays inside the array and `sampleLight`
returns; and every index in that range is chosen for some `u` in `[0, 1)`. -/
theorem chosenLightIndex_in_bounds (num_lights : Int) (hn : 1 ≤ num_lights) :
    (∀ u : R, 0 ≤ u → u < 1 →
      0 ≤ chosenLightIndex u num_lights ∧ chosenLightIndex u num_lights < num_lights) ∧
    (∀ (lights : List (Light R)) (u : R), (lights.length : Int) = num_lights → 0 ≤ u → u < 1 →
      ∃ chosen, readAt lights (chosenLightIndex u num_lights) = some chosen) ∧
    (∀ (E : MathEnv R) (box sphere : ShapeTest R) (un : Uninit R)
      (intersection0 : ShadeableIntersection R) (leftToRight : Bool)
      (intersect normal wi0 : Vec3 R) (rng : Rng R) (lightPDF0 : R) (geoms : List (Geom R))
      (materials : List (Material R)) (lights : List (Light R)),
      (lights.length : Int) = num_lights → 0 ≤ rng.draws rng.pos → rng.draws rng.pos < 1 →
      ∃ P, sampleLight E box sphere un intersection0 leftToRight intersect normal wi0 rng
        lightPDF0 geoms materials lights num_lights = some P) ∧
    (∀ i : Int, 0 ≤ i → i < num_lights →
      ∃ u : R, 0 ≤ u ∧ u < 1 ∧ chosenLightIndex u num_lights = i) := by
  have hnR : (0 : R) < (num_lights : R) := by
    have : (0 : Int) < num_lights := by omega
    exact_mod_cast this
  refine ⟨fun u h0 h1 => chosenLightIndex_range u num_lights hn h0 h1, ?_, ?_, ?_⟩
  · intro lights u hlen h0 h1
    obtain ⟨a, b⟩ := chosenLightIndex_range u num_lights hn h0 h1
    exact readAt_of_range lights _ a (by rw [hlen]; exact b)
  · intro E box sphere un intersection0 leftToRight intersect normal wi0 rng lightPDF0 geoms
      materials lights hlen h0 h1
    obtain ⟨a, b⟩ := chosenLightIndex_range (rng.draws rng.pos) num_lights hn h0 h1
    obtain ⟨chosen, hread⟩ := readAt_of_range lights _ a (by rw [hlen]; exact b)
    exact ⟨_, sampleLight_of_read E box sphere un intersection0 leftToRight intersect normal
      wi0 rng lightPDF0 geoms materials lights num_lights chosen hread⟩
  · intro i hi0 hi1
    have hiR : (0 : R) ≤ (i : R) := by exact_mod_cast hi0
    have hiN : (i : R) < (num_lights : R) := by exact_mod_cast hi1
    refine ⟨(i : R) / (num_lights : R), div_nonneg hiR (le_of_lt hnR),
      (div_lt_one hnR).2 hiN, ?_⟩
    have hx : (i : R) / (num_lights : R) * (num_lights : R) = (i : R) :=
      div_mul_cancel₀ _ (ne_of_gt hnR)
    simp only [chosenLightIndex, truncToInt, hx, if_pos hiR, Int.floor_intCast]

/-- Witness for C20: three lights and the draw `1/2` over `ℚ`. -/
theorem chosenLightIndex_in_bounds_witness :
    0 ≤ chosenLightIndex (1 / 2 : ℚ) 3 ∧ chosenLightIndex (1 / 2 : ℚ) 3 < 3 :=
  (chosenLightIndex_in_bounds 3 (by norm_num)).1 (1 / 2) (by norm_num) (by norm_num)

/-- C16: when the read of the chosen light succeeds, `sampleLight` returns.
If the chosen light is an `AREA` light with box geometry and the shadow ray
(origin `intersect + 0.01 * wi`, direction `wi`, scanned by
`computeRayIntersection` over the whole primitive list) reports a hit whose
`geomId` is the geometry id of the chosen light, the returned radiance is the
color of that primitive's material times its emittance.  In every other case
(a hit with another `geomId`, a miss, a light type other than `AREA`, a light
geometry other than a box) the returned radiance is the zero vector. -/
theorem sampleLight_visibility (E : MathEnv R) (box sphere : ShapeTest R) (u : Uninit R)
    (intersection0 : ShadeableIntersection R) (leftToRight : Bool)
    (intersect normal wi0 : Vec3 R) (rng : Rng R) (lightPDF0 : R)
    (geoms : List (Geom R)) (materials : List (Material R)) (lights : List (Light R))
    (num_lights : Int) (chosen : Light R)
    (hread : readAt lights (chosenLightIndex (rng.draws rng.pos) num_lights) = some chosen) :
    ∃ P, sampleLight E box sphere u intersection0 leftToRight intersect normal wi0 rng
        lightPDF0 geoms materials lights num_lights = some P ∧
      P.chosenLight = chosen ∧
      (chosen.lightType = LightType.AREA → chosen.geom.type = GeomType.CUBE →
        (computeRayIntersection box sphere u geoms (shadowRayOf intersect P.wi)
          intersection0).t ≥ 0 →
        (computeRayIntersection box sphere u geoms (shadowRayOf intersect P.wi)
          intersection0).geomId = chosen.geom.geomId →
        ∃ g, readAt geoms chosen.geom.geomId = some g ∧
          P.radiance =
            (readAt materials g.materialid).map
              (fun mat => Vec3.smul mat.emittance mat.color)) ∧
      (chosen.lightType = LightType.AREA → chosen.geom.type = GeomType.CUBE →
        ¬ ((computeRayIntersection box sphere u geoms (shadowRayOf intersect P.wi)
              intersection0).t ≥ 0 ∧
            (computeRayIntersection box sphere u geoms (shadowRayOf intersect P.wi)
              intersection0).geomId = chosen.geom.geomId) →
        P.radiance = some (Vec3.splat 0)) ∧
      (chosen.lightType ≠ LightType.AREA ∨ chosen.geom.type ≠ GeomType.CUBE →
        P.radiance = some (Vec3.splat 0)) := by
  by_cases hac : chosen.lightType = LightType.AREA ∧ chosen.geom.type = GeomType.CUBE
  · rw [sampleLight_area_cube E box sphere u intersection0 leftToRight intersect normal wi0
      rng lightPDF0 geoms materials lights num_lights chosen hread hac.1 hac.2]
    refine ⟨_, rfl, rfl, ?_, ?_, ?_⟩
    · intro _ _ ht hg
      simp only at ht hg ⊢
      obtain ⟨g, hg1, hg2⟩ := computeRayIntersection_hit_material box sphere u geoms _
        intersection0 ht
      rw [hg] at hg1
      refine ⟨g, hg1, ?_⟩
      rw [if_pos ⟨ht, hg⟩, hg2]
    · intro _ _ hrej
      simp only at hrej ⊢
      rw [if_neg hrej]
    · intro hun
      rcases hun with h | h
      · exact absurd hac.1 h
      · exact absurd hac.2 h
  · have hun : chosen.lightType ≠ LightType.AREA ∨ chosen.geom.type ≠ GeomType.CUBE := by
      by_cases h : chosen.lightType = LightType.AREA
      · exact Or.inr (fun h2 => hac ⟨h, h2⟩)
      · exact Or.inl h
    rw [sampleLight_unmatched E box sphere u intersection0 leftToRight intersect normal wi0
      rng lightPDF0 geoms materials lights num_lights chosen hread hun]
    refine ⟨_, rfl, rfl, ?_, ?_, ?_⟩
    · intro h1 h2
      exact absurd ⟨h1, h2⟩ hac
    · intro h1 h2
      exact absurd ⟨h1, h2⟩ hac
    · intro _
      rfl

/-- The draw `1/2` selects the only light of a one-light scene. -/
theorem readAt_single_light :
    readAt [(boxLight : Light ℝ)] (chosenLightIndex (1 / 2 : ℝ) 1) = some boxLight := by
  obtain ⟨a, b⟩ := chosenLightIndex_range (1 / 2 : ℝ) 1 le_rfl (by norm_num) (by norm_num)
  have h0 : chosenLightIndex (1 / 2 : ℝ) 1 = 0 := by omega
  rw [h0]
  rfl

/-- The scan of the scene holding only the box light, with `scaleYTest`:
the light is hit at `t = 1` for every ray. -/
theorem computeRayIntersection_boxLight_alone (ray : Ray ℝ) :
    computeRayIntersection scaleYTest scaleYTest zeroUninit [(boxLight : Light ℝ).geom] ray
        zeroRecord =
      { t := 1, surfaceNormal := ⟨0, 0, 0⟩, surfaceTangent := ⟨0, 0, 0⟩, materialId := 0,
        geomId := 0 } := by
  have hlt : (1 : ℝ) < 2 ^ 128 - 2 ^ 104 := by norm_num
  simp [computeRayIntersection, scanLoop, scanStep, dispatch, scanInit, scaleYTest, boxLight,
    zeroUninit, FLT_MAX, hlt]

/-- The scan of the scene holding the box light and the nearer sphere
`occluder`, with `scaleYTest`: the sphere, index 1, is hit at `t = 1/2`. -/
theorem computeRayIntersection_boxLight_occluded (ray : Ray ℝ) :
    computeRayIntersection scaleYTest scaleYTest zeroUninit
        [(boxLight : Light ℝ).geom, occluder] ray zeroRecord =
      { t := 1 / 2, surfaceNormal := ⟨0, 0, 0⟩, surfaceTangent := ⟨0, 0, 0⟩, materialId := 0,
        geomId := 1 } := by
  have hlt : (1 : ℝ) < 2 ^ 128 - 2 ^ 104 := by norm_num
  have h2 : (2 : ℝ)⁻¹ < 1 := by norm_num
  simp [computeRayIntersection, scanLoop, scanStep, dispatch, scanInit, scaleYTest, boxLight,
    occluder, zeroUninit, FLT_MAX, hlt, h2]

/-- Witness for C16, over `ℝ` with the real library functions: the box light
alone in the scene is hit by the shadow ray and `sampleLight` returns the
color `(1, 1, 1/2)` of its material times the emittance 5; with the nearer
sphere `occluder` added to the scene it returns the zero vector. -/
theorem sampleLight_visibility_witness :
    (∃ P, sampleLight
          (⟨Real.sqrt, Real.cos, Real.sin, Real.pi, 2 * Real.pi, Real.sqrt (1 / 3)⟩ : MathEnv ℝ)
          scaleYTest scaleYTest zeroUninit zeroRecord true ⟨0, -3, 0⟩ ⟨0, 1, 0⟩ ⟨0, 0, 0⟩
          ⟨fun _ => 1 / 2, 0⟩ 0 [boxLight.geom] [emissiveMaterial] [boxLight] 1 = some P ∧
        P.radiance = some ⟨5, 5, 5 / 2⟩) ∧
      (∃ P, sampleLight
          (⟨Real.sqrt, Real.cos, Real.sin, Real.pi, 2 * Real.pi, Real.sqrt (1 / 3)⟩ : MathEnv ℝ)
          scaleYTest scaleYTest zeroUninit zeroRecord true ⟨0, -3, 0⟩ ⟨0, 1, 0⟩ ⟨0, 0, 0⟩
          ⟨fun _ => 1 / 2, 0⟩ 0 [boxLight.geom, occluder] [emissiveMaterial] [boxLight] 1 =
            some P ∧
        P.radiance = some ⟨0, 0, 0⟩) := by
  constructor
  · obtain ⟨P, hP, _, hA, _, _⟩ := sampleLight_visibility
      (⟨Real.sqrt, Real.cos, Real.sin, Real.pi, 2 * Real.pi, Real.sqrt (1 / 3)⟩ : MathEnv ℝ)
      scaleYTest scaleYTest zeroUninit zeroRecord true ⟨0, -3, 0⟩ ⟨0, 1, 0⟩ ⟨0, 0, 0⟩
      ⟨fun _ => 1 / 2, 0⟩ 0 [boxLight.geom] [emissiveMaterial] [boxLight] 1 boxLight
      readAt_single_light
    refine ⟨P, hP, ?_⟩
    obtain ⟨g, hg, hrad⟩ := hA rfl rfl
      (by rw [computeRayIntersection_boxLight_alone]; norm_num)
      (by rw [computeRayIntersection_boxLight_alone]; rfl)
    have hg2 : g = (boxLight : Light ℝ).geom := by
      have h0 : readAt [(boxLight : Light ℝ).geom] (boxLight : Light ℝ).geom.geomId =
          some (boxLight : Light ℝ).geom := rfl
      rw [h0] at hg
      exact (Option.some.inj hg).symm
    rw [hrad, hg2]
    have h1 : readAt [(emissiveMaterial : Material ℝ)] (boxLight : Light ℝ).geom.materialid =
        some emissiveMaterial := rfl
    rw [h1]
    simp only [Option.map_some', emissiveMaterial, Vec3.smul]
    norm_num
  · obtain ⟨P, hP, _, _, hB, _⟩ := sampleLight_visibility
      (⟨Real.sqrt, Real.cos, Real.sin, Real.pi, 2 * Real.pi, Real.sqrt (1 / 3)⟩ : MathEnv ℝ)
      scaleYTest scaleYTest zeroUninit zeroRecord true ⟨0, -3, 0⟩ ⟨0, 1, 0⟩ ⟨0, 0, 0⟩
      ⟨fun _ => 1 / 2, 0⟩ 0 [boxLight.geom, occluder] [emissiveMaterial] [boxLight] 1 boxLight
      readAt_single_light
    refine ⟨P, hP, ?_⟩
    have h := hB rfl rfl
      (by
        rw [computeRayIntersection_boxLight_occluded]
        intro hc
        have h1 := hc.2
        simp [boxLight] at h1)
    rw [h]
    rfl

/-- C18: the draw counts on the explicit random stream.  `sampleMaterial`
consumes exactly 2 uniforms in the diffuse branch, exactly 1 in the
Fresnel-blended branch and none in the pure-reflection and pure-transmission
branches, and in each branch its value, direction, pdf and specular flag are
the same for any two engines that agree on the draws consumed.  `sampleLight`
on an `AREA` box light consumes exactly 3 uniforms: the first selects the
light, the next two give the sample point on the light (in either evaluation
order), and its radiance, direction, chosen light and pdf are the same for any
two engines that agree on these three draws. -/
theorem draw_counts (E : MathEnv R) (intersect normal tangent : Vec3 R) (m : Material R)
    (wo : Vec3 R) (rng : Rng R) (box sphere : ShapeTest R) (u : Uninit R)
    (intersection0 : ShadeableIntersection R) (leftToRight : Bool) (wi0 : Vec3 R)
    (lightPDF0 : R) (geoms : List (Geom R)) (materials : List (Material R))
    (lights : List (Light R)) (num_lights : Int) (chosen : Light R) :
    (¬ m.hasReflective > 0 ∧ ¬ m.hasRefractive > 0 →
      (sampleMaterial E intersect normal tangent m wo rng).rng =
          { draws := rng.draws, pos := rng.pos + 2 } ∧
        ∀ rng2 : Rng R, rng2.draws rng2.pos = rng.draws rng.pos →
          rng2.draws (rng2.pos + 1) = rng.draws (rng.pos + 1) →
          (sampleMaterial E intersect normal tangent m wo rng2).f =
              (sampleMaterial E intersect normal tangent m wo rng).f ∧
            (sampleMaterial E intersect normal tangent m wo rng2).wi =
              (sampleMaterial E intersect normal tangent m wo rng).wi ∧
            (sampleMaterial E intersect normal tangent m wo rng2).pdf =
              (sampleMaterial E intersect normal tangent m wo rng).pdf ∧
            (sampleMaterial E intersect normal tangent m wo rng2).specular =
              (sampleMaterial E intersect normal tangent m wo rng).specular) ∧
    (m.hasReflective > 0 ∧ m.hasRefractive > 0 →
      (sampleMaterial E intersect normal tangent m wo rng).rng =
          { draws := rng.draws, pos := rng.pos + 1 } ∧
        ∀ rng2 : Rng R, rng2.draws rng2.pos = rng.draws rng.pos →
          (sampleMaterial E intersect normal tangent m wo rng2).f =
              (sampleMaterial E intersect normal tangent m wo rng).f ∧
            (sampleMaterial E intersect normal tangent m wo rng2).wi =
              (sampleMaterial E intersect normal tangent m wo rng).wi ∧
            (sampleMaterial E intersect normal tangent m wo rng2).pdf =
              (sampleMaterial E intersect normal tangent m wo rng).pdf ∧
            (sampleMaterial E intersect normal tangent m wo rng2).specular =
              (sampleMaterial E intersect normal tangent m wo rng).specular) ∧
    ((m.hasReflective > 0 ∧ ¬ m.hasRefractive > 0) ∨
        (¬ m.hasReflective > 0 ∧ m.hasRefractive > 0) →
      (sampleMaterial E intersect normal tangent m wo rng).rng = rng ∧
        ∀ rng2 : Rng R,
          (sampleMaterial E intersect normal tangent m wo rng2).f =
              (sampleMaterial E intersect normal tangent m wo rng).f ∧
            (sampleMaterial E intersect normal tangent m wo rng2).wi =
              (sampleMaterial E intersect normal tangent m wo rng).wi ∧
            (sampleMaterial E intersect normal tangent m wo rng2).pdf =
              (sampleMaterial E intersect normal tangent m wo rng).pdf ∧
            (sampleMaterial E intersect normal tangent m wo rng2).specular =
              (sampleMaterial E intersect normal tangent m wo rng).specular) ∧
    (readAt lights (chosenLightIndex (rng.draws rng.pos) num_lights) = some chosen →
      chosen.lightType = LightType.AREA → chosen.geom.type = GeomType.CUBE →
      ∃ P, sampleLight E box sphere u intersection0 leftToRight intersect normal wi0 rng
          lightPDF0 geoms materials lights num_lights = some P ∧
        P.rng = { draws := rng.draws, pos := rng.pos + 3 } ∧
        P.chosenLight = chosen ∧
        P.wi = Vec3.normalize E.sqrt
          (areaLightDis chosen intersect
            (areaLightSample leftToRight { draws := rng.draws, pos := rng.pos + 1 })) ∧
        ∀ rng2 : Rng R, (∀ i, i < 3 → rng2.draws (rng2.pos + i) = rng.draws (rng.pos + i)) →
          ∃ P2, sampleLight E box sphere u intersection0 leftToRight intersect normal wi0 rng2
              lightPDF0 geoms materials lights num_lights = some P2 ∧
            P2.rng.pos = rng2.pos + 3 ∧
            P2.radiance = P.radiance ∧ P2.wi = P.wi ∧ P2.chosenLight = P.chosenLight ∧
            P2.lightPDF = P.lightPDF) := by
  refine ⟨?_, ?_, ?_, ?_⟩
  · rintro ⟨h1, h2⟩
    constructor
    · rw [sampleMaterial_diffuse_eq E intersect normal tangent m wo rng h1 h2]
      rfl
    · intro rng2 e0 e1
      obtain ⟨c1, c2⟩ := calculateRandomDirectionInHemisphere_congr E normal rng rng2 e0 e1
      rw [sampleMaterial_diffuse_eq E intersect normal tangent m wo rng h1 h2,
        sampleMaterial_diffuse_eq E intersect normal tangent m wo rng2 h1 h2]
      simp only [c1, c2, and_self]
  · intro h
    have hform : ∀ r : Rng R, sampleMaterial E intersect normal tangent m wo r =
        { f := (sampleFresnelSpecularMaterial E.sqrt m normal wo r).1
          wi := (sampleFresnelSpecularMaterial E.sqrt m normal wo r).2.1
          pdf := 1
          specular := true
          rng := (sampleFresnelSpecularMaterial E.sqrt m normal wo r).2.2 } := by
      intro r
      simp only [sampleMaterial]
      rw [if_pos h]
    constructor
    · rw [hform rng]
      exact sampleFresnelSpecularMaterial_rng E.sqrt m normal wo rng
    · intro rng2 e0
      obtain ⟨c1, c2⟩ := sampleFresnelSpecularMaterial_congr E.sqrt m normal wo rng rng2 e0
      rw [hform rng, hform rng2]
      simp only [c1, c2, and_self]
  · intro h
    have hform : ∀ r : Rng R,
        (sampleMaterial E intersect normal tangent m wo r).rng = r ∧
        (sampleMaterial E intersect normal tangent m wo r).f =
          (sampleMaterial E intersect normal tangent m wo rng).f ∧
        (sampleMaterial E intersect normal tangent m wo r).wi =
          (sampleMaterial E intersect normal tangent m wo rng).wi ∧
        (sampleMaterial E intersect normal tangent m wo r).pdf =
          (sampleMaterial E intersect normal tangent m wo rng).pdf ∧
        (sampleMaterial E intersect normal tangent m wo r).specular =
          (sampleMaterial E intersect normal tangent m wo rng).specular := by
      intro r
      rcases h with ⟨h1, h2⟩ | ⟨h1, h2⟩
      · simp only [sampleMaterial, h1, h2, and_false, if_false, if_true, and_self]
      · simp only [sampleMaterial, h1, h2, false_and, if_false, if_true, and_self]
    exact ⟨(hform rng).1, fun rng2 => (hform rng2).2⟩
  · intro hread harea hcube
    refine ⟨_, sampleLight_area_cube E box sphere u intersection0 leftToRight intersect normal
      wi0 rng lightPDF0 geoms materials lights num_lights chosen hread harea hcube, rfl, rfl,
      rfl, ?_⟩
    intro rng2 hagree
    have e0 : rng2.draws rng2.pos = rng.draws rng.pos := by
      have := hagree 0 (by norm_num)
      simpa using this
    have e1 : rng2.draws (rng2.pos + 1) = rng.draws (rng.pos + 1) := hagree 1 (by norm_num)
    have e2 : rng2.draws (rng2.pos + 1 + 1) = rng.draws (rng.pos + 1 + 1) :=
      hagree 2 (by norm_num)
    have hread2 : readAt lights (chosenLightIndex (rng2.draws rng2.pos) num_lights) =
        some chosen := by
      rw [e0]
      exact hread
    have hs : areaLightSample leftToRight { draws := rng2.draws, pos := rng2.pos + 1 } =
        areaLightSample leftToRight { draws := rng.draws, pos := rng.pos + 1 } :=
      areaLightSample_congr leftToRight { draws := rng.draws, pos := rng.pos + 1 }
        { draws := rng2.draws, pos := rng2.pos + 1 } e1 e2
    obtain ⟨_, _, cpdf⟩ := sampleAreaLight_congr E box sphere u intersection0 leftToRight chosen
      intersect normal num_lights wi0 lightPDF0 geoms materials
      { draws := rng.draws, pos := rng.pos + 1 } { draws := rng2.draws, pos := rng2.pos + 1 }
      e1 e2
    refine ⟨_, sampleLight_area_cube E box sphere u intersection0 leftToRight intersect normal
      wi0 rng2 lightPDF0 geoms materials lights num_lights chosen hread2 harea hcube, rfl, ?_,
      ?_, rfl, cpdf⟩
    · simp only [hs]
    · simp only [hs]

theorem draw_counts_witness :
    (sampleMaterial
          (⟨Real.sqrt, Real.cos, Real.sin, Real.pi, 2 * Real.pi, Real.sqrt (1 / 3)⟩ : MathEnv ℝ)
          ⟨0, -3, 0⟩ ⟨0, 1, 0⟩ ⟨1, 0, 0⟩ diffuseMaterial ⟨0, -1, 0⟩ ⟨fun _ => 1 / 2, 0⟩).rng.pos = 2 ∧
      (sampleMaterial
          (⟨Real.sqrt, Real.cos, Real.sin, Real.pi, 2 * Real.pi, Real.sqrt (1 / 3)⟩ : MathEnv ℝ)
          ⟨0, -3, 0⟩ ⟨0, 1, 0⟩ ⟨1, 0, 0⟩ glassMaterial ⟨0, -1, 0⟩ ⟨fun _ => 1 / 2, 0⟩).rng.pos = 1 ∧
      (sampleMaterial
          (⟨Real.sqrt, Real.cos, Real.sin, Real.pi, 2 * Real.pi, Real.sqrt (1 / 3)⟩ : MathEnv ℝ)
          ⟨0, -3, 0⟩ ⟨0, 1, 0⟩ ⟨1, 0, 0⟩ mirrorMaterial ⟨0, -1, 0⟩ ⟨fun _ => 1 / 2, 0⟩).rng.pos = 0 ∧
      ∃ P, sampleLight
          (⟨Real.sqrt, Real.cos, Real.sin, Real.pi, 2 * Real.pi, Real.sqrt (1 / 3)⟩ : MathEnv ℝ)
          scaleYTest scaleYTest zeroUninit zeroRecord true ⟨0, -3, 0⟩ ⟨0, 1, 0⟩ ⟨0, 0, 0⟩
          ⟨fun _ => 1 / 2, 0⟩ 0 [boxLight.geom] [emissiveMaterial] [boxLight] 1 = some P ∧
        P.rng.pos = 3 := by
  refine ⟨?_, ?_, ?_, ?_⟩
  · have h := (draw_counts
      (⟨Real.sqrt, Real.cos, Real.sin, Real.pi, 2 * Real.pi, Real.sqrt (1 / 3)⟩ : MathEnv ℝ)
      ⟨0, -3, 0⟩ ⟨0, 1, 0⟩ ⟨1, 0, 0⟩ diffuseMaterial ⟨0, -1, 0⟩ ⟨fun _ => 1 / 2, 0⟩
      scaleYTest scaleYTest zeroUninit zeroRecord true ⟨0, 0, 0⟩ 0
      [boxLight.geom] [emissiveMaterial] [boxLight] 1 boxLight).1
      ⟨by simp [diffuseMaterial], by simp [diffuseMaterial]⟩
    rw [h.1]
  · have h := (draw_counts
      (⟨Real.sqrt, Real.cos, Real.sin, Real.pi, 2 * Real.pi, Real.sqrt (1 / 3)⟩ : MathEnv ℝ)
      ⟨0, -3, 0⟩ ⟨0, 1, 0⟩ ⟨1, 0, 0⟩ glassMaterial ⟨0, -1, 0⟩ ⟨fun _ => 1 / 2, 0⟩
      scaleYTest scaleYTest zeroUninit zeroRecord true ⟨0, 0, 0⟩ 0
      [boxLight.geom] [emissiveMaterial] [boxLight] 1 boxLight).2.1
      ⟨by simp [glassMaterial], by simp [glassMaterial]⟩
    rw [h.1]
  · have h := (draw_counts
      (⟨Real.sqrt, Real.cos, Real.sin, Real.pi, 2 * Real.pi, Real.sqrt (1 / 3)⟩ : MathEnv ℝ)
      ⟨0, -3, 0⟩ ⟨0, 1, 0⟩ ⟨1, 0, 0⟩ mirrorMaterial ⟨0, -1, 0⟩ ⟨fun _ => 1 / 2, 0⟩
      scaleYTest scaleYTest zeroUninit zeroRecord true ⟨0, 0, 0⟩ 0
      [boxLight.geom] [emissiveMaterial] [boxLight] 1 boxLight).2.2.1
      (Or.inl ⟨by simp [mirrorMaterial], by simp [mirrorMaterial]⟩)
    rw [h.1]
  · obtain ⟨P, hP, hpos, _⟩ := (draw_counts
      (⟨Real.sqrt, Real.cos, Real.sin, Real.pi, 2 * Real.pi, Real.sqrt (1 / 3)⟩ : MathEnv ℝ)
      ⟨0, -3, 0⟩ ⟨0, 1, 0⟩ ⟨1, 0, 0⟩ diffuseMaterial ⟨0, -1, 0⟩ ⟨fun _ => 1 / 2, 0⟩
      scaleYTest scaleYTest zeroUninit zeroRecord true ⟨0, 0, 0⟩ 0
      [boxLight.geom] [emissiveMaterial] [boxLight] 1 boxLight).2.2.2
      readAt_single_light rfl rfl
    exact ⟨P, hP, by rw [hpos]⟩

end LightClaims

end Interactions
